import Mathlib

/-!
Turing-Machine-Explorer: the simulation engine of `turing.cpp`.

A shallow embedding of the engine part of `src/src/turing.cpp` / `turing.h`.

Modelling conventions.

* C++ `int` values and the three enumerations (`state`, `symbol`, `direction`) are `Int`
  ordinals; the enumerators are the named constants below (`STATE_QA = 0`, ...,
  `STATE_QHALT = 16`, `STATE_QACCEPT = 17`, `STATE_QREJECT = 18`, `BLANK = 0`, ..., `LEFT = 0`,
  `RIGHT = 1`).  Nothing in the types forces a stored ordinal to be in its range, so range facts
  are theorems, not typing facts.
* The arrays `values[TAPESIZE]` and `ruleset[NUMSTT][NUMSYM]` are memory contents, functions from
  index to content.  An access whose index is computed at run time (`getTapeCell`, `setTapeCell`,
  `ruleset[a][b]`) is bounds-checked in the model: outside the array the C++ behaviour is
  undefined and the model returns `none`.  The two initialisation loops index with their own
  loop counters and are modelled as folds over `List.range`.
* `/` and `%` on `int` truncate towards zero: `Int.tdiv`, `Int.tmod`.
* `int` is 32 bits wide.  The counter `ticks` is incremented without any bound, so `ticks++` is
  modelled with two's-complement wraparound (`wrapInt`): from 2147483647 it goes to -2147483648.
  The other `int` arithmetic (`loc - 1`, `loc + 1`, `x + loc - 40`, `x - 2`, `y - 10`) is on
  values that the statements keep far from the ends of the range and is not wrapped.
* The curses calls (`reDisplay`, `printTape`, `napms`, `refresh`, ...) do not write any member of
  `sim_obj` and are left out.  `rand()` is a stream `Nat → Nat` of the successive return values;
  `getch()` / `nc_getmouse` results are inputs.
* The members `num_symbols`, `num_states` of `sim_obj` are never read or written and are left out.
-/

namespace TuringExplorer

/-! ## Constants of `turing.h` -/

/-- Window height, `HGT`. -/
def HGT : Int := 24
/-- Window width, `WID`. -/
def WID : Int := 80
/-- Fixed tape size, `TAPESIZE`. -/
def TAPESIZE : Int := 1024
/-- Number of tape symbols, `NUMSYM`. -/
def NUMSYM : Int := 6
/-- Number of non-halting states, `NUMSTT`. -/
def NUMSTT : Int := 16

/-- Enumerator `LEFT` of `direction`. -/
def LEFT : Int := 0
/-- Enumerator `RIGHT` of `direction`. -/
def RIGHT : Int := 1

/-- Enumerator `BLANK` of `symbol`. -/
def BLANK : Int := 0
/-- Enumerator `CROSS` of `symbol`. -/
def CROSS : Int := 1
/-- Enumerator `ASTERISK` of `symbol`. -/
def ASTERISK : Int := 2
/-- Enumerator `AMPERSAND` of `symbol`. -/
def AMPERSAND : Int := 3
/-- Enumerator `ZERO` of `symbol`. -/
def ZERO : Int := 4
/-- Enumerator `ONE` of `symbol`. -/
def ONE : Int := 5

/-- Enumerator `STATE_QA` of `state`, the first of the 16 non-halting states. -/
def STATE_QA : Int := 0
/-- Enumerator `STATE_QP` of `state`, the last of the 16 non-halting states. -/
def STATE_QP : Int := 15
/-- Enumerator `STATE_QHALT` of `state`. -/
def STATE_QHALT : Int := 16
/-- Enumerator `STATE_QACCEPT` of `state`. -/
def STATE_QACCEPT : Int := 17
/-- Enumerator `STATE_QREJECT` of `state`. -/
def STATE_QREJECT : Int := 18

/-! ## Data model -/

/-- The struct `transition`: one rule of the rule-set. -/
structure transition where
  next_state : Int
  write_symbol : Int
  move_head : Int
  curr_state : Int
  curr_symbol : Int

/-- The private members of class `tape_head`. -/
structure tape_head where
  loc : Int
  curr_dir : Int
  curr_state : Int

/-- The private member `values[TAPESIZE]` of class `tape`. -/
structure tape where
  values : Int → Int

/-- The private members of class `sim_obj`. -/
structure sim_obj where
  th_obj : tape_head
  tape_obj : tape
  ruleset : Int → Int → transition
  halt : Bool
  ticks : Int

/-! ## `tape_head` -/

/-- The constructor `tape_head::tape_head`. -/
def tape_head.new : tape_head :=
  { loc := TAPESIZE.tdiv 2, curr_state := STATE_QA, curr_dir := LEFT }

/-- The method `tape_head::moveTapeHead`. -/
def tape_head.moveTapeHead (th : tape_head) : tape_head :=
  let loc1 := if th.curr_dir = LEFT then th.loc - 1 else th.loc + 1
  let loc2 := if loc1 > TAPESIZE - 1 then 0 else loc1
  let loc3 := if loc2 < 0 then TAPESIZE - 1 else loc2
  { th with loc := loc3 }

/-- The method `tape_head::setCurrentState`. -/
def tape_head.setCurrentState (th : tape_head) (s : Int) : tape_head :=
  { th with curr_state := s }

/-- The method `tape_head::setCurrentDirection`. -/
def tape_head.setCurrentDirection (th : tape_head) (d : Int) : tape_head :=
  { th with curr_dir := d }

/-- The method `tape_head::setTapeHeadLoc`. -/
def tape_head.setTapeHeadLoc (th : tape_head) (l : Int) : tape_head :=
  { th with loc := l }

/-- The method `tape_head::getTapeHeadLoc`. -/
def tape_head.getTapeHeadLoc (th : tape_head) : Int := th.loc

/-- The method `tape_head::getCurrentDirection`. -/
def tape_head.getCurrentDirection (th : tape_head) : Int := th.curr_dir

/-- The method `tape_head::getCurrentState`. -/
def tape_head.getCurrentState (th : tape_head) : Int := th.curr_state

/-! ## `tape` -/

/-- The assignment `values[i] = v` on the memory of the tape. -/
def tape.store (t : tape) (i v : Int) : tape :=
  { values := fun k => if k = i then v else t.values k }

/-- The method `tape::setupTape`: the loop `for (i = 0; i < TAPESIZE; ++i) values[i] = (symbol)0`. -/
def tape.setupTape (t : tape) : tape :=
  (List.range TAPESIZE.toNat).foldl (fun acc (i : Nat) => acc.store (i : Int) 0) t

/-- The method `tape::setTapeCell`; `none` when `position` is outside `values`. -/
def tape.setTapeCell (t : tape) (new_val position : Int) : Option tape :=
  if 0 ≤ position ∧ position < TAPESIZE then some (t.store position new_val) else none

/-- The method `tape::getTapeCell`; `none` when `position` is outside `values`. -/
def tape.getTapeCell (t : tape) (position : Int) : Option Int :=
  if 0 ≤ position ∧ position < TAPESIZE then some (t.values position) else none

/-! ## `sim_obj`: the rule-set memory -/

/-- The read `ruleset[a][b]`; `none` when an index is outside the `NUMSTT x NUMSYM` array. -/
def sim_obj.rule (s : sim_obj) (a b : Int) : Option transition :=
  if 0 ≤ a ∧ a < NUMSTT ∧ 0 ≤ b ∧ b < NUMSYM then some (s.ruleset a b) else none

/-- Replace the content of `ruleset[a][b]`, every other entry kept. -/
def storeRule (rs : Int → Int → transition) (a b : Int) (t : transition) :
    Int → Int → transition :=
  fun i j => if i = a ∧ j = b then t else rs i j

/-- A write to a member of `ruleset[a][b]`: `f` maps the old entry to the new one; `none` when an
index is outside the array. -/
def sim_obj.updateRule (s : sim_obj) (a b : Int) (f : transition → transition) :
    Option sim_obj :=
  if 0 ≤ a ∧ a < NUMSTT ∧ 0 ≤ b ∧ b < NUMSYM then
    some { s with ruleset := storeRule s.ruleset a b (f (s.ruleset a b)) }
  else none

/-! ## `sim_obj::applyTransition` -/

/-- The method `sim_obj::applyTransition`. -/
def sim_obj.applyTransition (s : sim_obj) : Option sim_obj := do
  let tape_head_loc := s.th_obj.getTapeHeadLoc
  let current_symbol ← s.tape_obj.getTapeCell tape_head_loc
  let current_state := s.th_obj.getCurrentState
  let r ← s.rule current_state current_symbol
  let th1 := s.th_obj.setCurrentState r.next_state
  if th1.getCurrentState ≠ STATE_QACCEPT ∧ th1.getCurrentState ≠ STATE_QREJECT
      ∧ th1.getCurrentState ≠ STATE_QHALT then
    let th2 := th1.setCurrentDirection r.move_head
    let tape2 ← s.tape_obj.setTapeCell r.write_symbol tape_head_loc
    some { s with th_obj := th2, tape_obj := tape2 }
  else
    some { s with th_obj := th1, halt := true }

/-! ## Initialisation -/

/-- The body of the inner loop of `sim_obj::setupTransitionTable` at `(i, j)`.  The accumulator
holds the rule-set memory and the number of calls of `rand()` made so far; with `rnd == false`
the conditional expressions do not call `rand()`. -/
def setupRule (rnd : Bool) (rand : Nat → Nat) (acc : (Int → Int → transition) × Nat)
    (i j : Nat) : (Int → Int → transition) × Nat :=
  if rnd = false then
    (storeRule acc.1 i j
      { curr_state := i, curr_symbol := j, next_state := 0, write_symbol := 0, move_head := 0 },
     acc.2)
  else
    (storeRule acc.1 i j
      { curr_state := i, curr_symbol := j,
        next_state := ((rand acc.2 : Nat) : Int).tmod (NUMSTT + 3),
        write_symbol := ((rand (acc.2 + 1) : Nat) : Int).tmod NUMSYM,
        move_head := ((rand (acc.2 + 2) : Nat) : Int).tmod 2 },
     acc.2 + 3)

/-- The method `sim_obj::setupTransitionTable`, on the rule-set memory: the two nested loops
`for (i = 0; i < NUMSTT; ++i) for (j = 0; j < NUMSYM; ++j)`. -/
def setupTransitionTable (rnd : Bool) (rand : Nat → Nat) (rs : Int → Int → transition) :
    Int → Int → transition :=
  ((List.range NUMSTT.toNat).foldl
    (fun acc i => (List.range NUMSYM.toNat).foldl (fun acc2 j => setupRule rnd rand acc2 i j) acc)
    (rs, 0)).1

/-- The method `sim_obj::reInitializeEverything`; `rand` gives the values that the calls of
`rand()` made during this reset return, in order. -/
def sim_obj.reInitializeEverything (s : sim_obj) (rnd : Bool) (rand : Nat → Nat) : sim_obj :=
  let th1 := s.th_obj.setCurrentState STATE_QA
  let th2 := th1.setCurrentDirection LEFT
  let th3 := th2.setTapeHeadLoc (TAPESIZE.tdiv 2)
  { halt := false
    ticks := 0
    th_obj := th3
    ruleset := setupTransitionTable rnd rand s.ruleset
    tape_obj := s.tape_obj.setupTape }

/-! ## Rule editing and mouse clicks -/

/-- The method `sim_obj::getNextRuleDirection`. -/
def sim_obj.getNextRuleDirection (s : sim_obj) (state_int symbol_int : Int) : Option Int := do
  let r ← s.rule state_int symbol_int
  some ((r.move_head + 1).tmod 2)

/-- The method `sim_obj::getNextRuleSymbol`. -/
def sim_obj.getNextRuleSymbol (s : sim_obj) (state_int symbol_int : Int) : Option Int := do
  let r ← s.rule state_int symbol_int
  some ((r.write_symbol + 1).tmod NUMSYM)

/-- The method `sim_obj::getNextRuleState`. -/
def sim_obj.getNextRuleState (s : sim_obj) (state_int symbol_int : Int) : Option Int := do
  let r ← s.rule state_int symbol_int
  some ((r.next_state + 1).tmod (NUMSTT + 3))

/-- The statement `ruleset[a][b].next_state = getNextRuleState(a, b)`. -/
def sim_obj.cycleNextState (s : sim_obj) (state_int symbol_int : Int) : Option sim_obj := do
  let v ← s.getNextRuleState state_int symbol_int
  s.updateRule state_int symbol_int (fun t => { t with next_state := v })

/-- The statement `ruleset[a][b].write_symbol = getNextRuleSymbol(a, b)`. -/
def sim_obj.cycleWriteSymbol (s : sim_obj) (state_int symbol_int : Int) : Option sim_obj := do
  let v ← s.getNextRuleSymbol state_int symbol_int
  s.updateRule state_int symbol_int (fun t => { t with write_symbol := v })

/-- The statement `ruleset[a][b].move_head = getNextRuleDirection(a, b)`. -/
def sim_obj.cycleMoveHead (s : sim_obj) (state_int symbol_int : Int) : Option sim_obj := do
  let v ← s.getNextRuleDirection state_int symbol_int
  s.updateRule state_int symbol_int (fun t => { t with move_head := v })

/-- The method `sim_obj::checkTransitionTableClick`: inside the rows of the table, the three
`if` statements on `x % 5` one after the other. -/
def sim_obj.checkTransitionTableClick (s : sim_obj) (x y : Int) : Option sim_obj :=
  if y.tmod 2 = 0 ∧ y ≥ 10 ∧ y ≤ 20 then do
    let symbol_int := (y - 10).tdiv 2
    let s1 ← (if x.tmod 5 = 2 then s.cycleNextState ((x - 2).tdiv 5) symbol_int else some s)
    let s2 ← (if x.tmod 5 = 3 then s1.cycleWriteSymbol ((x - 3).tdiv 5) symbol_int else some s1)
    let s3 ← (if x.tmod 5 = 4 then s2.cycleMoveHead ((x - 4).tdiv 5) symbol_int else some s2)
    some s3
  else some s

/-- The method `sim_obj::checkTapeCellAreaClick`. -/
def sim_obj.checkTapeCellAreaClick (s : sim_obj) (x y : Int) : Option sim_obj :=
  if y = 3 then
    let curr_symbol_int := x + s.th_obj.getTapeHeadLoc - WID.tdiv 2
    if curr_symbol_int ≥ 0 ∧ curr_symbol_int ≤ TAPESIZE - 1 then do
      let c ← s.tape_obj.getTapeCell curr_symbol_int
      let t ← s.tape_obj.setTapeCell ((c + 1).tmod NUMSYM) curr_symbol_int
      some { s with tape_obj := t }
    else some s
  else some s

/-- The method `sim_obj::checkTapeHeadAreaClick`. -/
def sim_obj.checkTapeHeadAreaClick (s : sim_obj) (x y : Int) : Option sim_obj :=
  if y = 0 ∨ y = 1 then
    let curr_symbol_int := x + s.th_obj.getTapeHeadLoc - WID.tdiv 2
    if curr_symbol_int ≥ 0 ∧ curr_symbol_int ≤ TAPESIZE - 1 then
      some { s with th_obj := s.th_obj.setTapeHeadLoc curr_symbol_int }
    else some s
  else some s

/-- The method `sim_obj::checkClick`, for the mouse position `(x, y)` that `nc_getmouse`
reports. -/
def sim_obj.checkClick (s : sim_obj) (x y : Int) : Option sim_obj := do
  let s1 ← s.checkTransitionTableClick x y
  let s2 ← s1.checkTapeCellAreaClick x y
  s2.checkTapeHeadAreaClick x y

/-! ## The run loop -/

/-- The value that a 32-bit `int` holds after a computation with the mathematical result `v`:
two's-complement wraparound into `[-2147483648, 2147483647]`. -/
def wrapInt (v : Int) : Int := (v + 2147483648) % 4294967296 - 2147483648

/-- One pass through the body of the `do ... while` loop of `sim_obj::simulate`:
`applyTransition()`, then `if (halt) break;`, else `th_obj.moveTapeHead(); ticks++`. -/
def sim_obj.simulateIter (s : sim_obj) : Option sim_obj := do
  let s1 ← s.applyTransition
  if s1.halt then some s1
  else some { s1 with th_obj := s1.th_obj.moveTapeHead, ticks := wrapInt (s1.ticks + 1) }

/-- Where the control of `runApp` stands: waiting in the `getch()` of `runApp`, at the top of
the loop body of `simulate` (about to call `applyTransition`), waiting in the `getch()` of
`simulate`, or after the loop of `runApp` was left with `q`. -/
inductive control where
  | runAppGetch
  | simulateTop
  | simulateGetch
  | exited
  deriving DecidableEq, Repr

/-- What the environment delivers at a `getch()`: the key code, the mouse position a following
`nc_getmouse` reports, and the values the following calls of `rand()` return. -/
structure input where
  key : Int
  mx : Int
  my : Int
  rand : Nat → Nat

/-- The simulation object together with the control point of `runApp`. -/
structure app where
  sim : sim_obj
  pc : control

/-- One pass through the body of the loop of `sim_obj::runApp` with `keyp = inp.key`, up to the
next control point.  `KEY_MOUSE` is the constant of `curses.h`; the character constants are
`' ' = 32`, `'i' = 105`, `'r' = 114`.  When `simulate()` is entered `keyp` is `' '`, so neither
reset of the same pass runs after it returns. -/
def runAppBody (KEY_MOUSE : Int) (inp : input) (s : sim_obj) : Option app := do
  let s1 ← (if inp.key = KEY_MOUSE then s.checkClick inp.mx inp.my else some s)
  if inp.key = 32 ∧ s1.halt = false then
    some { sim := s1, pc := control.simulateTop }
  else
    let s2 := if inp.key = 105 then s1.reInitializeEverything false inp.rand else s1
    let s3 := if inp.key = 114 then s2.reInitializeEverything true inp.rand else s2
    some { sim := s3, pc := control.runAppGetch }

/-- One step of `runApp` from a control point to the next; `inp` is read at the two `getch()`
points only (`'q' = 113`, `' ' = 32`). -/
def app.next (KEY_MOUSE : Int) (c : app) (inp : input) : Option app :=
  match c.pc with
  | control.exited => some c
  | control.runAppGetch =>
      if inp.key = 113 then some { c with pc := control.exited }
      else runAppBody KEY_MOUSE inp c.sim
  | control.simulateTop => do
      let s1 ← c.sim.simulateIter
      some { sim := s1, pc := if s1.halt then control.runAppGetch else control.simulateGetch }
  | control.simulateGetch =>
      if inp.key ≠ 32 then some { c with pc := control.simulateTop }
      else some { c with pc := control.runAppGetch }

/-- The method `sim_obj::runApp` along a finite sequence of inputs: `reInitializeEverything(false)`,
the first pass of the loop body with `keyp = 'a'` (97), then one step per input. -/
def runApp (KEY_MOUSE : Int) (s0 : sim_obj) (first : input) (inputs : List input) :
    Option app := do
  let c0 ← runAppBody KEY_MOUSE { first with key := 97 }
    (s0.reInitializeEverything false first.rand)
  inputs.foldlM (fun c inp => c.next KEY_MOUSE inp) c0

/-! ## Operations of the engine, in any order -/

/-- The operations that change the simulation object. -/
inductive Op where
  | step
  | move
  | ruleClick (x y : Int)
  | tapeClick (x y : Int)
  | headClick (x y : Int)
  | reset (rnd : Bool) (rand : Nat → Nat)

/-- The effect of one operation. -/
def sim_obj.applyOp (s : sim_obj) : Op → Option sim_obj
  | Op.step => s.applyTransition
  | Op.move => some { s with th_obj := s.th_obj.moveTapeHead }
  | Op.ruleClick x y => s.checkTransitionTableClick x y
  | Op.tapeClick x y => s.checkTapeCellAreaClick x y
  | Op.headClick x y => s.checkTapeHeadAreaClick x y
  | Op.reset rnd rand => some (s.reInitializeEverything rnd rand)

/-- The effect of a sequence of operations, first to last. -/
def sim_obj.applyOps (s : sim_obj) (ops : List Op) : Option sim_obj :=
  ops.foldlM (fun acc op => acc.applyOp op) s

/-- Whether an operation is a reset. -/
def Op.isReset : Op → Bool
  | Op.reset _ _ => true
  | _ => false

/-! ## Predicates used in the statements -/

/-- The three halting states. -/
def isHalting (q : Int) : Prop :=
  q = STATE_QHALT ∨ q = STATE_QACCEPT ∨ q = STATE_QREJECT

instance isHalting.decide (q : Int) : Decidable (isHalting q) :=
  inferInstanceAs (Decidable (q = STATE_QHALT ∨ q = STATE_QACCEPT ∨ q = STATE_QREJECT))

/-- A rule whose three fields are in their domains. -/
def validRule (t : transition) : Prop :=
  (0 ≤ t.next_state ∧ t.next_state ≤ 18) ∧ (0 ≤ t.write_symbol ∧ t.write_symbol ≤ 5)
    ∧ (t.move_head = LEFT ∨ t.move_head = RIGHT)

/-- Head position inside the tape, every tape cell a symbol, every rule valid. -/
def wellFormed (s : sim_obj) : Prop :=
  (0 ≤ s.th_obj.loc ∧ s.th_obj.loc < TAPESIZE)
    ∧ (∀ p : Int, 0 ≤ p → p < TAPESIZE →
        0 ≤ s.tape_obj.values p ∧ s.tape_obj.values p ≤ 5)
    ∧ (∀ a b : Int, 0 ≤ a → a < NUMSTT → 0 ≤ b → b < NUMSYM → validRule (s.ruleset a b))

/-- The invariant of the engine: the state is well formed, `halt` is set exactly in the halting
states, and the head state is one of the 19 states. -/
def engineInv (s : sim_obj) : Prop :=
  wellFormed s ∧ (s.halt = true ↔ isHalting s.th_obj.curr_state)
    ∧ (0 ≤ s.th_obj.curr_state ∧ s.th_obj.curr_state ≤ 18)

/-- An edit of the rule table: head, tape, `halt` and `ticks` are kept, and a table of valid rules
stays a table of valid rules. -/
def ruleEdit (s s2 : sim_obj) : Prop :=
  s2.th_obj = s.th_obj ∧ s2.tape_obj = s.tape_obj ∧ s2.halt = s.halt ∧ s2.ticks = s.ticks
    ∧ ((∀ a b : Int, 0 ≤ a → a < NUMSTT → 0 ≤ b → b < NUMSYM → validRule (s.ruleset a b)) →
        ∀ a b : Int, 0 ≤ a → a < NUMSTT → 0 ≤ b → b < NUMSYM → validRule (s2.ruleset a b))

/-- The invariant of `runApp`: the engine invariant, and inside the loop of `simulate` the
machine has not halted. -/
def appInv (c : app) : Prop :=
  engineInv c.sim
    ∧ ((c.pc = control.simulateTop ∨ c.pc = control.simulateGetch) → c.sim.halt = false)

/-! ## Concrete states used as test inputs -/

/-- A memory image with every word zero. -/
def zeroed : sim_obj :=
  { th_obj := { loc := 0, curr_dir := 0, curr_state := 0 }
    tape_obj := { values := fun _ => 0 }
    ruleset := fun _ _ =>
      { next_state := 0, write_symbol := 0, move_head := 0, curr_state := 0, curr_symbol := 0 }
    halt := false
    ticks := 0 }

/-- A state at position 512 in state `STATE_QA` on a blank tape whose every rule is
`(next, write, dir)`. -/
def uniformMachine (next write dir : Int) : sim_obj :=
  { th_obj := { loc := 512, curr_dir := LEFT, curr_state := STATE_QA }
    tape_obj := { values := fun _ => BLANK }
    ruleset := fun i j =>
      { next_state := next, write_symbol := write, move_head := dir,
        curr_state := i, curr_symbol := j }
    halt := false
    ticks := 7 }

/-- A halted state with a scribbled tape, a displaced head and a table of junk rules. -/
def scrambled : sim_obj :=
  { th_obj := { loc := 3, curr_dir := RIGHT, curr_state := STATE_QREJECT }
    tape_obj := { values := fun _ => ZERO }
    ruleset := fun _ _ =>
      { next_state := 40, write_symbol := 9, move_head := 7, curr_state := 0, curr_symbol := 0 }
    halt := true
    ticks := 99 }

/-- A stream of random values, none of them in the domain of any rule field. -/
def sampleRand (k : Nat) : Nat := 1000 + 37 * k

/-- Seventeen clicks on the `next_state` character of rule (state 0, Blank), then one step. -/
def haltingOps : List Op :=
  List.replicate 17 (Op.ruleClick 2 10) ++ [Op.step]

/-- A click on the tape cell under the head, a click that moves the head one cell to the right,
a click on the `write_symbol` character of rule (state 0, Cross), a step and a head move. -/
def mixedOps : List Op :=
  [Op.tapeClick 40 3, Op.headClick 41 0, Op.ruleClick 3 12, Op.step, Op.move]

/-- A session of `runApp`: a click on the `next_state` character of rule (state 0, Blank), the
space key, one pass of the loop of `simulate`, and a `getch()` that returns `ERR` (-1). -/
def sampleSession : List input :=
  [{ key := 539, mx := 2, my := 10, rand := sampleRand },
   { key := 32, mx := 0, my := 0, rand := sampleRand },
   { key := 0, mx := 0, my := 0, rand := sampleRand },
   { key := -1, mx := 0, my := 0, rand := sampleRand }]

/-! ## Repetition -/

/-- Run a fallible operation `k` times in a row. -/
def repeatOpt (f : sim_obj → Option sim_obj) : Nat → sim_obj → Option sim_obj
  | 0, s => some s
  | k + 1, s => (f s).bind (repeatOpt f k)

/-- The session that halts the default machine: seventeen clicks on the `next_state` character
of rule (state 0, Blank), the space key, and one pass of the loop of `simulate`. -/
def haltingSession : List input :=
  List.replicate 17 { key := 539, mx := 2, my := 10, rand := sampleRand }
    ++ [{ key := 32, mx := 0, my := 0, rand := sampleRand },
        { key := 0, mx := 0, my := 0, rand := sampleRand }]

/-- The default machine after `n` passes of the run loop: not halted, in state 0 with pending
direction Left at position `(512 - n) mod 1024`, `ticks` equal to `n` wrapped to 32 bits, the
tape all Blank and every rule (state 0, Blank, Left). -/
def defaultMachineAt (s : sim_obj) (n : Nat) : Prop :=
  s.halt = false ∧ s.th_obj.curr_state = STATE_QA ∧ s.th_obj.curr_dir = LEFT
    ∧ s.th_obj.loc = (512 - (n : Int)) % 1024 ∧ s.ticks = wrapInt (n : Int)
    ∧ (∀ p : Int, 0 ≤ p → p < TAPESIZE → s.tape_obj.values p = BLANK)
    ∧ (∀ a b : Int, 0 ≤ a → a < NUMSTT → 0 ≤ b → b < NUMSYM →
        (s.ruleset a b).next_state = STATE_QA ∧ (s.ruleset a b).write_symbol = BLANK
          ∧ (s.ruleset a b).move_head = LEFT)

/-! ## The caller's discipline -/

/-- Whether the caller's discipline allows an operation at a state: a step only while the
machine has not halted (`runApp` tests `!halt`, `simulate` breaks on `halt`), a click on the
rule table only at a column of the window; every other operation always. -/
def Op.allowedAt (s : sim_obj) : Op → Bool
  | Op.step => !s.halt
  | Op.ruleClick x _ => decide (0 ≤ x ∧ x < WID)
  | _ => true

/-- Whether every operation of a sequence is allowed at the state it is applied to.  Nothing is
asked of a sequence beyond a point where the code has no defined result. -/
def sim_obj.allows : sim_obj → List Op → Bool
  | _, [] => true
  | s, op :: ops =>
    op.allowedAt s && (match s.applyOp op with
      | some s2 => s2.allows ops
      | none => true)

/-- Whether a mouse position is at a column of the window. -/
def input.inWindow (inp : input) : Bool :=
  decide (0 ≤ inp.mx ∧ inp.mx < WID)

/-- The session that halts the default machine, followed by one click at `(82, 10)`: a
`next_state` character position (`82 % 5 == 2`) two columns past the 80 columns of the table. -/
def beyondTableSession : List input :=
  haltingSession ++ [{ key := 539, mx := 82, my := 10, rand := sampleRand }]

/-! ## `applyTransition` and `moveTapeHead` -/

/-- The state `applyTransition` produces on its non-halting branch for the rule `r`. -/
theorem applyTransition_of_not_halting (s : sim_obj)
    (hp : 0 ≤ s.th_obj.loc ∧ s.th_obj.loc < TAPESIZE)
    (hq : 0 ≤ s.th_obj.curr_state ∧ s.th_obj.curr_state < NUMSTT)
    (hc : 0 ≤ s.tape_obj.values s.th_obj.loc ∧ s.tape_obj.values s.th_obj.loc < NUMSYM)
    (hn : ¬ isHalting (s.ruleset s.th_obj.curr_state (s.tape_obj.values s.th_obj.loc)).next_state) :
    s.applyTransition = some
      { s with
        th_obj :=
          { loc := s.th_obj.loc
            curr_dir := (s.ruleset s.th_obj.curr_state (s.tape_obj.values s.th_obj.loc)).move_head
            curr_state :=
              (s.ruleset s.th_obj.curr_state (s.tape_obj.values s.th_obj.loc)).next_state }
        tape_obj := s.tape_obj.store s.th_obj.loc
          (s.ruleset s.th_obj.curr_state (s.tape_obj.values s.th_obj.loc)).write_symbol } := by
  have h1 : (s.ruleset s.th_obj.curr_state (s.tape_obj.values s.th_obj.loc)).next_state
      ≠ STATE_QACCEPT := fun h => hn (Or.inr (Or.inl h))
  have h2 : (s.ruleset s.th_obj.curr_state (s.tape_obj.values s.th_obj.loc)).next_state
      ≠ STATE_QREJECT := fun h => hn (Or.inr (Or.inr h))
  have h3 : (s.ruleset s.th_obj.curr_state (s.tape_obj.values s.th_obj.loc)).next_state
      ≠ STATE_QHALT := fun h => hn (Or.inl h)
  simp [sim_obj.applyTransition, tape.getTapeCell, tape.setTapeCell, sim_obj.rule,
    tape_head.getTapeHeadLoc, tape_head.getCurrentState, tape_head.setCurrentState,
    tape_head.setCurrentDirection, hp, hq, hc, h1, h2, h3]

/-- The state `applyTransition` produces on its halting branch. -/
theorem applyTransition_of_halting (s : sim_obj)
    (hp : 0 ≤ s.th_obj.loc ∧ s.th_obj.loc < TAPESIZE)
    (hq : 0 ≤ s.th_obj.curr_state ∧ s.th_obj.curr_state < NUMSTT)
    (hc : 0 ≤ s.tape_obj.values s.th_obj.loc ∧ s.tape_obj.values s.th_obj.loc < NUMSYM)
    (hn : isHalting (s.ruleset s.th_obj.curr_state (s.tape_obj.values s.th_obj.loc)).next_state) :
    s.applyTransition = some
      { s with
        th_obj :=
          { s.th_obj with
            curr_state :=
              (s.ruleset s.th_obj.curr_state (s.tape_obj.values s.th_obj.loc)).next_state }
        halt := true } := by
  have h : ¬ ((s.ruleset s.th_obj.curr_state (s.tape_obj.values s.th_obj.loc)).next_state
        ≠ STATE_QACCEPT
      ∧ (s.ruleset s.th_obj.curr_state (s.tape_obj.values s.th_obj.loc)).next_state
        ≠ STATE_QREJECT
      ∧ (s.ruleset s.th_obj.curr_state (s.tape_obj.values s.th_obj.loc)).next_state
        ≠ STATE_QHALT) := by
    rcases hn with h | h | h <;> simp [h]
  simp only [sim_obj.applyTransition, tape.getTapeCell, sim_obj.rule,
    tape_head.getTapeHeadLoc, tape_head.getCurrentState, tape_head.setCurrentState,
    hp, hq, hc, and_self, if_true, Option.bind_eq_bind, Option.some_bind, if_neg h]

/-- Claim C1 (non-halting step).  With the head state in 0..15, the head position `p` in
`[0, 1024)` and the symbol under the head in 0..5, when the rule for that state and symbol has a
`next_state` that is none of Halt, Accept, Reject, `applyTransition` returns a state whose head
state is the rule's `next_state`, whose pending direction is the rule's `move_head`, whose tape
holds the rule's `write_symbol` at `p`; `halt` is still false, and the head position, every other
tape cell and the whole rule table are unchanged. -/
theorem applyTransition_non_halting_step (s : sim_obj) (hhalt : s.halt = false)
    (hq : 0 ≤ s.th_obj.curr_state ∧ s.th_obj.curr_state ≤ 15)
    (hp : 0 ≤ s.th_obj.loc ∧ s.th_obj.loc < 1024)
    (hc : 0 ≤ s.tape_obj.values s.th_obj.loc ∧ s.tape_obj.values s.th_obj.loc ≤ 5)
    (hn : ¬ isHalting (s.ruleset s.th_obj.curr_state (s.tape_obj.values s.th_obj.loc)).next_state) :
    ∃ s2 : sim_obj, s.applyTransition = some s2
      ∧ s2.th_obj.curr_state
          = (s.ruleset s.th_obj.curr_state (s.tape_obj.values s.th_obj.loc)).next_state
      ∧ s2.th_obj.curr_dir
          = (s.ruleset s.th_obj.curr_state (s.tape_obj.values s.th_obj.loc)).move_head
      ∧ s2.tape_obj.values s.th_obj.loc
          = (s.ruleset s.th_obj.curr_state (s.tape_obj.values s.th_obj.loc)).write_symbol
      ∧ s2.halt = false
      ∧ s2.th_obj.loc = s.th_obj.loc
      ∧ (∀ q : Int, q ≠ s.th_obj.loc → s2.tape_obj.values q = s.tape_obj.values q)
      ∧ s2.ruleset = s.ruleset := by
  have hq2 : 0 ≤ s.th_obj.curr_state ∧ s.th_obj.curr_state < NUMSTT := by
    simp only [NUMSTT]; omega
  have hp2 : 0 ≤ s.th_obj.loc ∧ s.th_obj.loc < TAPESIZE := by
    simp only [TAPESIZE]; omega
  have hc2 : 0 ≤ s.tape_obj.values s.th_obj.loc ∧ s.tape_obj.values s.th_obj.loc < NUMSYM := by
    simp only [NUMSYM]; omega
  refine ⟨_, applyTransition_of_not_halting s hp2 hq2 hc2 hn, rfl, rfl, ?_, hhalt, rfl, ?_, rfl⟩
  · simp [tape.store]
  · intro q hne
    simp [tape.store, hne]

/-- Claim C2 (halt freezes tape).  With the head state in 0..15, the head position in
`[0, 1024)` and the symbol under the head in 0..5, when the rule for that state and symbol has
`next_state` Halt, Accept or Reject, `applyTransition` returns a state with `halt = true` and that
halting state as head state; the tape, the head position and the pending direction are unchanged,
for every value of the rule's `write_symbol` and `move_head`. -/
theorem applyTransition_halting_step (s : sim_obj)
    (hq : 0 ≤ s.th_obj.curr_state ∧ s.th_obj.curr_state ≤ 15)
    (hp : 0 ≤ s.th_obj.loc ∧ s.th_obj.loc < 1024)
    (hc : 0 ≤ s.tape_obj.values s.th_obj.loc ∧ s.tape_obj.values s.th_obj.loc ≤ 5)
    (hn : isHalting (s.ruleset s.th_obj.curr_state (s.tape_obj.values s.th_obj.loc)).next_state) :
    ∃ s2 : sim_obj, s.applyTransition = some s2
      ∧ s2.halt = true
      ∧ s2.th_obj.curr_state
          = (s.ruleset s.th_obj.curr_state (s.tape_obj.values s.th_obj.loc)).next_state
      ∧ isHalting s2.th_obj.curr_state
      ∧ (∀ q : Int, s2.tape_obj.values q = s.tape_obj.values q)
      ∧ s2.th_obj.loc = s.th_obj.loc
      ∧ s2.th_obj.curr_dir = s.th_obj.curr_dir := by
  have hq2 : 0 ≤ s.th_obj.curr_state ∧ s.th_obj.curr_state < NUMSTT := by
    simp only [NUMSTT]; omega
  have hp2 : 0 ≤ s.th_obj.loc ∧ s.th_obj.loc < TAPESIZE := by
    simp only [TAPESIZE]; omega
  have hc2 : 0 ≤ s.tape_obj.values s.th_obj.loc ∧ s.tape_obj.values s.th_obj.loc < NUMSYM := by
    simp only [NUMSYM]; omega
  exact ⟨_, applyTransition_of_halting s hp2 hq2 hc2 hn, rfl, rfl, hn, fun _ => rfl, rfl, rfl⟩

/-- Witness of C1: the machine whose every rule is (state 3, Asterisk, Right), at position 512. -/
theorem applyTransition_non_halting_step_witness :
    ∃ s2 : sim_obj, (uniformMachine 3 ASTERISK RIGHT).applyTransition = some s2
      ∧ s2.th_obj.curr_state = 3 ∧ s2.th_obj.curr_dir = RIGHT
      ∧ s2.tape_obj.values 512 = ASTERISK ∧ s2.halt = false ∧ s2.th_obj.loc = 512
      ∧ s2.tape_obj.values 511 = BLANK := by
  obtain ⟨s2, h, h1, h2, h3, h4, h5, h6, _⟩ :=
    applyTransition_non_halting_step (uniformMachine 3 ASTERISK RIGHT) rfl
      (by decide) (by decide) (by decide) (by decide)
  exact ⟨s2, h, h1, h2, h3, h4, h5, h6 511 (by decide)⟩

/-- Witness of C2: the machine whose every rule is (Accept, One, Right), at position 512. -/
theorem applyTransition_halting_step_witness :
    ∃ s2 : sim_obj, (uniformMachine STATE_QACCEPT ONE RIGHT).applyTransition = some s2
      ∧ s2.halt = true ∧ s2.th_obj.curr_state = STATE_QACCEPT
      ∧ s2.tape_obj.values 512 = BLANK ∧ s2.th_obj.loc = 512 ∧ s2.th_obj.curr_dir = LEFT := by
  obtain ⟨s2, h, h1, h2, _, h4, h5, h6⟩ :=
    applyTransition_halting_step (uniformMachine STATE_QACCEPT ONE RIGHT)
      (by decide) (by decide) (by decide) (by decide)
  exact ⟨s2, h, h1, h2, h4 512, h5, h6⟩

/-! ## Ticks -/

/-- Counterexample to C3.  On the non-halted machine whose every rule leads to Accept, with
`ticks = 7`, neither `applyTransition` nor a whole pass of the loop body of `simulate` changes
`ticks` (it is 7 afterwards, not 8); and on the machine whose every rule leads to state 0,
`applyTransition` alone leaves `ticks = 7` as well. -/
theorem ticks_not_incremented_on_halting_step :
    (uniformMachine STATE_QACCEPT BLANK LEFT).halt = false
      ∧ (uniformMachine STATE_QACCEPT BLANK LEFT).ticks = 7
      ∧ Option.map sim_obj.ticks (uniformMachine STATE_QACCEPT BLANK LEFT).applyTransition
          = some 7
      ∧ Option.map sim_obj.ticks (uniformMachine STATE_QACCEPT BLANK LEFT).simulateIter
          = some 7
      ∧ Option.map sim_obj.ticks (uniformMachine STATE_QACCEPT BLANK LEFT).simulateIter
          ≠ some ((uniformMachine STATE_QACCEPT BLANK LEFT).ticks + 1)
      ∧ Option.map sim_obj.ticks (uniformMachine STATE_QA BLANK LEFT).applyTransition
          = some 7 := by
  have hsim : Option.map sim_obj.ticks (uniformMachine STATE_QACCEPT BLANK LEFT).simulateIter
      = some 7 := by
    rw [sim_obj.simulateIter,
      applyTransition_of_halting _ (by decide) (by decide) (by decide) (by decide)]
    rfl
  refine ⟨rfl, rfl, ?_, hsim, ?_, ?_⟩
  · rw [applyTransition_of_halting _ (by decide) (by decide) (by decide) (by decide)]
    rfl
  · rw [hsim]
    decide
  · rw [applyTransition_of_not_halting _ (by decide) (by decide) (by decide) (by decide)]
    rfl

/-- A value inside the range of a 32-bit `int` is not changed by the wraparound. -/
theorem wrapInt_of_range (v : Int) (h : -2147483648 ≤ v ∧ v ≤ 2147483647) : wrapInt v = v := by
  unfold wrapInt
  omega

/-- The wraparound is idempotent under the increment: wrapping before and after `+ 1` is
wrapping after it. -/
theorem wrapInt_succ (v : Int) : wrapInt (wrapInt v + 1) = wrapInt (v + 1) := by
  unfold wrapInt
  omega

/-- Claim C3, amended.  With the head state in 0..15, the head position in `[0, 1024)`, the
symbol under the head in 0..5 and `ticks` an `int` value, `applyTransition` returns a state with
the same `ticks`; one pass of the loop body of `simulate` from a non-halted state returns a
state whose `ticks` is one more when the rule's `next_state` is not a halting state and `ticks`
is below 2147483647 (from 2147483647 the 32-bit counter wraps to -2147483648), and the same
`ticks` (and `halt = true`) when it is Halt, Accept or Reject. -/
theorem simulateIter_ticks (s : sim_obj) (hhalt : s.halt = false)
    (hq : 0 ≤ s.th_obj.curr_state ∧ s.th_obj.curr_state ≤ 15)
    (hp : 0 ≤ s.th_obj.loc ∧ s.th_obj.loc < 1024)
    (hc : 0 ≤ s.tape_obj.values s.th_obj.loc ∧ s.tape_obj.values s.th_obj.loc ≤ 5)
    (ht : -2147483648 ≤ s.ticks ∧ s.ticks ≤ 2147483647) :
    ∃ s1 s2 : sim_obj, s.applyTransition = some s1 ∧ s1.ticks = s.ticks
      ∧ s.simulateIter = some s2
      ∧ (¬ isHalting (s.ruleset s.th_obj.curr_state (s.tape_obj.values s.th_obj.loc)).next_state
          → (s.ticks < 2147483647 → s2.ticks = s.ticks + 1)
            ∧ (s.ticks = 2147483647 → s2.ticks = -2147483648)
            ∧ s2.ticks = wrapInt (s.ticks + 1)
            ∧ s2.halt = false)
      ∧ (isHalting (s.ruleset s.th_obj.curr_state (s.tape_obj.values s.th_obj.loc)).next_state
          → s2.ticks = s.ticks ∧ s2.halt = true) := by
  have hq2 : 0 ≤ s.th_obj.curr_state ∧ s.th_obj.curr_state < NUMSTT := by
    simp only [NUMSTT]; omega
  have hp2 : 0 ≤ s.th_obj.loc ∧ s.th_obj.loc < TAPESIZE := by
    simp only [TAPESIZE]; omega
  have hc2 : 0 ≤ s.tape_obj.values s.th_obj.loc ∧ s.tape_obj.values s.th_obj.loc < NUMSYM := by
    simp only [NUMSYM]; omega
  by_cases hn :
      isHalting (s.ruleset s.th_obj.curr_state (s.tape_obj.values s.th_obj.loc)).next_state
  · have h := applyTransition_of_halting s hp2 hq2 hc2 hn
    have h2 : s.simulateIter = s.applyTransition := by
      simp [sim_obj.simulateIter, h]
    rw [h2, h]
    exact ⟨_, _, rfl, rfl, rfl, fun hno => absurd hn hno, fun _ => ⟨rfl, rfl⟩⟩
  · have h := applyTransition_of_not_halting s hp2 hq2 hc2 hn
    have h2 : s.simulateIter = (s.applyTransition).map
        (fun s1 =>
          { s1 with th_obj := s1.th_obj.moveTapeHead, ticks := wrapInt (s1.ticks + 1) }) := by
      simp [sim_obj.simulateIter, h, hhalt]
    rw [h2, h]
    refine ⟨_, _, rfl, rfl, rfl, fun _ => ⟨?_, ?_, rfl, hhalt⟩, fun hy => absurd hy hn⟩
    · intro hlt
      show wrapInt (s.ticks + 1) = s.ticks + 1
      exact wrapInt_of_range _ (by omega)
    · intro hmax
      show wrapInt (s.ticks + 1) = -2147483648
      rw [hmax]
      decide

/-- Witness of the amended C3: the machine whose every rule is (state 3, Asterisk, Right), with
`ticks = 7` before the pass and 8 after it, and with `ticks = 2147483647` before the pass and
-2147483648 after it. -/
theorem simulateIter_ticks_witness :
    (∃ s1 s2 : sim_obj, (uniformMachine 3 ASTERISK RIGHT).applyTransition = some s1
        ∧ s1.ticks = 7 ∧ (uniformMachine 3 ASTERISK RIGHT).simulateIter = some s2
        ∧ s2.ticks = 8 ∧ s2.halt = false)
      ∧ (∃ s2 : sim_obj,
          sim_obj.simulateIter { uniformMachine 3 ASTERISK RIGHT with ticks := 2147483647 }
            = some s2
          ∧ s2.ticks = -2147483648) := by
  refine ⟨?_, ?_⟩
  · obtain ⟨s1, s2, h1, h2, h3, h4, _⟩ :=
      simulateIter_ticks (uniformMachine 3 ASTERISK RIGHT) rfl (by decide) (by decide)
        (by decide) (by decide)
    exact ⟨s1, s2, h1, h2, h3, (h4 (by decide)).1 (by decide), (h4 (by decide)).2.2.2⟩
  · obtain ⟨_, s2, _, _, h3, h4, _⟩ :=
      simulateIter_ticks { uniformMachine 3 ASTERISK RIGHT with ticks := 2147483647 } rfl
        (by decide) (by decide) (by decide) (by decide)
    exact ⟨s2, h3, (h4 (by decide)).2.1 rfl⟩

/-! ## Head movement -/

/-- Claim C4 (head move with wraparound).  For a head position `p` in `[0, 1024)`,
`moveTapeHead` yields `(p - 1) mod 1024` when the pending direction is Left and `(p + 1) mod 1024`
when it is Right, and changes neither the pending direction nor the head state; from 0 with Left
it yields 1023, from 1023 with Right it yields 0, and the result is in `[0, 1024)`. -/
theorem moveTapeHead_wraparound (th : tape_head) (hp : 0 ≤ th.loc ∧ th.loc < 1024) :
    (th.curr_dir = LEFT → th.moveTapeHead.loc = (th.loc - 1) % 1024)
      ∧ (th.curr_dir = RIGHT → th.moveTapeHead.loc = (th.loc + 1) % 1024)
      ∧ th.moveTapeHead.curr_dir = th.curr_dir
      ∧ th.moveTapeHead.curr_state = th.curr_state
      ∧ (th.loc = 0 → th.curr_dir = LEFT → th.moveTapeHead.loc = 1023)
      ∧ (th.loc = 1023 → th.curr_dir = RIGHT → th.moveTapeHead.loc = 0)
      ∧ (0 ≤ th.moveTapeHead.loc ∧ th.moveTapeHead.loc < 1024) := by
  obtain ⟨h0, h1⟩ := hp
  refine ⟨?_, ?_, rfl, rfl, ?_, ?_, ?_⟩
  · intro hd
    simp only [tape_head.moveTapeHead, hd, if_true, TAPESIZE]
    split_ifs <;> omega
  · intro hd
    have hne : ¬ (RIGHT = LEFT) := by decide
    simp only [tape_head.moveTapeHead, hd, if_neg hne, TAPESIZE]
    split_ifs <;> omega
  · intro hz hd
    simp only [tape_head.moveTapeHead, hd, if_true, TAPESIZE]
    split_ifs <;> omega
  · intro hz hd
    have hne : ¬ (RIGHT = LEFT) := by decide
    simp only [tape_head.moveTapeHead, hd, if_neg hne, TAPESIZE]
    split_ifs <;> omega
  · simp only [tape_head.moveTapeHead, TAPESIZE]
    split_ifs <;> omega

/-- Witness of C4: from position 0 with direction Left the head moves to 1023. -/
theorem moveTapeHead_wraparound_witness :
    (tape_head.moveTapeHead { loc := 0, curr_dir := LEFT, curr_state := STATE_QA }).loc = 1023
      ∧ (tape_head.moveTapeHead { loc := 0, curr_dir := LEFT, curr_state := STATE_QA }).loc
          = (0 - 1) % 1024 :=
  ⟨(moveTapeHead_wraparound { loc := 0, curr_dir := LEFT, curr_state := STATE_QA }
      (by decide)).2.2.2.2.1 rfl rfl,
   (moveTapeHead_wraparound { loc := 0, curr_dir := LEFT, curr_state := STATE_QA }
      (by decide)).1 rfl⟩

/-! ## Reset -/

/-- Truncated remainder of a non-negative dividend by a positive divisor lies in `[0, m)`. -/
theorem tmod_range (v m : Int) (hv : 0 ≤ v) (hm : 0 < m) : 0 ≤ v.tmod m ∧ v.tmod m < m :=
  ⟨Int.tmod_nonneg m hv, Int.tmod_lt_of_pos v hm⟩

/-- The loop of `setupTape` run for the first `n` indices blanks exactly the cells below `n`. -/
theorem setupTape_loop (n : Nat) (t : tape) (p : Int) :
    ((List.range n).foldl (fun acc (i : Nat) => acc.store (i : Int) 0) t).values p
      = if 0 ≤ p ∧ p < n then 0 else t.values p := by
  induction n with
  | zero =>
    have h : ¬ (0 ≤ p ∧ p < ((0 : Nat) : Int)) := by
      intro h
      have := h.2
      simp only [Nat.cast_zero] at this
      omega
    simp only [List.range_zero, List.foldl_nil, if_neg h]
  | succ n ih =>
    rw [List.range_succ, List.foldl_append]
    simp only [List.foldl_cons, List.foldl_nil]
    have hst : ∀ u : tape, (u.store (n : Int) 0).values p
        = if p = (n : Int) then 0 else u.values p := fun _ => rfl
    rw [hst, ih]
    by_cases hp : p = (n : Int)
    · have h : 0 ≤ p ∧ p < ((n + 1 : Nat) : Int) := by
        push_cast
        omega
      rw [if_pos hp, if_pos h]
    · rw [if_neg hp]
      by_cases h : 0 ≤ p ∧ p < (n : Int)
      · have h2 : 0 ≤ p ∧ p < ((n + 1 : Nat) : Int) := by
          push_cast
          omega
        rw [if_pos h, if_pos h2]
      · have h2 : ¬ (0 ≤ p ∧ p < ((n + 1 : Nat) : Int)) := by
          push_cast
          omega
        rw [if_neg h, if_neg h2]

/-- After `setupTape` every cell of the tape is 0 and the memory outside it is as before. -/
theorem setupTape_values (t : tape) (p : Int) :
    t.setupTape.values p = if 0 ≤ p ∧ p < TAPESIZE then 0 else t.values p := by
  have hcast : ((TAPESIZE.toNat : Nat) : Int) = TAPESIZE := by decide
  unfold tape.setupTape
  rw [setupTape_loop TAPESIZE.toNat t p, hcast]

/-- A loop whose every pass establishes `P` at the entries `D k` it is responsible for and keeps
`P` where it held establishes `P` at the entries of all the passes. -/
theorem foldl_establishes {κ : Type} (P : transition → Prop)
    (body : (Int → Int → transition) × Nat → κ → (Int → Int → transition) × Nat)
    (D : κ → Int → Int → Prop)
    (hbody : ∀ acc k a b, (P (acc.1 a b) ∨ D k a b) → P ((body acc k).1 a b))
    (l : List κ) :
    ∀ acc a b, (P (acc.1 a b) ∨ ∃ k ∈ l, D k a b) → P ((l.foldl body acc).1 a b) := by
  induction l with
  | nil =>
    intro acc a b h
    rcases h with h | ⟨k, hk, _⟩
    · exact h
    · simp at hk
  | cons k0 l ih =>
    intro acc a b h
    rw [List.foldl_cons]
    apply ih
    rcases h with h | ⟨k, hk, hD⟩
    · exact Or.inl (hbody acc k0 a b (Or.inl h))
    · rcases List.mem_cons.mp hk with rfl | hk
      · exact Or.inl (hbody acc k a b (Or.inr hD))
      · exact Or.inr ⟨k, hk, hD⟩

/-- One pass of the inner loop of `setupTransitionTable` writes entry `(i, j)` only. -/
theorem setupRule_other (rnd : Bool) (rand : Nat → Nat) (acc : (Int → Int → transition) × Nat)
    (i j : Nat) (a b : Int) (h : ¬ (a = (i : Int) ∧ b = (j : Int))) :
    (setupRule rnd rand acc i j).1 a b = acc.1 a b := by
  unfold setupRule
  split <;> simp [storeRule, h]

/-- When every entry that a pass of the inner loop writes satisfies `P`, every entry of the table
satisfies `P` after `setupTransitionTable`. -/
theorem setupTransitionTable_forall (rnd : Bool) (rand : Nat → Nat) (P : transition → Prop)
    (hP : ∀ acc i j, P ((setupRule rnd rand acc i j).1 (i : Int) (j : Int)))
    (rs : Int → Int → transition) (a b : Int)
    (ha : 0 ≤ a ∧ a < NUMSTT) (hb : 0 ≤ b ∧ b < NUMSYM) :
    P (setupTransitionTable rnd rand rs a b) := by
  have hinner : ∀ (i : Nat) acc (j : Nat) (a b : Int),
      (P (acc.1 a b) ∨ (a = (i : Int) ∧ b = (j : Int))) →
        P ((setupRule rnd rand acc i j).1 a b) := by
    intro i acc j a b h
    by_cases hab : a = (i : Int) ∧ b = (j : Int)
    · rw [hab.1, hab.2]
      exact hP acc i j
    · rw [setupRule_other rnd rand acc i j a b hab]
      rcases h with h | h
      · exact h
      · exact absurd h hab
  have houter : ∀ acc (i : Nat) (a b : Int),
      (P (acc.1 a b) ∨ (a = (i : Int) ∧ ∃ j ∈ List.range NUMSYM.toNat, b = ((j : Nat) : Int))) →
        P (((List.range NUMSYM.toNat).foldl
          (fun acc2 j => setupRule rnd rand acc2 i j) acc).1 a b) := by
    intro acc i a b h
    apply foldl_establishes P (fun acc2 j => setupRule rnd rand acc2 i j)
      (fun j a b => a = (i : Int) ∧ b = (j : Int)) (fun acc2 j a b => hinner i acc2 j a b)
    rcases h with h | ⟨hi, j, hj, hbj⟩
    · exact Or.inl h
    · exact Or.inr ⟨j, hj, hi, hbj⟩
  unfold setupTransitionTable
  apply foldl_establishes P
    (fun acc i => (List.range NUMSYM.toNat).foldl (fun acc2 j => setupRule rnd rand acc2 i j) acc)
    (fun i a b => a = (i : Int) ∧ ∃ j ∈ List.range NUMSYM.toNat, b = ((j : Nat) : Int))
    houter
  refine Or.inr ⟨a.toNat, ?_, ?_, b.toNat, ?_, ?_⟩
  · simp only [NUMSTT] at ha
    simp only [List.mem_range, NUMSTT]
    omega
  · omega
  · simp only [NUMSYM] at hb
    simp only [List.mem_range, NUMSYM]
    omega
  · omega

/-- Every rule is valid after `setupTransitionTable`, deterministic or randomized. -/
theorem setupTransitionTable_valid (rnd : Bool) (rand : Nat → Nat)
    (rs : Int → Int → transition) (a b : Int)
    (ha : 0 ≤ a ∧ a < NUMSTT) (hb : 0 ≤ b ∧ b < NUMSYM) :
    validRule (setupTransitionTable rnd rand rs a b) := by
  apply setupTransitionTable_forall rnd rand validRule _ rs a b ha hb
  intro acc i j
  unfold setupRule
  split
  · simp [storeRule, validRule, LEFT]
  · have h1 := tmod_range ((rand acc.2 : Nat) : Int) 19 (Int.ofNat_nonneg _) (by decide)
    have h2 := tmod_range ((rand (acc.2 + 1) : Nat) : Int) 6 (Int.ofNat_nonneg _) (by decide)
    have h3 := tmod_range ((rand (acc.2 + 2) : Nat) : Int) 2 (Int.ofNat_nonneg _) (by decide)
    have e1 : NUMSTT + 3 = 19 := rfl
    have e2 : NUMSYM = 6 := rfl
    simp only [storeRule, validRule, e1, e2, LEFT, RIGHT, and_self, if_true]
    refine ⟨⟨h1.1, ?_⟩, ⟨h2.1, ?_⟩, ?_⟩
    · have := h1.2
      omega
    · have := h2.2
      omega
    · have := h3.1
      have := h3.2
      omega

/-- Every rule is `(STATE_QA, BLANK, LEFT)` after the deterministic `setupTransitionTable`. -/
theorem setupTransitionTable_default (rand : Nat → Nat)
    (rs : Int → Int → transition) (a b : Int)
    (ha : 0 ≤ a ∧ a < NUMSTT) (hb : 0 ≤ b ∧ b < NUMSYM) :
    (setupTransitionTable false rand rs a b).next_state = STATE_QA
      ∧ (setupTransitionTable false rand rs a b).write_symbol = BLANK
      ∧ (setupTransitionTable false rand rs a b).move_head = LEFT := by
  apply setupTransitionTable_forall false rand
    (fun t => t.next_state = STATE_QA ∧ t.write_symbol = BLANK ∧ t.move_head = LEFT) _ rs a b
    ha hb
  intro acc i j
  simp [setupRule, storeRule, STATE_QA, BLANK, LEFT]

/-- The fields of the state `reInitializeEverything` returns. -/
theorem reInitializeEverything_fields (s : sim_obj) (rnd : Bool) (rand : Nat → Nat) :
    (s.reInitializeEverything rnd rand).tape_obj = s.tape_obj.setupTape
      ∧ (s.reInitializeEverything rnd rand).ruleset = setupTransitionTable rnd rand s.ruleset
      ∧ (s.reInitializeEverything rnd rand).th_obj
          = { loc := 512, curr_dir := LEFT, curr_state := STATE_QA }
      ∧ (s.reInitializeEverything rnd rand).halt = false
      ∧ (s.reInitializeEverything rnd rand).ticks = 0 := by
  have h : TAPESIZE.tdiv 2 = 512 := by decide
  simp only [sim_obj.reInitializeEverything, tape_head.setCurrentState,
    tape_head.setCurrentDirection, tape_head.setTapeHeadLoc, h, and_self]

/-- Every tape cell is Blank after `reInitializeEverything`. -/
theorem reInitializeEverything_tape (s : sim_obj) (rnd : Bool) (rand : Nat → Nat) (p : Int)
    (hp0 : 0 ≤ p) (hp1 : p < 1024) :
    (s.reInitializeEverything rnd rand).tape_obj.values p = BLANK := by
  have h : 0 ≤ p ∧ p < TAPESIZE := ⟨hp0, hp1⟩
  rw [(reInitializeEverything_fields s rnd rand).1, setupTape_values, if_pos h]
  rfl

/-- Claim C5 (deterministic reset).  From any state, `reInitializeEverything(false)` leaves every
one of the 16 x 6 rules with `next_state` = state 0, `write_symbol` = Blank and `move_head` = Left,
every one of the 1024 tape cells Blank, the head at position 512 in state 0, `ticks = 0` and
`halt = false`. -/
theorem reInitializeEverything_deterministic (s : sim_obj) (rand : Nat → Nat) :
    (∀ a b : Int, 0 ≤ a → a < 16 → 0 ≤ b → b < 6 →
        ((s.reInitializeEverything false rand).ruleset a b).next_state = STATE_QA
          ∧ ((s.reInitializeEverything false rand).ruleset a b).write_symbol = BLANK
          ∧ ((s.reInitializeEverything false rand).ruleset a b).move_head = LEFT)
      ∧ (∀ p : Int, 0 ≤ p → p < 1024 →
          (s.reInitializeEverything false rand).tape_obj.values p = BLANK)
      ∧ (s.reInitializeEverything false rand).th_obj.loc = 512
      ∧ (s.reInitializeEverything false rand).th_obj.curr_state = STATE_QA
      ∧ (s.reInitializeEverything false rand).ticks = 0
      ∧ (s.reInitializeEverything false rand).halt = false := by
  obtain ⟨_, hr, hth, hh, ht⟩ := reInitializeEverything_fields s false rand
  refine ⟨?_, reInitializeEverything_tape s false rand, ?_, ?_, ht, hh⟩
  · intro a b ha0 ha1 hb0 hb1
    rw [hr]
    exact setupTransitionTable_default rand s.ruleset a b ⟨ha0, ha1⟩ ⟨hb0, hb1⟩
  · rw [hth]
  · rw [hth]

/-- Witness of C5: the deterministic reset of a halted state with junk rules and a scribbled
tape, read at the last rule, the last tape cell and the head. -/
theorem reInitializeEverything_deterministic_witness :
    ((scrambled.reInitializeEverything false sampleRand).ruleset 15 5).next_state = STATE_QA
      ∧ ((scrambled.reInitializeEverything false sampleRand).ruleset 15 5).write_symbol = BLANK
      ∧ ((scrambled.reInitializeEverything false sampleRand).ruleset 15 5).move_head = LEFT
      ∧ (scrambled.reInitializeEverything false sampleRand).tape_obj.values 1023 = BLANK
      ∧ (scrambled.reInitializeEverything false sampleRand).th_obj.loc = 512
      ∧ (scrambled.reInitializeEverything false sampleRand).halt = false :=
  ⟨((reInitializeEverything_deterministic scrambled sampleRand).1 15 5
      (by decide) (by decide) (by decide) (by decide)).1,
   ((reInitializeEverything_deterministic scrambled sampleRand).1 15 5
      (by decide) (by decide) (by decide) (by decide)).2.1,
   ((reInitializeEverything_deterministic scrambled sampleRand).1 15 5
      (by decide) (by decide) (by decide) (by decide)).2.2,
   (reInitializeEverything_deterministic scrambled sampleRand).2.1 1023 (by decide) (by decide),
   (reInitializeEverything_deterministic scrambled sampleRand).2.2.1,
   (reInitializeEverything_deterministic scrambled sampleRand).2.2.2.2.2⟩

/-- Claim C6 (randomized reset domain).  From any state and for every sequence of values the
random source returns, after `reInitializeEverything(true)` every one of the 16 x 6 rules has
`next_state` in `[0, 18]`, `write_symbol` in `[0, 5]` and `move_head` Left or Right. -/
theorem reInitializeEverything_randomized_domain (s : sim_obj) (rand : Nat → Nat) (a b : Int)
    (ha : 0 ≤ a ∧ a < 16) (hb : 0 ≤ b ∧ b < 6) :
    (0 ≤ ((s.reInitializeEverything true rand).ruleset a b).next_state
        ∧ ((s.reInitializeEverything true rand).ruleset a b).next_state ≤ 18)
      ∧ (0 ≤ ((s.reInitializeEverything true rand).ruleset a b).write_symbol
        ∧ ((s.reInitializeEverything true rand).ruleset a b).write_symbol ≤ 5)
      ∧ (((s.reInitializeEverything true rand).ruleset a b).move_head = LEFT
        ∨ ((s.reInitializeEverything true rand).ruleset a b).move_head = RIGHT) := by
  rw [(reInitializeEverything_fields s true rand).2.1]
  exact setupTransitionTable_valid true rand s.ruleset a b ha hb

/-- Witness of C6: the randomized reset of a state with junk rules, with random values of 1000
and more, read at rule (15, 5). -/
theorem reInitializeEverything_randomized_domain_witness :
    (0 ≤ ((scrambled.reInitializeEverything true sampleRand).ruleset 15 5).next_state
        ∧ ((scrambled.reInitializeEverything true sampleRand).ruleset 15 5).next_state ≤ 18)
      ∧ (0 ≤ ((scrambled.reInitializeEverything true sampleRand).ruleset 15 5).write_symbol
        ∧ ((scrambled.reInitializeEverything true sampleRand).ruleset 15 5).write_symbol ≤ 5)
      ∧ (((scrambled.reInitializeEverything true sampleRand).ruleset 15 5).move_head = LEFT
        ∨ ((scrambled.reInitializeEverything true sampleRand).ruleset 15 5).move_head = RIGHT) :=
  reInitializeEverything_randomized_domain scrambled sampleRand 15 5 (by decide) (by decide)

/-- Claim C7 (reset leaves the system Ready).  For both values of the flag, every random
sequence and every prior state, `reInitializeEverything` yields `ticks = 0`, `halt = false`, head
state 0, head position 512, pending direction Left and an all-Blank tape; the head, `ticks`,
`halt` and every tape cell of the result are the same for any two prior states, flags and random
sequences. -/
theorem reInitializeEverything_ready (s : sim_obj) (rnd : Bool) (rand : Nat → Nat) :
    (s.reInitializeEverything rnd rand).ticks = 0
      ∧ (s.reInitializeEverything rnd rand).halt = false
      ∧ (s.reInitializeEverything rnd rand).th_obj.curr_state = STATE_QA
      ∧ (s.reInitializeEverything rnd rand).th_obj.loc = 512
      ∧ (s.reInitializeEverything rnd rand).th_obj.curr_dir = LEFT
      ∧ (∀ p : Int, 0 ≤ p → p < 1024 →
          (s.reInitializeEverything rnd rand).tape_obj.values p = BLANK)
      ∧ (∀ (s2 : sim_obj) (rnd2 : Bool) (rand2 : Nat → Nat),
          (s2.reInitializeEverything rnd2 rand2).ticks = (s.reInitializeEverything rnd rand).ticks
            ∧ (s2.reInitializeEverything rnd2 rand2).halt
                = (s.reInitializeEverything rnd rand).halt
            ∧ (s2.reInitializeEverything rnd2 rand2).th_obj
                = (s.reInitializeEverything rnd rand).th_obj
            ∧ (∀ p : Int, 0 ≤ p → p < 1024 →
                (s2.reInitializeEverything rnd2 rand2).tape_obj.values p
                  = (s.reInitializeEverything rnd rand).tape_obj.values p)) := by
  obtain ⟨_, _, hth, hh, ht⟩ := reInitializeEverything_fields s rnd rand
  refine ⟨ht, hh, ?_, ?_, ?_, reInitializeEverything_tape s rnd rand, ?_⟩
  · rw [hth]
  · rw [hth]
  · rw [hth]
  · intro s2 rnd2 rand2
    obtain ⟨_, _, hth2, hh2, ht2⟩ := reInitializeEverything_fields s2 rnd2 rand2
    refine ⟨by rw [ht, ht2], by rw [hh, hh2], by rw [hth, hth2], ?_⟩
    intro p hp0 hp1
    rw [reInitializeEverything_tape s2 rnd2 rand2 p hp0 hp1,
      reInitializeEverything_tape s rnd rand p hp0 hp1]

/-- Witness of C7: the randomized reset of a halted state with 99 ticks, head at 3 in Reject and
a tape of Zero symbols. -/
theorem reInitializeEverything_ready_witness :
    (scrambled.reInitializeEverything true sampleRand).ticks = 0
      ∧ (scrambled.reInitializeEverything true sampleRand).halt = false
      ∧ (scrambled.reInitializeEverything true sampleRand).th_obj.curr_state = STATE_QA
      ∧ (scrambled.reInitializeEverything true sampleRand).th_obj.loc = 512
      ∧ (scrambled.reInitializeEverything true sampleRand).tape_obj.values 3 = BLANK
      ∧ (zeroed.reInitializeEverything false sampleRand).tape_obj.values 3
          = (scrambled.reInitializeEverything true sampleRand).tape_obj.values 3 :=
  ⟨(reInitializeEverything_ready scrambled true sampleRand).1,
   (reInitializeEverything_ready scrambled true sampleRand).2.1,
   (reInitializeEverything_ready scrambled true sampleRand).2.2.1,
   (reInitializeEverything_ready scrambled true sampleRand).2.2.2.1,
   (reInitializeEverything_ready scrambled true sampleRand).2.2.2.2.2.1 3 (by decide) (by decide),
   ((reInitializeEverything_ready scrambled true sampleRand).2.2.2.2.2.2
      zeroed false sampleRand).2.2.2 3 (by decide) (by decide)⟩

/-! ## Preservation of the engine invariant -/

/-- When `applyTransition` returns a state, the head position, the head state and the symbol
under the head were inside their arrays. -/
theorem applyTransition_defined (s s2 : sim_obj) (h : s.applyTransition = some s2) :
    (0 ≤ s.th_obj.loc ∧ s.th_obj.loc < TAPESIZE)
      ∧ (0 ≤ s.th_obj.curr_state ∧ s.th_obj.curr_state < NUMSTT)
      ∧ (0 ≤ s.tape_obj.values s.th_obj.loc ∧ s.tape_obj.values s.th_obj.loc < NUMSYM) := by
  by_cases hp : 0 ≤ s.th_obj.loc ∧ s.th_obj.loc < TAPESIZE
  · by_cases hq : 0 ≤ s.th_obj.curr_state ∧ s.th_obj.curr_state < NUMSTT
        ∧ 0 ≤ s.tape_obj.values s.th_obj.loc ∧ s.tape_obj.values s.th_obj.loc < NUMSYM
    · exact ⟨hp, ⟨hq.1, hq.2.1⟩, ⟨hq.2.2.1, hq.2.2.2⟩⟩
    · simp [sim_obj.applyTransition, tape.getTapeCell, sim_obj.rule, tape_head.getTapeHeadLoc,
        tape_head.getCurrentState, hp, hq] at h
  · simp [sim_obj.applyTransition, tape.getTapeCell, tape_head.getTapeHeadLoc, hp] at h

/-- The state after a reset satisfies the engine invariant. -/
theorem reInitializeEverything_inv (s : sim_obj) (rnd : Bool) (rand : Nat → Nat) :
    engineInv (s.reInitializeEverything rnd rand) := by
  obtain ⟨_, hr, hth, hh, _⟩ := reInitializeEverything_fields s rnd rand
  refine ⟨⟨?_, ?_, ?_⟩, ?_, ?_⟩
  · rw [hth]
    decide
  · intro p hp0 hp1
    rw [reInitializeEverything_tape s rnd rand p hp0 hp1]
    decide
  · intro a b ha0 ha1 hb0 hb1
    rw [hr]
    exact setupTransitionTable_valid rnd rand s.ruleset a b ⟨ha0, ha1⟩ ⟨hb0, hb1⟩
  · rw [hth, hh]
    decide
  · rw [hth]
    decide

/-- A state in one of the 16 non-halting states is in no halting state. -/
theorem not_isHalting_of_lt (q : Int) (h : q < NUMSTT) : ¬ isHalting q := by
  intro hq
  simp only [isHalting, STATE_QHALT, STATE_QACCEPT, STATE_QREJECT, NUMSTT] at hq h
  omega

/-- The engine invariant is kept by `applyTransition`. -/
theorem applyTransition_inv (s s2 : sim_obj) (hinv : engineInv s)
    (h : s.applyTransition = some s2) : engineInv s2 := by
  obtain ⟨hp, hq, hc⟩ := applyTransition_defined s s2 h
  obtain ⟨⟨hloc, htape, hrules⟩, hhalt, _⟩ := hinv
  have hrule := hrules _ _ hq.1 hq.2 hc.1 hc.2
  by_cases hn :
      isHalting (s.ruleset s.th_obj.curr_state (s.tape_obj.values s.th_obj.loc)).next_state
  · rw [applyTransition_of_halting s hp hq hc hn] at h
    injection h with h
    subst h
    exact ⟨⟨hloc, htape, hrules⟩, ⟨fun _ => hn, fun _ => rfl⟩, hrule.1⟩
  · rw [applyTransition_of_not_halting s hp hq hc hn] at h
    injection h with h
    subst h
    refine ⟨⟨hloc, ?_, hrules⟩, ⟨?_, fun hy => absurd hy hn⟩, hrule.1⟩
    · intro p hp0 hp1
      show 0 ≤ (if p = s.th_obj.loc then _ else s.tape_obj.values p)
        ∧ (if p = s.th_obj.loc then _ else s.tape_obj.values p) ≤ 5
      split
      · exact hrule.2.1
      · exact htape p hp0 hp1
    · intro hs
      exact absurd (hhalt.mp hs) (not_isHalting_of_lt _ hq.2)

/-- The head stays on the tape when `moveTapeHead` moves it. -/
theorem moveTapeHead_loc_range (th : tape_head) (hp : 0 ≤ th.loc ∧ th.loc < TAPESIZE) :
    0 ≤ th.moveTapeHead.loc ∧ th.moveTapeHead.loc < TAPESIZE := by
  obtain ⟨h0, h1⟩ := hp
  simp only [tape_head.moveTapeHead, TAPESIZE] at h1 ⊢
  split_ifs <;> omega

/-- The engine invariant is kept by `moveTapeHead`. -/
theorem moveTapeHead_inv (s : sim_obj) (hinv : engineInv s) :
    engineInv { s with th_obj := s.th_obj.moveTapeHead } := by
  obtain ⟨⟨hloc, htape, hrules⟩, hhalt, hst⟩ := hinv
  exact ⟨⟨moveTapeHead_loc_range s.th_obj hloc, htape, hrules⟩, hhalt, hst⟩

/-- No edit at all is an edit of the rule table. -/
theorem ruleEdit_refl (s : sim_obj) : ruleEdit s s :=
  ⟨rfl, rfl, rfl, rfl, fun h => h⟩

/-- Two edits of the rule table in a row are an edit of the rule table. -/
theorem ruleEdit_trans (s s2 s3 : sim_obj) (h1 : ruleEdit s s2) (h2 : ruleEdit s2 s3) :
    ruleEdit s s3 :=
  ⟨h2.1.trans h1.1, h2.2.1.trans h1.2.1, h2.2.2.1.trans h1.2.2.1,
    h2.2.2.2.1.trans h1.2.2.2.1, fun h => h2.2.2.2.2 (h1.2.2.2.2 h)⟩

/-- A write to `ruleset[a][b]` that maps valid rules to valid rules is an edit of the rule
table. -/
theorem updateRule_edit (s s2 : sim_obj) (a b : Int) (f : transition → transition)
    (hf : validRule (s.ruleset a b) → validRule (f (s.ruleset a b)))
    (h : s.updateRule a b f = some s2) : ruleEdit s s2 := by
  unfold sim_obj.updateRule at h
  split at h
  · rename_i hab
    injection h with h
    subst h
    refine ⟨rfl, rfl, rfl, rfl, ?_⟩
    intro hv i j hi0 hi1 hj0 hj1
    show validRule (if i = a ∧ j = b then f (s.ruleset a b) else s.ruleset i j)
    split
    · exact hf (hv a b hab.1 hab.2.1 hab.2.2.1 hab.2.2.2)
    · exact hv i j hi0 hi1 hj0 hj1
  · exact absurd h (by simp)

/-- The successor `(v + 1) % m` of an ordinal `v` in `[0, m)` is in `[0, m)`. -/
theorem succ_tmod_range (v m : Int) (hv : 0 ≤ v) (hm : 0 < m) :
    0 ≤ (v + 1).tmod m ∧ (v + 1).tmod m < m :=
  tmod_range (v + 1) m (by omega) hm

/-- The statement `cycleNextState` is an edit of the rule table. -/
theorem cycle_next_state_edit (s s2 : sim_obj) (a b : Int)
    (h : s.cycleNextState a b = some s2) : ruleEdit s s2 := by
  simp only [sim_obj.cycleNextState, Option.bind_eq_bind] at h
  obtain ⟨v, hv, hu⟩ := Option.bind_eq_some.mp h
  simp only [sim_obj.getNextRuleState, sim_obj.rule, Option.bind_eq_bind] at hv
  split at hv
  · simp only [Option.some_bind, Option.some.injEq] at hv
    subst hv
    apply updateRule_edit s s2 a b _ _ hu
    intro hr
    have h19 := succ_tmod_range (s.ruleset a b).next_state 19 hr.1.1 (by decide)
    have e1 : NUMSTT + 3 = 19 := rfl
    refine ⟨⟨?_, ?_⟩, hr.2.1, hr.2.2⟩
    · show 0 ≤ ((s.ruleset a b).next_state + 1).tmod (NUMSTT + 3)
      rw [e1]
      exact h19.1
    · show ((s.ruleset a b).next_state + 1).tmod (NUMSTT + 3) ≤ 18
      rw [e1]
      have := h19.2
      omega
  · simp at hv

/-- The statement `cycleWriteSymbol` is an edit of the rule table. -/
theorem cycle_write_symbol_edit (s s2 : sim_obj) (a b : Int)
    (h : s.cycleWriteSymbol a b = some s2) : ruleEdit s s2 := by
  simp only [sim_obj.cycleWriteSymbol, Option.bind_eq_bind] at h
  obtain ⟨v, hv, hu⟩ := Option.bind_eq_some.mp h
  simp only [sim_obj.getNextRuleSymbol, sim_obj.rule, Option.bind_eq_bind] at hv
  split at hv
  · simp only [Option.some_bind, Option.some.injEq] at hv
    subst hv
    apply updateRule_edit s s2 a b _ _ hu
    intro hr
    have h6 := succ_tmod_range (s.ruleset a b).write_symbol 6 hr.2.1.1 (by decide)
    have e1 : NUMSYM = 6 := rfl
    refine ⟨hr.1, ⟨?_, ?_⟩, hr.2.2⟩
    · show 0 ≤ ((s.ruleset a b).write_symbol + 1).tmod NUMSYM
      rw [e1]
      exact h6.1
    · show ((s.ruleset a b).write_symbol + 1).tmod NUMSYM ≤ 5
      rw [e1]
      have := h6.2
      omega
  · simp at hv

/-- The statement `cycleMoveHead` is an edit of the rule table. -/
theorem cycle_move_head_edit (s s2 : sim_obj) (a b : Int)
    (h : s.cycleMoveHead a b = some s2) : ruleEdit s s2 := by
  simp only [sim_obj.cycleMoveHead, Option.bind_eq_bind] at h
  obtain ⟨v, hv, hu⟩ := Option.bind_eq_some.mp h
  simp only [sim_obj.getNextRuleDirection, sim_obj.rule, Option.bind_eq_bind] at hv
  split at hv
  · simp only [Option.some_bind, Option.some.injEq] at hv
    subst hv
    apply updateRule_edit s s2 a b _ _ hu
    intro hr
    have hd : 0 ≤ (s.ruleset a b).move_head := by
      rcases hr.2.2 with h0 | h0 <;> rw [h0] <;> decide
    have h2 := succ_tmod_range (s.ruleset a b).move_head 2 hd (by decide)
    refine ⟨hr.1, hr.2.1, ?_⟩
    show ((s.ruleset a b).move_head + 1).tmod 2 = LEFT
      ∨ ((s.ruleset a b).move_head + 1).tmod 2 = RIGHT
    simp only [LEFT, RIGHT]
    have := h2.1
    have := h2.2
    omega
  · simp at hv

/-- Every click on the rule table that `checkTransitionTableClick` handles is an edit of the rule
table. -/
theorem checkTransitionTableClick_edit (s s2 : sim_obj) (x y : Int)
    (h : s.checkTransitionTableClick x y = some s2) : ruleEdit s s2 := by
  unfold sim_obj.checkTransitionTableClick at h
  split at h
  · simp only [Option.bind_eq_bind] at h
    obtain ⟨s1, h1, h⟩ := Option.bind_eq_some.mp h
    obtain ⟨s12, h2, h⟩ := Option.bind_eq_some.mp h
    obtain ⟨s3, h3, h⟩ := Option.bind_eq_some.mp h
    injection h with h
    subst h
    have e1 : ruleEdit s s1 := by
      split at h1
      · exact cycle_next_state_edit s s1 _ _ h1
      · injection h1 with h1
        subst h1
        exact ruleEdit_refl s
    have e2 : ruleEdit s1 s12 := by
      split at h2
      · exact cycle_write_symbol_edit s1 s12 _ _ h2
      · injection h2 with h2
        subst h2
        exact ruleEdit_refl s1
    have e3 : ruleEdit s12 s3 := by
      split at h3
      · exact cycle_move_head_edit s12 s3 _ _ h3
      · injection h3 with h3
        subst h3
        exact ruleEdit_refl s12
    exact ruleEdit_trans s s12 s3 (ruleEdit_trans s s1 s12 e1 e2) e3
  · injection h with h
    subst h
    exact ruleEdit_refl s

/-- An edit of the rule table keeps the engine invariant. -/
theorem ruleEdit_inv (s s2 : sim_obj) (hinv : engineInv s) (h : ruleEdit s s2) :
    engineInv s2 := by
  obtain ⟨⟨hloc, htape, hrules⟩, hhalt, hst⟩ := hinv
  obtain ⟨hth, htp, hh, _, hv⟩ := h
  refine ⟨⟨?_, ?_, hv hrules⟩, ?_, ?_⟩
  · rw [hth]
    exact hloc
  · rw [htp]
    exact htape
  · rw [hth, hh]
    exact hhalt
  · rw [hth]
    exact hst

/-- What a click on the tape row changes: at most one cell inside the tape, which gets the
successor of its symbol. -/
theorem checkTapeCellAreaClick_frame (s s2 : sim_obj) (x y : Int)
    (h : s.checkTapeCellAreaClick x y = some s2) :
    s2.th_obj = s.th_obj ∧ s2.ruleset = s.ruleset ∧ s2.halt = s.halt ∧ s2.ticks = s.ticks
      ∧ (s2.tape_obj = s.tape_obj
        ∨ ∃ i : Int, (0 ≤ i ∧ i < TAPESIZE)
            ∧ s2.tape_obj = s.tape_obj.store i ((s.tape_obj.values i + 1).tmod NUMSYM)) := by
  unfold sim_obj.checkTapeCellAreaClick at h
  split at h
  · simp only at h
    split at h
    · simp only [Option.bind_eq_bind] at h
      obtain ⟨c, hc, h⟩ := Option.bind_eq_some.mp h
      obtain ⟨t, ht, h⟩ := Option.bind_eq_some.mp h
      injection h with h
      subst h
      unfold tape.getTapeCell at hc
      unfold tape.setTapeCell at ht
      split at hc
      · rename_i hi
        rw [if_pos hi] at ht
        injection hc with hc
        injection ht with ht
        subst hc
        subst ht
        exact ⟨rfl, rfl, rfl, rfl, Or.inr ⟨_, hi, rfl⟩⟩
      · exact absurd hc (by simp)
    · injection h with h
      subst h
      exact ⟨rfl, rfl, rfl, rfl, Or.inl rfl⟩
  · injection h with h
    subst h
    exact ⟨rfl, rfl, rfl, rfl, Or.inl rfl⟩

/-- What a click above the tape changes: at most the head position, which stays on the tape. -/
theorem checkTapeHeadAreaClick_frame (s s2 : sim_obj) (x y : Int)
    (h : s.checkTapeHeadAreaClick x y = some s2) :
    s2.tape_obj = s.tape_obj ∧ s2.ruleset = s.ruleset ∧ s2.halt = s.halt ∧ s2.ticks = s.ticks
      ∧ s2.th_obj.curr_state = s.th_obj.curr_state ∧ s2.th_obj.curr_dir = s.th_obj.curr_dir
      ∧ (s2.th_obj.loc = s.th_obj.loc ∨ (0 ≤ s2.th_obj.loc ∧ s2.th_obj.loc < TAPESIZE)) := by
  unfold sim_obj.checkTapeHeadAreaClick at h
  split at h
  · simp only at h
    split at h
    · rename_i hi
      injection h with h
      subst h
      refine ⟨rfl, rfl, rfl, rfl, rfl, rfl, Or.inr ?_⟩
      simp only [tape_head.setTapeHeadLoc, TAPESIZE] at hi ⊢
      omega
    · injection h with h
      subst h
      exact ⟨rfl, rfl, rfl, rfl, rfl, rfl, Or.inl rfl⟩
  · injection h with h
    subst h
    exact ⟨rfl, rfl, rfl, rfl, rfl, rfl, Or.inl rfl⟩

/-- The engine invariant is kept by a click on the rule table. -/
theorem checkTransitionTableClick_inv (s s2 : sim_obj) (x y : Int) (hinv : engineInv s)
    (h : s.checkTransitionTableClick x y = some s2) : engineInv s2 :=
  ruleEdit_inv s s2 hinv (checkTransitionTableClick_edit s s2 x y h)

/-- The engine invariant is kept by a click on the tape row. -/
theorem checkTapeCellAreaClick_inv (s s2 : sim_obj) (x y : Int) (hinv : engineInv s)
    (h : s.checkTapeCellAreaClick x y = some s2) : engineInv s2 := by
  obtain ⟨⟨hloc, htape, hrules⟩, hhalt, hst⟩ := hinv
  obtain ⟨hth, hr, hh, _, ht⟩ := checkTapeCellAreaClick_frame s s2 x y h
  refine ⟨⟨?_, ?_, ?_⟩, ?_, ?_⟩
  · rw [hth]
    exact hloc
  · rcases ht with ht | ⟨i, hi, ht⟩
    · rw [ht]
      exact htape
    · intro p hp0 hp1
      rw [ht]
      show 0 ≤ (if p = i then _ else s.tape_obj.values p)
        ∧ (if p = i then _ else s.tape_obj.values p) ≤ 5
      split
      · have h6 := succ_tmod_range (s.tape_obj.values i) 6 (htape i hi.1 hi.2).1 (by decide)
        have e1 : NUMSYM = 6 := rfl
        rw [e1]
        have := h6.1
        have := h6.2
        omega
      · exact htape p hp0 hp1
  · rw [hr]
    exact hrules
  · rw [hth, hh]
    exact hhalt
  · rw [hth]
    exact hst

/-- The engine invariant is kept by a click above the tape. -/
theorem checkTapeHeadAreaClick_inv (s s2 : sim_obj) (x y : Int) (hinv : engineInv s)
    (h : s.checkTapeHeadAreaClick x y = some s2) : engineInv s2 := by
  obtain ⟨⟨hloc, htape, hrules⟩, hhalt, hst⟩ := hinv
  obtain ⟨ht, hr, hh, _, hcs, _, hl⟩ := checkTapeHeadAreaClick_frame s s2 x y h
  refine ⟨⟨?_, ?_, ?_⟩, ?_, ?_⟩
  · rcases hl with hl | hl
    · rw [hl]
      exact hloc
    · exact hl
  · rw [ht]
    exact htape
  · rw [hr]
    exact hrules
  · rw [hcs, hh]
    exact hhalt
  · rw [hcs]
    exact hst

/-- The engine invariant is kept by every operation. -/
theorem applyOp_inv (s s2 : sim_obj) (op : Op) (hinv : engineInv s)
    (h : s.applyOp op = some s2) : engineInv s2 := by
  cases op with
  | step => exact applyTransition_inv s s2 hinv h
  | move =>
    simp only [sim_obj.applyOp, Option.some.injEq] at h
    subst h
    exact moveTapeHead_inv s hinv
  | ruleClick x y => exact checkTransitionTableClick_inv s s2 x y hinv h
  | tapeClick x y => exact checkTapeCellAreaClick_inv s s2 x y hinv h
  | headClick x y => exact checkTapeHeadAreaClick_inv s s2 x y hinv h
  | reset rnd rand =>
    simp only [sim_obj.applyOp, Option.some.injEq] at h
    subst h
    exact reInitializeEverything_inv s rnd rand

/-- The engine invariant is kept by every sequence of operations. -/
theorem applyOps_inv (ops : List Op) :
    ∀ s s2 : sim_obj, engineInv s → s.applyOps ops = some s2 → engineInv s2 := by
  induction ops with
  | nil =>
    intro s s2 hinv h
    simp only [sim_obj.applyOps, List.foldlM_nil, Option.pure_def, Option.some.injEq] at h
    subst h
    exact hinv
  | cons op ops ih =>
    intro s s2 hinv h
    simp only [sim_obj.applyOps, List.foldlM_cons, Option.bind_eq_bind] at h
    obtain ⟨s1, h1, h2⟩ := Option.bind_eq_some.mp h
    exact ih s1 s2 (applyOp_inv s s1 op hinv h1) h2

/-- No operation other than a reset clears `halt`. -/
theorem applyOp_keeps_halt (s s2 : sim_obj) (op : Op) (hop : op.isReset = false)
    (hh : s.halt = true) (h : s.applyOp op = some s2) : s2.halt = true := by
  cases op with
  | step =>
    obtain ⟨hp, hq, hc⟩ := applyTransition_defined s s2 h
    by_cases hn :
        isHalting (s.ruleset s.th_obj.curr_state (s.tape_obj.values s.th_obj.loc)).next_state
    · have h2 := applyTransition_of_halting s hp hq hc hn
      rw [show s.applyOp Op.step = s.applyTransition from rfl, h2] at h
      injection h with h
      subst h
      rfl
    · have h2 := applyTransition_of_not_halting s hp hq hc hn
      rw [show s.applyOp Op.step = s.applyTransition from rfl, h2] at h
      injection h with h
      subst h
      exact hh
  | move =>
    simp only [sim_obj.applyOp, Option.some.injEq] at h
    subst h
    exact hh
  | ruleClick x y =>
    rw [(checkTransitionTableClick_edit s s2 x y h).2.2.1]
    exact hh
  | tapeClick x y =>
    rw [(checkTapeCellAreaClick_frame s s2 x y h).2.2.1]
    exact hh
  | headClick x y =>
    rw [(checkTapeHeadAreaClick_frame s s2 x y h).2.2.1]
    exact hh
  | reset rnd rand => exact absurd hop (by simp [Op.isReset])

/-- Claim C8 (halted flag tracks halting states).  In every state reached from a reset by a
sequence of steps, head moves, rule-table clicks, tape clicks, head clicks and further resets,
`halt` is true exactly when the head state is Halt, Accept or Reject; and from any state with
`halt = true`, no operation other than a reset yields a state with `halt = false`. -/
theorem halt_tracks_halting_states (s0 : sim_obj) (rnd : Bool) (rand : Nat → Nat)
    (ops : List Op) (s : sim_obj)
    (h : (s0.reInitializeEverything rnd rand).applyOps ops = some s) :
    (s.halt = true ↔ isHalting s.th_obj.curr_state)
      ∧ (∀ (t t2 : sim_obj) (op : Op), op.isReset = false → t.halt = true →
          t.applyOp op = some t2 → t2.halt = true) :=
  ⟨(applyOps_inv ops _ s (reInitializeEverything_inv s0 rnd rand) h).2.1,
    fun t t2 op hop hh ht => applyOp_keeps_halt t t2 op hop hh ht⟩

set_option maxRecDepth 100000 in
/-- Witness of C8: after a reset, seventeen clicks turn rule (state 0, Blank) into a rule to
Accept, and the step that follows halts the machine. -/
theorem halt_tracks_halting_states_witness :
    ∃ s : sim_obj,
      (scrambled.reInitializeEverything false sampleRand).applyOps haltingOps = some s
        ∧ s.halt = true ∧ (s.halt = true ↔ isHalting s.th_obj.curr_state) := by
  have h : Option.map sim_obj.halt
      ((scrambled.reInitializeEverything false sampleRand).applyOps haltingOps) = some true := by
    decide
  obtain ⟨s, hs, hh⟩ := Option.map_eq_some'.mp h
  exact ⟨s, hs, hh, (halt_tracks_halting_states scrambled false sampleRand haltingOps s hs).1⟩

/-! ## The event loop -/

/-- The engine invariant is kept by `checkClick`. -/
theorem checkClick_inv (s s2 : sim_obj) (x y : Int) (hinv : engineInv s)
    (h : s.checkClick x y = some s2) : engineInv s2 := by
  simp only [sim_obj.checkClick, Option.bind_eq_bind] at h
  obtain ⟨s1, h1, h⟩ := Option.bind_eq_some.mp h
  obtain ⟨s12, h2, h3⟩ := Option.bind_eq_some.mp h
  exact checkTapeHeadAreaClick_inv s12 s2 x y
    (checkTapeCellAreaClick_inv s1 s12 x y
      (checkTransitionTableClick_inv s s1 x y hinv h1) h2) h3

/-- The engine invariant is kept by one pass of the loop body of `simulate`. -/
theorem simulateIter_inv (s s2 : sim_obj) (hinv : engineInv s)
    (h : s.simulateIter = some s2) : engineInv s2 := by
  simp only [sim_obj.simulateIter, Option.bind_eq_bind] at h
  obtain ⟨s1, h1, h⟩ := Option.bind_eq_some.mp h
  have hinv1 := applyTransition_inv s s1 hinv h1
  split at h
  · injection h with h
    subst h
    exact hinv1
  · injection h with h
    subst h
    obtain ⟨⟨hloc, htape, hrules⟩, hhalt, hst⟩ := hinv1
    exact ⟨⟨moveTapeHead_loc_range s1.th_obj hloc, htape, hrules⟩, hhalt, hst⟩

/-- One pass of the loop body of `runApp` from a state with the engine invariant ends in a
control point with the invariant of `runApp`. -/
theorem runAppBody_inv (KEY_MOUSE : Int) (inp : input) (s : sim_obj) (c : app)
    (hinv : engineInv s) (h : runAppBody KEY_MOUSE inp s = some c) : appInv c := by
  simp only [runAppBody, Option.bind_eq_bind] at h
  obtain ⟨s1, h1, h⟩ := Option.bind_eq_some.mp h
  have hinv1 : engineInv s1 := by
    split at h1
    · exact checkClick_inv s s1 _ _ hinv h1
    · injection h1 with h1
      subst h1
      exact hinv
  split at h
  · rename_i hk
    injection h with h
    subst h
    exact ⟨hinv1, fun _ => hk.2⟩
  · injection h with h
    subst h
    refine ⟨?_, fun hpc => ?_⟩
    · show engineInv
        (if inp.key = 114 then
          (if inp.key = 105 then s1.reInitializeEverything false inp.rand
            else s1).reInitializeEverything true inp.rand
         else (if inp.key = 105 then s1.reInitializeEverything false inp.rand else s1))
      split
      · exact reInitializeEverything_inv _ true inp.rand
      · split
        · exact reInitializeEverything_inv _ false inp.rand
        · exact hinv1
    · rcases hpc with hpc | hpc <;> cases hpc

/-- The invariant of `runApp` is kept by every step from a control point to the next. -/
theorem next_inv (KEY_MOUSE : Int) (c c2 : app) (inp : input) (hinv : appInv c)
    (h : c.next KEY_MOUSE inp = some c2) : appInv c2 := by
  unfold app.next at h
  split at h
  · injection h with h
    subst h
    exact hinv
  · split at h
    · rename_i hpc _
      injection h with h
      subst h
      exact ⟨hinv.1, fun hp => by rcases hp with hp | hp <;> cases hp⟩
    · exact runAppBody_inv KEY_MOUSE inp c.sim c2 hinv.1 h
  · simp only [Option.bind_eq_bind] at h
    obtain ⟨s1, h1, h⟩ := Option.bind_eq_some.mp h
    injection h with h
    subst h
    refine ⟨simulateIter_inv c.sim s1 hinv.1 h1, fun hp => ?_⟩
    by_cases hh : s1.halt = true
    · simp only [hh, if_true] at hp
      rcases hp with hp | hp <;> cases hp
    · simpa using hh
  · rename_i hpc
    split at h
    · injection h with h
      subst h
      exact ⟨hinv.1, fun _ => hinv.2 (Or.inr hpc)⟩
    · injection h with h
      subst h
      exact ⟨hinv.1, fun hp => by rcases hp with hp | hp <;> cases hp⟩

/-- The invariant of `runApp` is kept along every sequence of inputs. -/
theorem foldlM_next_inv (KEY_MOUSE : Int) (inputs : List input) :
    ∀ c0 c : app, appInv c0 →
      inputs.foldlM (fun c inp => c.next KEY_MOUSE inp) c0 = some c → appInv c := by
  induction inputs with
  | nil =>
    intro c0 c hinv0 h
    simp only [List.foldlM_nil, Option.pure_def, Option.some.injEq] at h
    subst h
    exact hinv0
  | cons inp inputs ih =>
    intro c0 c hinv0 h
    simp only [List.foldlM_cons, Option.bind_eq_bind] at h
    obtain ⟨c1, h1, h2⟩ := Option.bind_eq_some.mp h
    exact ih c1 c (next_inv KEY_MOUSE c0 c1 inp hinv0 h1) h2

/-- The invariant of `runApp` holds at every control point that `runApp` reaches. -/
theorem runApp_inv (KEY_MOUSE : Int) (s0 : sim_obj) (first : input) (inputs : List input)
    (c : app) (h : runApp KEY_MOUSE s0 first inputs = some c) : appInv c := by
  simp only [runApp, Option.bind_eq_bind] at h
  obtain ⟨c0, h0, h⟩ := Option.bind_eq_some.mp h
  exact foldlM_next_inv KEY_MOUSE inputs c0 c
    (runAppBody_inv KEY_MOUSE _ _ c0 (reInitializeEverything_inv s0 false first.rand) h0) h

/-! ## Rule cycling -/

/-- The entry that `storeRule` writes. -/
theorem storeRule_same (rs : Int → Int → transition) (a b : Int) (t : transition) :
    storeRule rs a b t a b = t := by
  simp [storeRule]

/-- The entries that `storeRule` keeps. -/
theorem storeRule_other (rs : Int → Int → transition) (a b : Int) (t : transition) (i j : Int)
    (h : ¬ (i = a ∧ j = b)) : storeRule rs a b t i j = rs i j := by
  simp only [storeRule, if_neg h]

/-- The state `cycleNextState` returns at an entry of the table. -/
theorem cycleNextState_eq (s : sim_obj) (a b : Int)
    (hab : 0 ≤ a ∧ a < NUMSTT ∧ 0 ≤ b ∧ b < NUMSYM) :
    s.cycleNextState a b = some
      { s with
        ruleset := storeRule s.ruleset a b
          { (s.ruleset a b) with
            next_state := ((s.ruleset a b).next_state + 1).tmod (NUMSTT + 3) } } := by
  simp only [sim_obj.cycleNextState, sim_obj.getNextRuleState, sim_obj.rule, sim_obj.updateRule,
    if_pos hab, Option.bind_eq_bind, Option.some_bind]

/-- The state `cycleWriteSymbol` returns at an entry of the table. -/
theorem cycleWriteSymbol_eq (s : sim_obj) (a b : Int)
    (hab : 0 ≤ a ∧ a < NUMSTT ∧ 0 ≤ b ∧ b < NUMSYM) :
    s.cycleWriteSymbol a b = some
      { s with
        ruleset := storeRule s.ruleset a b
          { (s.ruleset a b) with
            write_symbol := ((s.ruleset a b).write_symbol + 1).tmod NUMSYM } } := by
  simp only [sim_obj.cycleWriteSymbol, sim_obj.getNextRuleSymbol, sim_obj.rule,
    sim_obj.updateRule, if_pos hab, Option.bind_eq_bind, Option.some_bind]

/-- The state `cycleMoveHead` returns at an entry of the table. -/
theorem cycleMoveHead_eq (s : sim_obj) (a b : Int)
    (hab : 0 ≤ a ∧ a < NUMSTT ∧ 0 ≤ b ∧ b < NUMSYM) :
    s.cycleMoveHead a b = some
      { s with
        ruleset := storeRule s.ruleset a b
          { (s.ruleset a b) with move_head := ((s.ruleset a b).move_head + 1).tmod 2 } } := by
  simp only [sim_obj.cycleMoveHead, sim_obj.getNextRuleDirection, sim_obj.rule,
    sim_obj.updateRule, if_pos hab, Option.bind_eq_bind, Option.some_bind]

/-- The truncated successor `(v + 1) % m` of `v` in `[0, m)` is the successor modulo `m`. -/
theorem succ_tmod_eq (v m : Int) (hv : 0 ≤ v) (hm : 0 < m) : (v + 1).tmod m = (v + 1) % m :=
  Int.tmod_eq_emod (by omega) (by omega)

/-! ### The three cycling statements -/

/-- What `cycleNextState` does at an entry of the table: it succeeds, replaces `next_state` of that
entry by its truncated successor and keeps everything else. -/
theorem cycleNextState_spec (s : sim_obj) (a b : Int)
    (hab : 0 ≤ a ∧ a < NUMSTT ∧ 0 ≤ b ∧ b < NUMSYM) :
    ∃ s1 : sim_obj, s.cycleNextState a b = some s1
      ∧ (s1.ruleset a b).next_state = ((s.ruleset a b).next_state + 1).tmod (NUMSTT + 3)
      ∧ (s1.ruleset a b).write_symbol = (s.ruleset a b).write_symbol
      ∧ (s1.ruleset a b).move_head = (s.ruleset a b).move_head
      ∧ (∀ i j : Int, ¬ (i = a ∧ j = b) → s1.ruleset i j = s.ruleset i j)
      ∧ s1.th_obj = s.th_obj ∧ s1.tape_obj = s.tape_obj ∧ s1.halt = s.halt
      ∧ s1.ticks = s.ticks := by
  refine ⟨_, cycleNextState_eq s a b hab, ?_, ?_, ?_, ?_, rfl, rfl, rfl, rfl⟩
  · show (storeRule s.ruleset a b _ a b).next_state = _
    rw [storeRule_same]
  · show (storeRule s.ruleset a b _ a b).write_symbol = _
    rw [storeRule_same]
  · show (storeRule s.ruleset a b _ a b).move_head = _
    rw [storeRule_same]
  · intro i j hij
    exact storeRule_other s.ruleset a b _ i j hij

/-- What `k` applications of `cycleNextState` do at an entry whose `next_state` is in its domain:
they add `k` modulo 19 to `next_state` and keep everything else. -/
theorem cycleNextState_repeat (a b : Int) (hab : 0 ≤ a ∧ a < NUMSTT ∧ 0 ≤ b ∧ b < NUMSYM)
    (k : Nat) :
    ∀ s : sim_obj, (0 ≤ (s.ruleset a b).next_state ∧ (s.ruleset a b).next_state < 19) →
      ∃ s2 : sim_obj, repeatOpt (fun t => t.cycleNextState a b) k s = some s2
        ∧ (s2.ruleset a b).next_state = ((s.ruleset a b).next_state + (k : Int)) % 19
        ∧ (s2.ruleset a b).write_symbol = (s.ruleset a b).write_symbol
        ∧ (s2.ruleset a b).move_head = (s.ruleset a b).move_head
        ∧ (∀ i j : Int, ¬ (i = a ∧ j = b) → s2.ruleset i j = s.ruleset i j)
        ∧ s2.th_obj = s.th_obj ∧ s2.tape_obj = s.tape_obj ∧ s2.halt = s.halt
        ∧ s2.ticks = s.ticks := by
  induction k with
  | zero =>
    intro s hv
    refine ⟨s, rfl, ?_, rfl, rfl, fun _ _ _ => rfl, rfl, rfl, rfl, rfl⟩
    simp only [Nat.cast_zero, add_zero]
    omega
  | succ k ih =>
    intro s hv
    obtain ⟨s1, e1, hf1, ha1, hb1, ho1, hth1, htp1, hh1, ht1⟩ := cycleNextState_spec s a b hab
    rw [show (_ : Int).tmod (NUMSTT + 3) = _ from succ_tmod_eq _ 19 hv.1 (by decide)] at hf1
    have hv1 : 0 ≤ (s1.ruleset a b).next_state ∧ (s1.ruleset a b).next_state < 19 := by
      rw [hf1]
      omega
    obtain ⟨s2, e2, hf2, ha2, hb2, ho2, hth2, htp2, hh2, ht2⟩ := ih s1 hv1
    refine ⟨s2, ?_, ?_, ha2.trans ha1, hb2.trans hb1, fun i j hij => (ho2 i j hij).trans
      (ho1 i j hij), hth2.trans hth1, htp2.trans htp1, hh2.trans hh1, ht2.trans ht1⟩
    · rw [repeatOpt, e1, Option.some_bind]
      exact e2
    · rw [hf2, hf1]
      push_cast
      omega

/-- What `cycleWriteSymbol` does at an entry of the table: it succeeds, replaces `write_symbol` of that
entry by its truncated successor and keeps everything else. -/
theorem cycleWriteSymbol_spec (s : sim_obj) (a b : Int)
    (hab : 0 ≤ a ∧ a < NUMSTT ∧ 0 ≤ b ∧ b < NUMSYM) :
    ∃ s1 : sim_obj, s.cycleWriteSymbol a b = some s1
      ∧ (s1.ruleset a b).write_symbol = ((s.ruleset a b).write_symbol + 1).tmod NUMSYM
      ∧ (s1.ruleset a b).next_state = (s.ruleset a b).next_state
      ∧ (s1.ruleset a b).move_head = (s.ruleset a b).move_head
      ∧ (∀ i j : Int, ¬ (i = a ∧ j = b) → s1.ruleset i j = s.ruleset i j)
      ∧ s1.th_obj = s.th_obj ∧ s1.tape_obj = s.tape_obj ∧ s1.halt = s.halt
      ∧ s1.ticks = s.ticks := by
  refine ⟨_, cycleWriteSymbol_eq s a b hab, ?_, ?_, ?_, ?_, rfl, rfl, rfl, rfl⟩
  · show (storeRule s.ruleset a b _ a b).write_symbol = _
    rw [storeRule_same]
  · show (storeRule s.ruleset a b _ a b).next_state = _
    rw [storeRule_same]
  · show (storeRule s.ruleset a b _ a b).move_head = _
    rw [storeRule_same]
  · intro i j hij
    exact storeRule_other s.ruleset a b _ i j hij

/-- What `k` applications of `cycleWriteSymbol` do at an entry whose `write_symbol` is in its domain:
they add `k` modulo 6 to `write_symbol` and keep everything else. -/
theorem cycleWriteSymbol_repeat (a b : Int) (hab : 0 ≤ a ∧ a < NUMSTT ∧ 0 ≤ b ∧ b < NUMSYM)
    (k : Nat) :
    ∀ s : sim_obj, (0 ≤ (s.ruleset a b).write_symbol ∧ (s.ruleset a b).write_symbol < 6) →
      ∃ s2 : sim_obj, repeatOpt (fun t => t.cycleWriteSymbol a b) k s = some s2
        ∧ (s2.ruleset a b).write_symbol = ((s.ruleset a b).write_symbol + (k : Int)) % 6
        ∧ (s2.ruleset a b).next_state = (s.ruleset a b).next_state
        ∧ (s2.ruleset a b).move_head = (s.ruleset a b).move_head
        ∧ (∀ i j : Int, ¬ (i = a ∧ j = b) → s2.ruleset i j = s.ruleset i j)
        ∧ s2.th_obj = s.th_obj ∧ s2.tape_obj = s.tape_obj ∧ s2.halt = s.halt
        ∧ s2.ticks = s.ticks := by
  induction k with
  | zero =>
    intro s hv
    refine ⟨s, rfl, ?_, rfl, rfl, fun _ _ _ => rfl, rfl, rfl, rfl, rfl⟩
    simp only [Nat.cast_zero, add_zero]
    omega
  | succ k ih =>
    intro s hv
    obtain ⟨s1, e1, hf1, ha1, hb1, ho1, hth1, htp1, hh1, ht1⟩ := cycleWriteSymbol_spec s a b hab
    rw [show (_ : Int).tmod NUMSYM = _ from succ_tmod_eq _ 6 hv.1 (by decide)] at hf1
    have hv1 : 0 ≤ (s1.ruleset a b).write_symbol ∧ (s1.ruleset a b).write_symbol < 6 := by
      rw [hf1]
      omega
    obtain ⟨s2, e2, hf2, ha2, hb2, ho2, hth2, htp2, hh2, ht2⟩ := ih s1 hv1
    refine ⟨s2, ?_, ?_, ha2.trans ha1, hb2.trans hb1, fun i j hij => (ho2 i j hij).trans
      (ho1 i j hij), hth2.trans hth1, htp2.trans htp1, hh2.trans hh1, ht2.trans ht1⟩
    · rw [repeatOpt, e1, Option.some_bind]
      exact e2
    · rw [hf2, hf1]
      push_cast
      omega

/-- What `cycleMoveHead` does at an entry of the table: it succeeds, replaces `move_head` of that
entry by its truncated successor and keeps everything else. -/
theorem cycleMoveHead_spec (s : sim_obj) (a b : Int)
    (hab : 0 ≤ a ∧ a < NUMSTT ∧ 0 ≤ b ∧ b < NUMSYM) :
    ∃ s1 : sim_obj, s.cycleMoveHead a b = some s1
      ∧ (s1.ruleset a b).move_head = ((s.ruleset a b).move_head + 1).tmod 2
      ∧ (s1.ruleset a b).next_state = (s.ruleset a b).next_state
      ∧ (s1.ruleset a b).write_symbol = (s.ruleset a b).write_symbol
      ∧ (∀ i j : Int, ¬ (i = a ∧ j = b) → s1.ruleset i j = s.ruleset i j)
      ∧ s1.th_obj = s.th_obj ∧ s1.tape_obj = s.tape_obj ∧ s1.halt = s.halt
      ∧ s1.ticks = s.ticks := by
  refine ⟨_, cycleMoveHead_eq s a b hab, ?_, ?_, ?_, ?_, rfl, rfl, rfl, rfl⟩
  · show (storeRule s.ruleset a b _ a b).move_head = _
    rw [storeRule_same]
  · show (storeRule s.ruleset a b _ a b).next_state = _
    rw [storeRule_same]
  · show (storeRule s.ruleset a b _ a b).write_symbol = _
    rw [storeRule_same]
  · intro i j hij
    exact storeRule_other s.ruleset a b _ i j hij

/-- What `k` applications of `cycleMoveHead` do at an entry whose `move_head` is in its domain:
they add `k` modulo 2 to `move_head` and keep everything else. -/
theorem cycleMoveHead_repeat (a b : Int) (hab : 0 ≤ a ∧ a < NUMSTT ∧ 0 ≤ b ∧ b < NUMSYM)
    (k : Nat) :
    ∀ s : sim_obj, (0 ≤ (s.ruleset a b).move_head ∧ (s.ruleset a b).move_head < 2) →
      ∃ s2 : sim_obj, repeatOpt (fun t => t.cycleMoveHead a b) k s = some s2
        ∧ (s2.ruleset a b).move_head = ((s.ruleset a b).move_head + (k : Int)) % 2
        ∧ (s2.ruleset a b).next_state = (s.ruleset a b).next_state
        ∧ (s2.ruleset a b).write_symbol = (s.ruleset a b).write_symbol
        ∧ (∀ i j : Int, ¬ (i = a ∧ j = b) → s2.ruleset i j = s.ruleset i j)
        ∧ s2.th_obj = s.th_obj ∧ s2.tape_obj = s.tape_obj ∧ s2.halt = s.halt
        ∧ s2.ticks = s.ticks := by
  induction k with
  | zero =>
    intro s hv
    refine ⟨s, rfl, ?_, rfl, rfl, fun _ _ _ => rfl, rfl, rfl, rfl, rfl⟩
    simp only [Nat.cast_zero, add_zero]
    omega
  | succ k ih =>
    intro s hv
    obtain ⟨s1, e1, hf1, ha1, hb1, ho1, hth1, htp1, hh1, ht1⟩ := cycleMoveHead_spec s a b hab
    rw [show (_ : Int).tmod 2 = _ from succ_tmod_eq _ 2 hv.1 (by decide)] at hf1
    have hv1 : 0 ≤ (s1.ruleset a b).move_head ∧ (s1.ruleset a b).move_head < 2 := by
      rw [hf1]
      omega
    obtain ⟨s2, e2, hf2, ha2, hb2, ho2, hth2, htp2, hh2, ht2⟩ := ih s1 hv1
    refine ⟨s2, ?_, ?_, ha2.trans ha1, hb2.trans hb1, fun i j hij => (ho2 i j hij).trans
      (ho1 i j hij), hth2.trans hth1, htp2.trans htp1, hh2.trans hh1, ht2.trans ht1⟩
    · rw [repeatOpt, e1, Option.some_bind]
      exact e2
    · rw [hf2, hf1]
      push_cast
      omega

/-- Claim C11 (cycling closure).  For a rule at state 0..15 and symbol 0..5 whose fields are in
their domains, six applications of the write-symbol cycle return the original `write_symbol`,
nineteen applications of the next-state cycle return the original `next_state` and two
applications of the direction cycle return the original `move_head`; 1..5, 1..18 and 1
applications respectively end at a value different from the original. -/
theorem cycling_closure (s : sim_obj) (a b : Int) (ha : 0 ≤ a ∧ a ≤ 15) (hb : 0 ≤ b ∧ b ≤ 5)
    (hn : 0 ≤ (s.ruleset a b).next_state ∧ (s.ruleset a b).next_state ≤ 18)
    (hw : 0 ≤ (s.ruleset a b).write_symbol ∧ (s.ruleset a b).write_symbol ≤ 5)
    (hd : (s.ruleset a b).move_head = LEFT ∨ (s.ruleset a b).move_head = RIGHT) :
    (∃ s2 : sim_obj, repeatOpt (fun t => t.cycleWriteSymbol a b) 6 s = some s2
        ∧ (s2.ruleset a b).write_symbol = (s.ruleset a b).write_symbol)
      ∧ (∃ s2 : sim_obj, repeatOpt (fun t => t.cycleNextState a b) 19 s = some s2
        ∧ (s2.ruleset a b).next_state = (s.ruleset a b).next_state)
      ∧ (∃ s2 : sim_obj, repeatOpt (fun t => t.cycleMoveHead a b) 2 s = some s2
        ∧ (s2.ruleset a b).move_head = (s.ruleset a b).move_head)
      ∧ (∀ k : Nat, 1 ≤ k → k ≤ 5 →
          ∃ s2 : sim_obj, repeatOpt (fun t => t.cycleWriteSymbol a b) k s = some s2
            ∧ (s2.ruleset a b).write_symbol ≠ (s.ruleset a b).write_symbol)
      ∧ (∀ k : Nat, 1 ≤ k → k ≤ 18 →
          ∃ s2 : sim_obj, repeatOpt (fun t => t.cycleNextState a b) k s = some s2
            ∧ (s2.ruleset a b).next_state ≠ (s.ruleset a b).next_state)
      ∧ (∃ s2 : sim_obj, repeatOpt (fun t => t.cycleMoveHead a b) 1 s = some s2
            ∧ (s2.ruleset a b).move_head ≠ (s.ruleset a b).move_head) := by
  have hab : 0 ≤ a ∧ a < NUMSTT ∧ 0 ≤ b ∧ b < NUMSYM := by
    simp only [NUMSTT, NUMSYM]
    omega
  have hn2 : 0 ≤ (s.ruleset a b).next_state ∧ (s.ruleset a b).next_state < 19 := by omega
  have hw2 : 0 ≤ (s.ruleset a b).write_symbol ∧ (s.ruleset a b).write_symbol < 6 := by omega
  have hd2 : 0 ≤ (s.ruleset a b).move_head ∧ (s.ruleset a b).move_head < 2 := by
    simp only [LEFT, RIGHT] at hd
    omega
  refine ⟨?_, ?_, ?_, ?_, ?_, ?_⟩
  · obtain ⟨s2, e, hf, _⟩ := cycleWriteSymbol_repeat a b hab 6 s hw2
    refine ⟨s2, e, ?_⟩
    rw [hf]
    push_cast
    omega
  · obtain ⟨s2, e, hf, _⟩ := cycleNextState_repeat a b hab 19 s hn2
    refine ⟨s2, e, ?_⟩
    rw [hf]
    push_cast
    omega
  · obtain ⟨s2, e, hf, _⟩ := cycleMoveHead_repeat a b hab 2 s hd2
    refine ⟨s2, e, ?_⟩
    rw [hf]
    push_cast
    omega
  · intro k hk1 hk5
    obtain ⟨s2, e, hf, _⟩ := cycleWriteSymbol_repeat a b hab k s hw2
    refine ⟨s2, e, ?_⟩
    rw [hf]
    omega
  · intro k hk1 hk18
    obtain ⟨s2, e, hf, _⟩ := cycleNextState_repeat a b hab k s hn2
    refine ⟨s2, e, ?_⟩
    rw [hf]
    omega
  · obtain ⟨s2, e, hf, _⟩ := cycleMoveHead_repeat a b hab 1 s hd2
    refine ⟨s2, e, ?_⟩
    rw [hf]
    push_cast
    omega

/-- Witness of C11: the rule (state 15, One) of the machine whose every rule is
(state 3, Asterisk, Right). -/
theorem cycling_closure_witness :
    (∃ s2 : sim_obj,
        repeatOpt (fun t => t.cycleWriteSymbol 15 5) 6 (uniformMachine 3 ASTERISK RIGHT) = some s2
          ∧ (s2.ruleset 15 5).write_symbol = ASTERISK)
      ∧ (∃ s2 : sim_obj,
        repeatOpt (fun t => t.cycleNextState 15 5) 19 (uniformMachine 3 ASTERISK RIGHT) = some s2
          ∧ (s2.ruleset 15 5).next_state = 3)
      ∧ (∃ s2 : sim_obj,
        repeatOpt (fun t => t.cycleNextState 15 5) 18 (uniformMachine 3 ASTERISK RIGHT) = some s2
          ∧ (s2.ruleset 15 5).next_state ≠ 3) :=
  ⟨(cycling_closure (uniformMachine 3 ASTERISK RIGHT) 15 5 (by decide) (by decide) (by decide)
      (by decide) (by decide)).1,
   (cycling_closure (uniformMachine 3 ASTERISK RIGHT) 15 5 (by decide) (by decide) (by decide)
      (by decide) (by decide)).2.1,
   (cycling_closure (uniformMachine 3 ASTERISK RIGHT) 15 5 (by decide) (by decide) (by decide)
      (by decide) (by decide)).2.2.2.2.1 18 (by decide) (by decide)⟩

/-- Claim C12 (cycling step values).  For a rule at state 0..15 and symbol 0..5 whose fields are
in their domains: `getNextRuleState` returns the ordinal `(next_state + 1) mod 19` and the
next-state cycle stores it (state 15 -> Halt -> Accept -> Reject -> state 0);
`getNextRuleSymbol` returns `(write_symbol + 1) mod 6` and the write-symbol cycle stores it
(One -> Blank); `getNextRuleDirection` returns Right for Left and Left for Right and the
direction cycle stores it. -/
theorem cycling_step_values (s : sim_obj) (a b : Int) (ha : 0 ≤ a ∧ a ≤ 15) (hb : 0 ≤ b ∧ b ≤ 5)
    (hn : 0 ≤ (s.ruleset a b).next_state ∧ (s.ruleset a b).next_state ≤ 18)
    (hw : 0 ≤ (s.ruleset a b).write_symbol ∧ (s.ruleset a b).write_symbol ≤ 5)
    (hd : (s.ruleset a b).move_head = LEFT ∨ (s.ruleset a b).move_head = RIGHT) :
    (s.getNextRuleState a b = some (((s.ruleset a b).next_state + 1) % 19)
        ∧ ∃ s2 : sim_obj, s.cycleNextState a b = some s2
          ∧ (s2.ruleset a b).next_state = ((s.ruleset a b).next_state + 1) % 19
          ∧ ((s.ruleset a b).next_state = STATE_QP → (s2.ruleset a b).next_state = STATE_QHALT)
          ∧ ((s.ruleset a b).next_state = STATE_QHALT →
              (s2.ruleset a b).next_state = STATE_QACCEPT)
          ∧ ((s.ruleset a b).next_state = STATE_QACCEPT →
              (s2.ruleset a b).next_state = STATE_QREJECT)
          ∧ ((s.ruleset a b).next_state = STATE_QREJECT →
              (s2.ruleset a b).next_state = STATE_QA))
      ∧ (s.getNextRuleSymbol a b = some (((s.ruleset a b).write_symbol + 1) % 6)
        ∧ ∃ s2 : sim_obj, s.cycleWriteSymbol a b = some s2
          ∧ (s2.ruleset a b).write_symbol = ((s.ruleset a b).write_symbol + 1) % 6
          ∧ ((s.ruleset a b).write_symbol = ONE → (s2.ruleset a b).write_symbol = BLANK))
      ∧ (s.getNextRuleDirection a b = some (((s.ruleset a b).move_head + 1) % 2)
        ∧ ∃ s2 : sim_obj, s.cycleMoveHead a b = some s2
          ∧ ((s.ruleset a b).move_head = LEFT → (s2.ruleset a b).move_head = RIGHT)
          ∧ ((s.ruleset a b).move_head = RIGHT → (s2.ruleset a b).move_head = LEFT)) := by
  have hab : 0 ≤ a ∧ a < NUMSTT ∧ 0 ≤ b ∧ b < NUMSYM := by
    simp only [NUMSTT, NUMSYM]
    omega
  have hd0 : 0 ≤ (s.ruleset a b).move_head := by
    simp only [LEFT, RIGHT] at hd
    omega
  have e19 : ((s.ruleset a b).next_state + 1).tmod (NUMSTT + 3)
      = ((s.ruleset a b).next_state + 1) % 19 := succ_tmod_eq _ 19 hn.1 (by decide)
  have e6 : ((s.ruleset a b).write_symbol + 1).tmod NUMSYM
      = ((s.ruleset a b).write_symbol + 1) % 6 := succ_tmod_eq _ 6 hw.1 (by decide)
  have e2 : ((s.ruleset a b).move_head + 1).tmod 2
      = ((s.ruleset a b).move_head + 1) % 2 := succ_tmod_eq _ 2 hd0 (by decide)
  refine ⟨⟨?_, ?_⟩, ⟨?_, ?_⟩, ⟨?_, ?_⟩⟩
  · simp only [sim_obj.getNextRuleState, sim_obj.rule, if_pos hab, Option.bind_eq_bind,
      Option.some_bind, e19]
  · obtain ⟨s2, e, hf, _⟩ := cycleNextState_spec s a b hab
    rw [e19] at hf
    refine ⟨s2, e, hf, ?_, ?_, ?_, ?_⟩ <;>
    · intro hv
      rw [hf, hv]
      decide
  · simp only [sim_obj.getNextRuleSymbol, sim_obj.rule, if_pos hab, Option.bind_eq_bind,
      Option.some_bind, e6]
  · obtain ⟨s2, e, hf, _⟩ := cycleWriteSymbol_spec s a b hab
    rw [e6] at hf
    refine ⟨s2, e, hf, ?_⟩
    intro hv
    rw [hf, hv]
    decide
  · simp only [sim_obj.getNextRuleDirection, sim_obj.rule, if_pos hab, Option.bind_eq_bind,
      Option.some_bind, e2]
  · obtain ⟨s2, e, hf, _⟩ := cycleMoveHead_spec s a b hab
    rw [e2] at hf
    refine ⟨s2, e, ?_, ?_⟩ <;>
    · intro hv
      rw [hf, hv]
      decide

/-- Witness of C12: the rule (state 0, Blank) of the machine whose every rule is
(Reject, One, Right) cycles to (state 0, ..), (.., Blank, ..) and (.., .., Left). -/
theorem cycling_step_values_witness :
    (∃ s2 : sim_obj, (uniformMachine STATE_QREJECT ONE RIGHT).cycleNextState 0 0 = some s2
        ∧ (s2.ruleset 0 0).next_state = STATE_QA)
      ∧ (∃ s2 : sim_obj, (uniformMachine STATE_QREJECT ONE RIGHT).cycleWriteSymbol 0 0 = some s2
        ∧ (s2.ruleset 0 0).write_symbol = BLANK)
      ∧ (∃ s2 : sim_obj, (uniformMachine STATE_QREJECT ONE RIGHT).cycleMoveHead 0 0 = some s2
        ∧ (s2.ruleset 0 0).move_head = LEFT) := by
  have h := cycling_step_values (uniformMachine STATE_QREJECT ONE RIGHT) 0 0 (by decide)
    (by decide) (by decide) (by decide) (by decide)
  obtain ⟨⟨_, s1, e1, _, _, _, _, h1⟩, ⟨_, s2, e2, _, h2⟩, ⟨_, s3, e3, _, h3⟩⟩ := h
  exact ⟨⟨s1, e1, h1 rfl⟩, ⟨s2, e2, h2 rfl⟩, ⟨s3, e3, h3 rfl⟩⟩

/-- Claim C13 (cycling has no execution side effects).  At a rule at state 0..15 and symbol 0..5,
each of the three cycling edits succeeds and changes only its own field of that rule: the other
fields of the rule, every other rule, the tape, the head (position, state, pending direction),
`ticks` and `halt` are unchanged; and whatever a click on the rule table changes, it changes
neither tape, head, `ticks` nor `halt`. -/
theorem cycling_frame (s : sim_obj) (a b : Int) (ha : 0 ≤ a ∧ a ≤ 15) (hb : 0 ≤ b ∧ b ≤ 5) :
    (∃ s2 : sim_obj, s.cycleNextState a b = some s2
        ∧ (s2.ruleset a b).write_symbol = (s.ruleset a b).write_symbol
        ∧ (s2.ruleset a b).move_head = (s.ruleset a b).move_head
        ∧ (∀ i j : Int, ¬ (i = a ∧ j = b) → s2.ruleset i j = s.ruleset i j)
        ∧ s2.tape_obj = s.tape_obj ∧ s2.th_obj = s.th_obj ∧ s2.ticks = s.ticks
        ∧ s2.halt = s.halt)
      ∧ (∃ s2 : sim_obj, s.cycleWriteSymbol a b = some s2
        ∧ (s2.ruleset a b).next_state = (s.ruleset a b).next_state
        ∧ (s2.ruleset a b).move_head = (s.ruleset a b).move_head
        ∧ (∀ i j : Int, ¬ (i = a ∧ j = b) → s2.ruleset i j = s.ruleset i j)
        ∧ s2.tape_obj = s.tape_obj ∧ s2.th_obj = s.th_obj ∧ s2.ticks = s.ticks
        ∧ s2.halt = s.halt)
      ∧ (∃ s2 : sim_obj, s.cycleMoveHead a b = some s2
        ∧ (s2.ruleset a b).next_state = (s.ruleset a b).next_state
        ∧ (s2.ruleset a b).write_symbol = (s.ruleset a b).write_symbol
        ∧ (∀ i j : Int, ¬ (i = a ∧ j = b) → s2.ruleset i j = s.ruleset i j)
        ∧ s2.tape_obj = s.tape_obj ∧ s2.th_obj = s.th_obj ∧ s2.ticks = s.ticks
        ∧ s2.halt = s.halt)
      ∧ (∀ (x y : Int) (s2 : sim_obj), s.checkTransitionTableClick x y = some s2 →
          s2.tape_obj = s.tape_obj ∧ s2.th_obj = s.th_obj ∧ s2.ticks = s.ticks
            ∧ s2.halt = s.halt) := by
  have hab : 0 ≤ a ∧ a < NUMSTT ∧ 0 ≤ b ∧ b < NUMSYM := by
    simp only [NUMSTT, NUMSYM]
    omega
  refine ⟨?_, ?_, ?_, ?_⟩
  · obtain ⟨s2, e, _, h1, h2, ho, hth, htp, hh, ht⟩ := cycleNextState_spec s a b hab
    exact ⟨s2, e, h1, h2, ho, htp, hth, ht, hh⟩
  · obtain ⟨s2, e, _, h1, h2, ho, hth, htp, hh, ht⟩ := cycleWriteSymbol_spec s a b hab
    exact ⟨s2, e, h1, h2, ho, htp, hth, ht, hh⟩
  · obtain ⟨s2, e, _, h1, h2, ho, hth, htp, hh, ht⟩ := cycleMoveHead_spec s a b hab
    exact ⟨s2, e, h1, h2, ho, htp, hth, ht, hh⟩
  · intro x y s2 h
    obtain ⟨hth, htp, hh, ht, _⟩ := checkTransitionTableClick_edit s s2 x y h
    exact ⟨htp, hth, ht, hh⟩

/-- Witness of C13: the next-state cycle at rule (state 2, Cross) of a halted state with a
scribbled tape leaves the neighbouring rule, the tape, the head, `ticks` and `halt` alone. -/
theorem cycling_frame_witness :
    ∃ s2 : sim_obj, scrambled.cycleNextState 2 1 = some s2
      ∧ (s2.ruleset 2 1).write_symbol = 9
      ∧ s2.ruleset 2 2 = scrambled.ruleset 2 2
      ∧ s2.tape_obj = scrambled.tape_obj ∧ s2.th_obj = scrambled.th_obj ∧ s2.ticks = 99
      ∧ s2.halt = true := by
  obtain ⟨s2, e, h1, _, ho, htp, hth, ht, hh⟩ :=
    (cycling_frame scrambled 2 1 (by decide) (by decide)).1
  exact ⟨s2, e, h1, ho 2 2 (by decide), htp, hth, ht, hh⟩

/-! ## Tape cells -/

/-- Claim C17 (tape write/read).  For every tape, every position `p` in `[0, 1024)` and every
value `v`, `setTapeCell(v, p)` succeeds, `getTapeCell(p)` on the result returns `v`, and
`getTapeCell(q)` for every other `q` in `[0, 1024)` returns what it returned before the write. -/
theorem setTapeCell_getTapeCell (t : tape) (p v : Int) (hp : 0 ≤ p ∧ p < 1024) :
    ∃ t2 : tape, t.setTapeCell v p = some t2
      ∧ t2.getTapeCell p = some v
      ∧ (∀ q : Int, 0 ≤ q → q < 1024 → q ≠ p → t2.getTapeCell q = t.getTapeCell q) := by
  have hp2 : 0 ≤ p ∧ p < TAPESIZE := hp
  refine ⟨t.store p v, ?_, ?_, ?_⟩
  · simp only [tape.setTapeCell, if_pos hp2]
  · simp only [tape.getTapeCell, if_pos hp2, tape.store, if_true]
  · intro q hq0 hq1 hne
    have hq2 : 0 ≤ q ∧ q < TAPESIZE := ⟨hq0, hq1⟩
    simp only [tape.getTapeCell, if_pos hq2, tape.store, if_neg hne]

/-- Witness of C17: writing One at the last cell of a tape of Zero symbols. -/
theorem setTapeCell_getTapeCell_witness :
    ∃ t2 : tape, scrambled.tape_obj.setTapeCell ONE 1023 = some t2
      ∧ t2.getTapeCell 1023 = some ONE ∧ t2.getTapeCell 0 = some ZERO := by
  obtain ⟨t2, e, h1, h2⟩ := setTapeCell_getTapeCell scrambled.tape_obj 1023 ONE (by decide)
  refine ⟨t2, e, h1, ?_⟩
  rw [h2 0 (by decide) (by decide) (by decide)]
  rfl

/-! ## The run loop -/

/-- Where `moveTapeHead` puts a head on the tape whose pending direction is Left. -/
theorem moveTapeHead_loc_left (th : tape_head) (hp : 0 ≤ th.loc ∧ th.loc < TAPESIZE)
    (hd : th.curr_dir = LEFT) : th.moveTapeHead.loc = (th.loc - 1) % 1024 := by
  obtain ⟨h0, h1⟩ := hp
  simp only [tape_head.moveTapeHead, hd, if_true, TAPESIZE] at h1 ⊢
  split_ifs <;> omega

/-- Where `moveTapeHead` puts a head on the tape whose pending direction is Right. -/
theorem moveTapeHead_loc_right (th : tape_head) (hp : 0 ≤ th.loc ∧ th.loc < TAPESIZE)
    (hd : th.curr_dir = RIGHT) : th.moveTapeHead.loc = (th.loc + 1) % 1024 := by
  obtain ⟨h0, h1⟩ := hp
  have hne : ¬ (RIGHT = LEFT) := by decide
  simp only [tape_head.moveTapeHead, hd, if_neg hne, TAPESIZE] at h1 ⊢
  split_ifs <;> omega

/-- A pass of the loop body of `simulate` that takes a halting transition is the transition
alone. -/
theorem simulateIter_of_halting (s : sim_obj)
    (hp : 0 ≤ s.th_obj.loc ∧ s.th_obj.loc < TAPESIZE)
    (hq : 0 ≤ s.th_obj.curr_state ∧ s.th_obj.curr_state < NUMSTT)
    (hc : 0 ≤ s.tape_obj.values s.th_obj.loc ∧ s.tape_obj.values s.th_obj.loc < NUMSYM)
    (hn : isHalting (s.ruleset s.th_obj.curr_state (s.tape_obj.values s.th_obj.loc)).next_state) :
    s.simulateIter = s.applyTransition := by
  simp [sim_obj.simulateIter, applyTransition_of_halting s hp hq hc hn]

/-- A pass of the loop body of `simulate` from a non-halted state that takes a non-halting
transition is the transition, then the head move and `ticks++`. -/
theorem simulateIter_of_not_halting (s : sim_obj) (hhalt : s.halt = false)
    (hp : 0 ≤ s.th_obj.loc ∧ s.th_obj.loc < TAPESIZE)
    (hq : 0 ≤ s.th_obj.curr_state ∧ s.th_obj.curr_state < NUMSTT)
    (hc : 0 ≤ s.tape_obj.values s.th_obj.loc ∧ s.tape_obj.values s.th_obj.loc < NUMSYM)
    (hn : ¬ isHalting (s.ruleset s.th_obj.curr_state (s.tape_obj.values s.th_obj.loc)).next_state) :
    s.simulateIter = (s.applyTransition).map
      (fun s1 => { s1 with th_obj := s1.th_obj.moveTapeHead, ticks := wrapInt (s1.ticks + 1) }) := by
  simp [sim_obj.simulateIter, applyTransition_of_not_halting s hp hq hc hn, hhalt]

/-- The step of `runApp` from the top of the loop body of `simulate`. -/
theorem next_at_simulateTop (KEY_MOUSE : Int) (inp : input) (s s2 : sim_obj)
    (h : s.simulateIter = some s2) :
    app.next KEY_MOUSE { sim := s, pc := control.simulateTop } inp
      = some { sim := s2,
               pc := if s2.halt then control.runAppGetch else control.simulateGetch } := by
  simp only [app.next, h, Option.bind_eq_bind, Option.some_bind]

/-- Claim C18 (run-loop protocol).  One pass of the loop of `simulate` from a non-halted state
(head state in 0..15, position `p` in `[0, 1024)`, symbol under the head in 0..5) first applies
the transition and then moves the head only if the machine did not halt: on a non-halting rule
the head ends at `(p - 1) mod 1024` when that rule's `move_head` is Left and at
`(p + 1) mod 1024` when it is Right, whatever the pending direction was before, and the loop
goes on to its `getch()`; on a halting rule the head stays at `p`, `halt` is set and control
returns to `runApp`. -/
theorem simulate_loop_protocol (KEY_MOUSE : Int) (inp : input) (s : sim_obj)
    (hhalt : s.halt = false)
    (hq : 0 ≤ s.th_obj.curr_state ∧ s.th_obj.curr_state ≤ 15)
    (hp : 0 ≤ s.th_obj.loc ∧ s.th_obj.loc < 1024)
    (hc : 0 ≤ s.tape_obj.values s.th_obj.loc ∧ s.tape_obj.values s.th_obj.loc ≤ 5) :
    ∃ s1 s2 : sim_obj, s.applyTransition = some s1 ∧ s.simulateIter = some s2
      ∧ (¬ isHalting (s.ruleset s.th_obj.curr_state (s.tape_obj.values s.th_obj.loc)).next_state →
          s2 = { s1 with th_obj := s1.th_obj.moveTapeHead, ticks := wrapInt (s1.ticks + 1) }
            ∧ s2.th_obj.curr_dir
                = (s.ruleset s.th_obj.curr_state (s.tape_obj.values s.th_obj.loc)).move_head
            ∧ ((s.ruleset s.th_obj.curr_state (s.tape_obj.values s.th_obj.loc)).move_head = LEFT
                → s2.th_obj.loc = (s.th_obj.loc - 1) % 1024)
            ∧ ((s.ruleset s.th_obj.curr_state (s.tape_obj.values s.th_obj.loc)).move_head = RIGHT
                → s2.th_obj.loc = (s.th_obj.loc + 1) % 1024)
            ∧ s2.halt = false
            ∧ app.next KEY_MOUSE { sim := s, pc := control.simulateTop } inp
                = some { sim := s2, pc := control.simulateGetch })
      ∧ (isHalting (s.ruleset s.th_obj.curr_state (s.tape_obj.values s.th_obj.loc)).next_state →
          s2 = s1 ∧ s2.th_obj.loc = s.th_obj.loc ∧ s2.halt = true
            ∧ app.next KEY_MOUSE { sim := s, pc := control.simulateTop } inp
                = some { sim := s2, pc := control.runAppGetch }) := by
  have hq2 : 0 ≤ s.th_obj.curr_state ∧ s.th_obj.curr_state < NUMSTT := by
    simp only [NUMSTT]; omega
  have hp2 : 0 ≤ s.th_obj.loc ∧ s.th_obj.loc < TAPESIZE := by
    simp only [TAPESIZE]; omega
  have hc2 : 0 ≤ s.tape_obj.values s.th_obj.loc ∧ s.tape_obj.values s.th_obj.loc < NUMSYM := by
    simp only [NUMSYM]; omega
  by_cases hn :
      isHalting (s.ruleset s.th_obj.curr_state (s.tape_obj.values s.th_obj.loc)).next_state
  · have h1 := applyTransition_of_halting s hp2 hq2 hc2 hn
    have h2 := simulateIter_of_halting s hp2 hq2 hc2 hn
    rw [h1] at h2
    refine ⟨_, _, h1, h2, fun hno => absurd hn hno, fun _ => ⟨rfl, rfl, rfl, ?_⟩⟩
    rw [next_at_simulateTop KEY_MOUSE inp s _ h2]
    rfl
  · have h1 := applyTransition_of_not_halting s hp2 hq2 hc2 hn
    have h2 := simulateIter_of_not_halting s hhalt hp2 hq2 hc2 hn
    rw [h1, Option.map_some'] at h2
    refine ⟨_, _, h1, h2, fun _ => ⟨rfl, rfl, ?_, ?_, hhalt, ?_⟩, fun hy => absurd hy hn⟩
    · intro hd
      exact moveTapeHead_loc_left _ hp2 hd
    · intro hd
      exact moveTapeHead_loc_right _ hp2 hd
    · rw [next_at_simulateTop KEY_MOUSE inp s _ h2]
      simp only [hhalt, Bool.false_eq_true, if_false]

/-- Witness of C18: the machine whose every rule is (state 3, Asterisk, Right), at position 512
with pending direction Left, ends the pass at position 513. -/
theorem simulate_loop_protocol_witness :
    ∃ s2 : sim_obj, (uniformMachine 3 ASTERISK RIGHT).simulateIter = some s2
      ∧ (uniformMachine 3 ASTERISK RIGHT).th_obj.curr_dir = LEFT
      ∧ s2.th_obj.loc = (512 + 1) % 1024 ∧ s2.halt = false
      ∧ app.next 539 { sim := uniformMachine 3 ASTERISK RIGHT, pc := control.simulateTop }
          { key := 0, mx := 0, my := 0, rand := sampleRand }
          = some { sim := s2, pc := control.simulateGetch } := by
  obtain ⟨s1, s2, _, e2, h, _⟩ :=
    simulate_loop_protocol 539 { key := 0, mx := 0, my := 0, rand := sampleRand }
      (uniformMachine 3 ASTERISK RIGHT) rfl (by decide) (by decide) (by decide)
  obtain ⟨_, _, _, hr, hh, hnext⟩ := h (by decide)
  exact ⟨s2, e2, rfl, hr rfl, hh, hnext⟩

/-! ## The default machine -/

/-- The deterministic reset puts the default machine at pass 0. -/
theorem defaultMachineAt_reset (s0 : sim_obj) (rand : Nat → Nat) :
    defaultMachineAt (s0.reInitializeEverything false rand) 0 := by
  obtain ⟨_, hr, hth, hh, ht⟩ := reInitializeEverything_fields s0 false rand
  refine ⟨hh, ?_, ?_, ?_, ?_, ?_, ?_⟩
  · rw [hth]
  · rw [hth]
  · rw [hth]
    decide
  · rw [ht]
    rfl
  · intro p hp0 hp1
    exact reInitializeEverything_tape s0 false rand p hp0 hp1
  · intro a b ha0 ha1 hb0 hb1
    rw [hr]
    exact setupTransitionTable_default rand s0.ruleset a b ⟨ha0, ha1⟩ ⟨hb0, hb1⟩

/-- The transition of the default machine: the step succeeds and changes nothing but keeps
state 0, direction Left and a Blank under the head. -/
theorem defaultMachineAt_applyTransition (s : sim_obj) (n : Nat) (h : defaultMachineAt s n) :
    ∃ s1 : sim_obj, s.applyTransition = some s1 ∧ s1.halt = false
      ∧ s1.th_obj = { loc := s.th_obj.loc, curr_dir := LEFT, curr_state := STATE_QA }
      ∧ s1.ticks = s.ticks ∧ s1.ruleset = s.ruleset
      ∧ (∀ p : Int, 0 ≤ p → p < TAPESIZE → s1.tape_obj.values p = BLANK) := by
  obtain ⟨hh, hst, _, hloc, _, htape, hrules⟩ := h
  have hp : 0 ≤ s.th_obj.loc ∧ s.th_obj.loc < TAPESIZE := by
    rw [hloc]
    simp only [TAPESIZE]
    omega
  have hq : 0 ≤ s.th_obj.curr_state ∧ s.th_obj.curr_state < NUMSTT := by
    rw [hst]
    decide
  have hsym : s.tape_obj.values s.th_obj.loc = BLANK := htape _ hp.1 hp.2
  have hc : 0 ≤ s.tape_obj.values s.th_obj.loc ∧ s.tape_obj.values s.th_obj.loc < NUMSYM := by
    rw [hsym]
    decide
  obtain ⟨hrn, hrw, hrd⟩ := hrules _ _ hq.1 hq.2 hc.1 hc.2
  have hn : ¬ isHalting
      (s.ruleset s.th_obj.curr_state (s.tape_obj.values s.th_obj.loc)).next_state := by
    rw [hrn]
    decide
  refine ⟨_, applyTransition_of_not_halting s hp hq hc hn, hh, ?_, rfl, rfl, ?_⟩
  · simp only [hrn, hrd]
  · intro p hp0 hp1
    show (if p = s.th_obj.loc then _ else s.tape_obj.values p) = BLANK
    split
    · exact hrw
    · exact htape p hp0 hp1

/-- One pass of the run loop takes the default machine from pass `n` to pass `n + 1`. -/
theorem defaultMachineAt_simulateIter (s : sim_obj) (n : Nat) (h : defaultMachineAt s n) :
    ∃ s2 : sim_obj, s.simulateIter = some s2 ∧ defaultMachineAt s2 (n + 1) := by
  obtain ⟨s1, e1, hh1, hth1, ht1, hr1, htape1⟩ := defaultMachineAt_applyTransition s n h
  obtain ⟨_, _, _, hloc, hticks, _, hrules⟩ := h
  have hp : 0 ≤ s.th_obj.loc ∧ s.th_obj.loc < TAPESIZE := by
    rw [hloc]
    simp only [TAPESIZE]
    omega
  refine ⟨{ s1 with th_obj := s1.th_obj.moveTapeHead, ticks := wrapInt (s1.ticks + 1) }, ?_, hh1, ?_, ?_,
    ?_, ?_, htape1, ?_⟩
  · simp [sim_obj.simulateIter, e1, hh1]
  · show s1.th_obj.moveTapeHead.curr_state = STATE_QA
    rw [hth1]
    rfl
  · show s1.th_obj.moveTapeHead.curr_dir = LEFT
    rw [hth1]
    rfl
  · show s1.th_obj.moveTapeHead.loc = _
    rw [hth1, moveTapeHead_loc_left
      { loc := s.th_obj.loc, curr_dir := LEFT, curr_state := STATE_QA } hp rfl]
    show (s.th_obj.loc - 1) % 1024 = _
    rw [hloc]
    push_cast
    omega
  · show wrapInt (s1.ticks + 1) = _
    rw [ht1, hticks]
    push_cast
    exact wrapInt_succ _
  · intro a b ha0 ha1 hb0 hb1
    show (s1.ruleset a b).next_state = STATE_QA ∧ _
    rw [hr1]
    exact hrules a b ha0 ha1 hb0 hb1

/-- After `k` more passes of the run loop the default machine at pass `n` is at pass `n + k`. -/
theorem defaultMachineAt_repeat (k : Nat) :
    ∀ (s : sim_obj) (n : Nat), defaultMachineAt s n →
      ∃ s2 : sim_obj, repeatOpt sim_obj.simulateIter k s = some s2
        ∧ defaultMachineAt s2 (n + k) := by
  induction k with
  | zero =>
    intro s n h
    exact ⟨s, rfl, h⟩
  | succ k ih =>
    intro s n h
    obtain ⟨s1, e1, h1⟩ := defaultMachineAt_simulateIter s n h
    obtain ⟨s2, e2, h2⟩ := ih s1 (n + 1) h1
    refine ⟨s2, ?_, ?_⟩
    · rw [repeatOpt, e1, Option.some_bind]
      exact e2
    · have e : n + (k + 1) = n + 1 + k := by omega
      rw [e]
      exact h2

/-- Counterexample to C19.  After 2147483648 passes of the run loop from the deterministic
reset the default machine is still running, but its 32-bit counter has wrapped: `ticks` is
-2147483648, not 2147483648. -/
theorem default_machine_ticks_wrap :
    ∃ s : sim_obj,
      repeatOpt sim_obj.simulateIter 2147483648 (zeroed.reInitializeEverything false sampleRand)
          = some s
        ∧ s.halt = false ∧ s.ticks = -2147483648 ∧ s.ticks ≠ 2147483648 := by
  obtain ⟨s, e, hh, _, _, _, ht, _⟩ :=
    defaultMachineAt_repeat 2147483648 _ 0 (defaultMachineAt_reset zeroed sampleRand)
  have hw : wrapInt ((0 + 2147483648 : Nat) : Int) = -2147483648 := by decide
  rw [hw] at ht
  refine ⟨s, e, hh, ht, ?_⟩
  rw [ht]
  decide

/-- Claim C19, amended.  After the deterministic reset and with no edits, for every `n`, `n`
passes of the run loop (step, then move) succeed and leave the machine not halted, in state 0,
with every tape cell Blank, pending direction Left and the head at `(512 - n) mod 1024` (at 0
after 512 passes and at 1023 after 513); `ticks = n` for every `n` up to 2147483647, and in
general `ticks` is `n` wrapped to 32 bits. -/
theorem default_machine_never_halts (s0 : sim_obj) (rand : Nat → Nat) (n : Nat) :
    ∃ s : sim_obj,
      repeatOpt sim_obj.simulateIter n (s0.reInitializeEverything false rand) = some s
        ∧ s.halt = false
        ∧ s.th_obj.curr_state = STATE_QA
        ∧ (∀ p : Int, 0 ≤ p → p < 1024 → s.tape_obj.values p = BLANK)
        ∧ s.th_obj.curr_dir = LEFT
        ∧ s.th_obj.loc = (512 - (n : Int)) % 1024
        ∧ (n ≤ 2147483647 → s.ticks = (n : Int))
        ∧ s.ticks = wrapInt (n : Int)
        ∧ (n = 512 → s.th_obj.loc = 0)
        ∧ (n = 513 → s.th_obj.loc = 1023) := by
  obtain ⟨s, e, hh, hst, hd, hloc, ht, htape, _⟩ :=
    defaultMachineAt_repeat n _ 0 (defaultMachineAt_reset s0 rand)
  have e0 : 0 + n = n := Nat.zero_add n
  rw [e0] at hloc ht
  refine ⟨s, e, hh, hst, htape, hd, hloc, ?_, ht, ?_, ?_⟩
  · intro hn
    rw [ht]
    exact wrapInt_of_range _ (by omega)
  · intro hn
    rw [hloc, hn]
    decide
  · intro hn
    rw [hloc, hn]
    decide

/-- Witness of the amended C19: 513 passes from the reset of a junk memory image wrap the head
from 0 to 1023. -/
theorem default_machine_never_halts_witness :
    ∃ s : sim_obj,
      repeatOpt sim_obj.simulateIter 513 (scrambled.reInitializeEverything false sampleRand)
          = some s
        ∧ s.halt = false ∧ s.th_obj.loc = 1023 ∧ s.ticks = 513
        ∧ s.tape_obj.values 1023 = BLANK := by
  obtain ⟨s, e, hh, _, htape, _, _, ht, _, _, h513⟩ :=
    default_machine_never_halts scrambled sampleRand 513
  exact ⟨s, e, hh, h513 rfl, ht (by decide), htape 1023 (by decide) (by decide)⟩

/-! ## The two concrete scenarios -/

set_option maxRecDepth 100000 in
/-- Counterexample to C15.  After the deterministic reset, `applyTransition` leaves `ticks` at 0,
not 1; and a whole pass of the loop of `simulate`, which does set `ticks` to 1, has already
moved the head to 511, so that a following `moveTapeHead` puts it at 510. -/
theorem concrete_scenario_ticks_after_step :
    Option.map sim_obj.ticks (zeroed.reInitializeEverything false sampleRand).applyTransition
        = some 0
      ∧ Option.map (fun s => (s.ticks, s.th_obj.loc, s.th_obj.moveTapeHead.loc))
          (zeroed.reInitializeEverything false sampleRand).simulateIter
        = some (1, 511, 510) := by
  decide

/-- Claim C15, amended.  After the deterministic reset, with all rules at their default, one
call of `applyTransition` leaves the head state at state 0, `halt = false`, the tape all Blank
and `ticks` still 0, and a following `moveTapeHead` puts the head at 511; the pass of the loop
of `simulate`, which is that step, that move and then `ticks++`, ends with the head at 511 and
`ticks = 1`. -/
theorem concrete_scenario (s0 : sim_obj) (rand : Nat → Nat) :
    ∃ s1 s2 : sim_obj,
      (s0.reInitializeEverything false rand).applyTransition = some s1
        ∧ s1.th_obj.curr_state = STATE_QA ∧ s1.halt = false ∧ s1.ticks = 0
        ∧ (∀ p : Int, 0 ≤ p → p < 1024 → s1.tape_obj.values p = BLANK)
        ∧ s1.th_obj.moveTapeHead.loc = 511
        ∧ (s0.reInitializeEverything false rand).simulateIter = some s2
        ∧ s2 = { s1 with th_obj := s1.th_obj.moveTapeHead, ticks := wrapInt (s1.ticks + 1) }
        ∧ s2.th_obj.loc = 511 ∧ s2.ticks = 1 := by
  have h0 := defaultMachineAt_reset s0 rand
  obtain ⟨s1, e1, hh1, hth1, ht1, _, htape1⟩ := defaultMachineAt_applyTransition _ 0 h0
  obtain ⟨_, _, hth, _, ht⟩ := reInitializeEverything_fields s0 false rand
  have hloc : s1.th_obj.moveTapeHead.loc = 511 := by
    rw [hth1, hth]
    decide
  have hticks : s1.ticks = 0 := by rw [ht1, ht]
  refine ⟨s1, _, e1, ?_, hh1, hticks, htape1, hloc, ?_, rfl, hloc, ?_⟩
  · rw [hth1]
  · simp [sim_obj.simulateIter, e1, hh1]
  · show wrapInt (s1.ticks + 1) = 1
    rw [hticks]
    decide

/-- Witness of the amended C15, from a junk memory image. -/
theorem concrete_scenario_witness :
    ∃ s1 s2 : sim_obj,
      (scrambled.reInitializeEverything false sampleRand).applyTransition = some s1
        ∧ s1.ticks = 0 ∧ s1.tape_obj.values 512 = BLANK
        ∧ (scrambled.reInitializeEverything false sampleRand).simulateIter = some s2
        ∧ s2.th_obj.loc = 511 ∧ s2.ticks = 1 := by
  obtain ⟨s1, s2, e1, _, _, ht, htape, _, e2, _, hl, ht2⟩ :=
    concrete_scenario scrambled sampleRand
  exact ⟨s1, s2, e1, ht, htape 512 (by decide) (by decide), e2, hl, ht2⟩

set_option maxRecDepth 100000 in
/-- Counterexample to C16.  After the deterministic reset and 17 applications of the next-state
cycle to rule (state 0, Blank), the step halts the machine and `ticks` is 0, not 1, both after
`applyTransition` and after the whole pass of the loop of `simulate`. -/
theorem halting_scenario_ticks_after_step :
    Option.map (fun s => (s.halt, s.ticks))
        ((repeatOpt (fun t => t.cycleNextState 0 0) 17
          (zeroed.reInitializeEverything false sampleRand)).bind sim_obj.applyTransition)
        = some (true, 0)
      ∧ Option.map (fun s => (s.halt, s.ticks))
        ((repeatOpt (fun t => t.cycleNextState 0 0) 17
          (zeroed.reInitializeEverything false sampleRand)).bind sim_obj.simulateIter)
        = some (true, 0) := by
  decide

/-- Claim C16, amended.  After the deterministic reset, 17 applications of the next-state cycle
to rule (state 0, Blank) make its `next_state` Accept; one call of `applyTransition` (and
likewise one pass of the loop of `simulate`) then yields `halt = true`, head state Accept, the
tape cell at position 512 still Blank, the head still at 512, and `ticks = 0`. -/
theorem halting_scenario (s0 : sim_obj) (rand : Nat → Nat) :
    ∃ s1 s2 : sim_obj,
      repeatOpt (fun t => t.cycleNextState 0 0) 17 (s0.reInitializeEverything false rand)
          = some s1
        ∧ (s1.ruleset 0 0).next_state = STATE_QACCEPT
        ∧ s1.applyTransition = some s2 ∧ s1.simulateIter = some s2
        ∧ s2.halt = true ∧ s2.th_obj.curr_state = STATE_QACCEPT
        ∧ s2.tape_obj.values 512 = BLANK ∧ s2.th_obj.loc = 512 ∧ s2.ticks = 0 := by
  obtain ⟨_, hst0, _, _, _, htape0, hrules0⟩ := defaultMachineAt_reset s0 rand
  obtain ⟨_, _, hth0, _, ht0⟩ := reInitializeEverything_fields s0 false rand
  have hab : (0 : Int) ≤ 0 ∧ (0 : Int) < NUMSTT ∧ (0 : Int) ≤ 0 ∧ (0 : Int) < NUMSYM := by
    decide
  have hn0 := (hrules0 0 0 hab.1 hab.2.1 hab.2.2.1 hab.2.2.2).1
  obtain ⟨s1, e1, hf, _, _, _, hth, htp, _, ht⟩ :=
    cycleNextState_repeat 0 0 hab 17 (s0.reInitializeEverything false rand)
      (by rw [hn0]; decide)
  rw [hn0] at hf
  have hf17 : (s1.ruleset 0 0).next_state = STATE_QACCEPT := by
    rw [hf]
    decide
  have hloc : s1.th_obj.loc = 512 := by rw [hth, hth0]
  have hstate : s1.th_obj.curr_state = 0 := by
    rw [hth, hth0]
    rfl
  have hcell : s1.tape_obj.values 512 = BLANK := by
    rw [htp]
    exact htape0 512 (by decide) (by decide)
  have hp : 0 ≤ s1.th_obj.loc ∧ s1.th_obj.loc < TAPESIZE := by
    rw [hloc]
    decide
  have hq : 0 ≤ s1.th_obj.curr_state ∧ s1.th_obj.curr_state < NUMSTT := by
    rw [hstate]
    decide
  have hc : 0 ≤ s1.tape_obj.values s1.th_obj.loc
      ∧ s1.tape_obj.values s1.th_obj.loc < NUMSYM := by
    rw [hloc, hcell]
    decide
  have hrule : (s1.ruleset s1.th_obj.curr_state (s1.tape_obj.values s1.th_obj.loc)).next_state
      = STATE_QACCEPT := by
    rw [hloc, hcell, hstate]
    exact hf17
  have hn : isHalting
      (s1.ruleset s1.th_obj.curr_state (s1.tape_obj.values s1.th_obj.loc)).next_state := by
    rw [hrule]
    decide
  have ea := applyTransition_of_halting s1 hp hq hc hn
  have es := simulateIter_of_halting s1 hp hq hc hn
  rw [ea] at es
  refine ⟨s1, _, e1, hf17, ea, es, rfl, hrule, hcell, hloc, ?_⟩
  show s1.ticks = 0
  rw [ht, ht0]

/-- Witness of the amended C16, from a junk memory image. -/
theorem halting_scenario_witness :
    ∃ s1 s2 : sim_obj,
      repeatOpt (fun t => t.cycleNextState 0 0) 17
          (scrambled.reInitializeEverything false sampleRand) = some s1
        ∧ s1.applyTransition = some s2
        ∧ s2.halt = true ∧ s2.th_obj.curr_state = STATE_QACCEPT ∧ s2.ticks = 0 := by
  obtain ⟨s1, s2, e1, _, e2, _, hh, hst, _, _, ht⟩ := halting_scenario scrambled sampleRand
  exact ⟨s1, s2, e1, e2, hh, hst, ht⟩

/-! ## After the machine has halted -/

/-- A click outside the tape row does nothing in `checkTapeCellAreaClick`. -/
theorem checkTapeCellAreaClick_of_ne (s : sim_obj) (x y : Int) (hy : y ≠ 3) :
    s.checkTapeCellAreaClick x y = some s := by
  simp only [sim_obj.checkTapeCellAreaClick, if_neg hy]

/-- A click outside the two rows above the tape does nothing in `checkTapeHeadAreaClick`. -/
theorem checkTapeHeadAreaClick_of_ne (s : sim_obj) (x y : Int) (hy0 : y ≠ 0) (hy1 : y ≠ 1) :
    s.checkTapeHeadAreaClick x y = some s := by
  have h : ¬ (y = 0 ∨ y = 1) := by
    intro h
    rcases h with h | h
    · exact hy0 h
    · exact hy1 h
  simp only [sim_obj.checkTapeHeadAreaClick, if_neg h]

/-- What `checkClick` can change: the rule table, one tape cell when the click is on the tape
row, the head position when the click is above the tape. -/
theorem checkClick_frame (s s2 : sim_obj) (x y : Int) (h : s.checkClick x y = some s2) :
    s2.halt = s.halt ∧ s2.ticks = s.ticks
      ∧ s2.th_obj.curr_state = s.th_obj.curr_state ∧ s2.th_obj.curr_dir = s.th_obj.curr_dir
      ∧ (y ≠ 3 → s2.tape_obj = s.tape_obj)
      ∧ (y ≠ 0 → y ≠ 1 → s2.th_obj.loc = s.th_obj.loc)
      ∧ (∃ i : Int, ∀ q : Int, q ≠ i → s2.tape_obj.values q = s.tape_obj.values q) := by
  simp only [sim_obj.checkClick, Option.bind_eq_bind] at h
  obtain ⟨s1, h1, h⟩ := Option.bind_eq_some.mp h
  obtain ⟨s12, h2, h3⟩ := Option.bind_eq_some.mp h
  obtain ⟨ath, atp, ah, at1, _⟩ := checkTransitionTableClick_edit s s1 x y h1
  obtain ⟨bth, _, bh, bt, btp⟩ := checkTapeCellAreaClick_frame s1 s12 x y h2
  obtain ⟨ctp, _, ch, ct, ccs, ccd, _⟩ := checkTapeHeadAreaClick_frame s12 s2 x y h3
  refine ⟨?_, ?_, ?_, ?_, ?_, ?_, ?_⟩
  · rw [ch, bh, ah]
  · rw [ct, bt, at1]
  · rw [ccs, bth, ath]
  · rw [ccd, bth, ath]
  · intro hy
    rw [checkTapeCellAreaClick_of_ne s1 x y hy] at h2
    injection h2 with h2
    rw [ctp, ← h2, atp]
  · intro hy0 hy1
    rw [checkTapeHeadAreaClick_of_ne s12 x y hy0 hy1] at h3
    injection h3 with h3
    rw [← h3, bth, ath]
  · rcases btp with btp | ⟨i, _, btp⟩
    · refine ⟨0, fun q _ => ?_⟩
      rw [ctp, btp, atp]
    · refine ⟨i, fun q hq => ?_⟩
      rw [ctp, btp, atp]
      simp only [tape.store, if_neg hq]

set_option maxRecDepth 100000 in
/-- Counterexample to C14.  The session that halts the default machine ends with `halt = true`,
a Blank at cell 512 and the head at 512; one more click on the tape row at `(40, 3)` then
changes cell 512 to Cross, and one more click above the tape at `(45, 0)` moves the head to
517, with `halt` still true. -/
theorem halted_machine_still_edited :
    Option.map (fun c => (c.sim.halt, c.sim.tape_obj.values 512, c.sim.th_obj.loc))
        (runApp 539 scrambled { key := 0, mx := 0, my := 0, rand := sampleRand } haltingSession)
        = some (true, BLANK, 512)
      ∧ Option.map (fun c => (c.sim.halt, c.sim.tape_obj.values 512, c.sim.th_obj.loc))
        (runApp 539 scrambled { key := 0, mx := 0, my := 0, rand := sampleRand }
          (haltingSession ++ [{ key := 539, mx := 40, my := 3, rand := sampleRand }]))
        = some (true, CROSS, 512)
      ∧ Option.map (fun c => (c.sim.halt, c.sim.tape_obj.values 512, c.sim.th_obj.loc))
        (runApp 539 scrambled { key := 0, mx := 0, my := 0, rand := sampleRand }
          (haltingSession ++ [{ key := 539, mx := 45, my := 0, rand := sampleRand }]))
        = some (true, BLANK, 517) := by
  decide

/-! ## Clicks on the rule table -/

/-- Which statement `checkTransitionTableClick` runs, by the row test on `y` and the value of
`x % 5`. -/
theorem checkTransitionTableClick_cases (s : sim_obj) (x y : Int) :
    (y.tmod 2 = 0 ∧ y ≥ 10 ∧ y ≤ 20 → x.tmod 5 = 2 →
        s.checkTransitionTableClick x y
          = s.cycleNextState ((x - 2).tdiv 5) ((y - 10).tdiv 2))
      ∧ (y.tmod 2 = 0 ∧ y ≥ 10 ∧ y ≤ 20 → x.tmod 5 = 3 →
        s.checkTransitionTableClick x y
          = s.cycleWriteSymbol ((x - 3).tdiv 5) ((y - 10).tdiv 2))
      ∧ (y.tmod 2 = 0 ∧ y ≥ 10 ∧ y ≤ 20 → x.tmod 5 = 4 →
        s.checkTransitionTableClick x y
          = s.cycleMoveHead ((x - 4).tdiv 5) ((y - 10).tdiv 2))
      ∧ (¬ (y.tmod 2 = 0 ∧ y ≥ 10 ∧ y ≤ 20)
          ∨ (x.tmod 5 ≠ 2 ∧ x.tmod 5 ≠ 3 ∧ x.tmod 5 ≠ 4) →
        s.checkTransitionTableClick x y = some s) := by
  refine ⟨?_, ?_, ?_, ?_⟩
  · intro hrow hx
    simp [sim_obj.checkTransitionTableClick, hrow, hx]
  · intro hrow hx
    simp [sim_obj.checkTransitionTableClick, hrow, hx]
  · intro hrow hx
    simp [sim_obj.checkTransitionTableClick, hrow, hx]
  · intro h
    rcases h with h | ⟨h2, h3, h4⟩
    · simp only [sim_obj.checkTransitionTableClick, if_neg h]
    · by_cases hrow : y.tmod 2 = 0 ∧ y ≥ 10 ∧ y ≤ 20
      · simp [sim_obj.checkTransitionTableClick, hrow, h2, h3, h4]
      · simp only [sim_obj.checkTransitionTableClick, if_neg hrow]

/-- Claim C20 (rule-table click mapping is in bounds).  For every click with `0 <= x < 80` and
any `y`, `checkTransitionTableClick` succeeds (the table is never indexed out of range).  When
`y` is even with `10 <= y <= 20` and `x mod 5` is 2, 3 or 4, the state index
`(x - x mod 5) / 5` lies in 0..15 and the symbol index `(y - 10) / 2` in 0..5, every other rule
is unchanged, and exactly one field of that rule is cycled: `next_state` for `x mod 5 = 2`,
`write_symbol` for 3, `move_head` for 4.  For every other `(x, y)` the state is unchanged. -/
theorem checkTransitionTableClick_in_bounds (s : sim_obj) (x y : Int) (hx : 0 ≤ x ∧ x < 80) :
    ∃ s2 : sim_obj, s.checkTransitionTableClick x y = some s2
      ∧ ((y % 2 = 0 ∧ 10 ≤ y ∧ y ≤ 20) ∧ (x % 5 = 2 ∨ x % 5 = 3 ∨ x % 5 = 4) →
          (0 ≤ (x - x % 5) / 5 ∧ (x - x % 5) / 5 ≤ 15)
            ∧ (0 ≤ (y - 10) / 2 ∧ (y - 10) / 2 ≤ 5)
            ∧ (∀ i j : Int, ¬ (i = (x - x % 5) / 5 ∧ j = (y - 10) / 2) →
                s2.ruleset i j = s.ruleset i j)
            ∧ (x % 5 = 2 →
                s.cycleNextState ((x - x % 5) / 5) ((y - 10) / 2) = some s2
                  ∧ (s2.ruleset ((x - x % 5) / 5) ((y - 10) / 2)).next_state
                      = ((s.ruleset ((x - x % 5) / 5) ((y - 10) / 2)).next_state + 1).tmod 19
                  ∧ (s2.ruleset ((x - x % 5) / 5) ((y - 10) / 2)).write_symbol
                      = (s.ruleset ((x - x % 5) / 5) ((y - 10) / 2)).write_symbol
                  ∧ (s2.ruleset ((x - x % 5) / 5) ((y - 10) / 2)).move_head
                      = (s.ruleset ((x - x % 5) / 5) ((y - 10) / 2)).move_head)
            ∧ (x % 5 = 3 →
                s.cycleWriteSymbol ((x - x % 5) / 5) ((y - 10) / 2) = some s2
                  ∧ (s2.ruleset ((x - x % 5) / 5) ((y - 10) / 2)).write_symbol
                      = ((s.ruleset ((x - x % 5) / 5) ((y - 10) / 2)).write_symbol + 1).tmod 6
                  ∧ (s2.ruleset ((x - x % 5) / 5) ((y - 10) / 2)).next_state
                      = (s.ruleset ((x - x % 5) / 5) ((y - 10) / 2)).next_state
                  ∧ (s2.ruleset ((x - x % 5) / 5) ((y - 10) / 2)).move_head
                      = (s.ruleset ((x - x % 5) / 5) ((y - 10) / 2)).move_head)
            ∧ (x % 5 = 4 →
                s.cycleMoveHead ((x - x % 5) / 5) ((y - 10) / 2) = some s2
                  ∧ (s2.ruleset ((x - x % 5) / 5) ((y - 10) / 2)).move_head
                      = ((s.ruleset ((x - x % 5) / 5) ((y - 10) / 2)).move_head + 1).tmod 2
                  ∧ (s2.ruleset ((x - x % 5) / 5) ((y - 10) / 2)).next_state
                      = (s.ruleset ((x - x % 5) / 5) ((y - 10) / 2)).next_state
                  ∧ (s2.ruleset ((x - x % 5) / 5) ((y - 10) / 2)).write_symbol
                      = (s.ruleset ((x - x % 5) / 5) ((y - 10) / 2)).write_symbol))
      ∧ (¬ ((y % 2 = 0 ∧ 10 ≤ y ∧ y ≤ 20) ∧ (x % 5 = 2 ∨ x % 5 = 3 ∨ x % 5 = 4)) →
          s2 = s) := by
  obtain ⟨hc2, hc3, hc4, hcno⟩ := checkTransitionTableClick_cases s x y
  have hxm : x.tmod 5 = x % 5 := Int.tmod_eq_emod hx.1 (by decide)
  by_cases hcond : (y % 2 = 0 ∧ 10 ≤ y ∧ y ≤ 20) ∧ (x % 5 = 2 ∨ x % 5 = 3 ∨ x % 5 = 4)
  · obtain ⟨⟨hy2, hy10, hy20⟩, hx5⟩ := hcond
    have hym : y.tmod 2 = y % 2 := Int.tmod_eq_emod (by omega) (by decide)
    have hrow : y.tmod 2 = 0 ∧ y ≥ 10 ∧ y ≤ 20 := ⟨by rw [hym]; exact hy2, hy10, hy20⟩
    have hB : (y - 10).tdiv 2 = (y - 10) / 2 := Int.tdiv_eq_ediv (by omega) (by decide)
    have hab : 0 ≤ (x - x % 5) / 5 ∧ (x - x % 5) / 5 < NUMSTT
        ∧ 0 ≤ (y - 10) / 2 ∧ (y - 10) / 2 < NUMSYM := by
      simp only [NUMSTT, NUMSYM]
      omega
    have hA : 0 ≤ (x - x % 5) / 5 ∧ (x - x % 5) / 5 ≤ 15 := by omega
    have hBr : 0 ≤ (y - 10) / 2 ∧ (y - 10) / 2 ≤ 5 := by omega
    rcases hx5 with h2 | h3 | h4
    · have hA2 : (x - 2).tdiv 5 = (x - x % 5) / 5 := by
        rw [Int.tdiv_eq_ediv (by omega) (by decide), h2]
      have e := hc2 hrow (by rw [hxm]; exact h2)
      rw [hA2, hB] at e
      obtain ⟨s2, e2, hf, h1, h2', ho, _⟩ := cycleNextState_spec s _ _ hab
      refine ⟨s2, e.trans e2, fun _ => ⟨hA, hBr, ho, fun _ => ⟨e2, hf, h1, h2'⟩, ?_, ?_⟩,
        fun hno => absurd ⟨⟨hy2, hy10, hy20⟩, Or.inl h2⟩ hno⟩
      · intro h
        omega
      · intro h
        omega
    · have hA3 : (x - 3).tdiv 5 = (x - x % 5) / 5 := by
        rw [Int.tdiv_eq_ediv (by omega) (by decide), h3]
      have e := hc3 hrow (by rw [hxm]; exact h3)
      rw [hA3, hB] at e
      obtain ⟨s2, e2, hf, h1, h2', ho, _⟩ := cycleWriteSymbol_spec s _ _ hab
      refine ⟨s2, e.trans e2, fun _ => ⟨hA, hBr, ho, ?_, fun _ => ⟨e2, hf, h1, h2'⟩, ?_⟩,
        fun hno => absurd ⟨⟨hy2, hy10, hy20⟩, Or.inr (Or.inl h3)⟩ hno⟩
      · intro h
        omega
      · intro h
        omega
    · have hA4 : (x - 4).tdiv 5 = (x - x % 5) / 5 := by
        rw [Int.tdiv_eq_ediv (by omega) (by decide), h4]
      have e := hc4 hrow (by rw [hxm]; exact h4)
      rw [hA4, hB] at e
      obtain ⟨s2, e2, hf, h1, h2', ho, _⟩ := cycleMoveHead_spec s _ _ hab
      refine ⟨s2, e.trans e2, fun _ => ⟨hA, hBr, ho, ?_, ?_, fun _ => ⟨e2, hf, h1, h2'⟩⟩,
        fun hno => absurd ⟨⟨hy2, hy10, hy20⟩, Or.inr (Or.inr h4)⟩ hno⟩
      · intro h
        omega
      · intro h
        omega
  · refine ⟨s, hcno ?_, fun h => absurd h hcond, fun _ => rfl⟩
    by_cases hrow : y.tmod 2 = 0 ∧ y ≥ 10 ∧ y ≤ 20
    · right
      have hym : y.tmod 2 = y % 2 := Int.tmod_eq_emod (by omega) (by decide)
      rw [hym] at hrow
      rw [hxm]
      refine ⟨fun h => hcond ⟨hrow, Or.inl h⟩, fun h => hcond ⟨hrow, Or.inr (Or.inl h)⟩,
        fun h => hcond ⟨hrow, Or.inr (Or.inr h)⟩⟩
    · exact Or.inl hrow

/-- Witness of C20: the click at the last column of the last row of the table, `(79, 20)`,
cycles `move_head` of rule (state 15, One); the click at `(0, 10)` changes nothing. -/
theorem checkTransitionTableClick_in_bounds_witness :
    (∃ s2 : sim_obj, (uniformMachine 3 ASTERISK RIGHT).checkTransitionTableClick 79 20 = some s2
        ∧ (s2.ruleset 15 5).move_head = LEFT ∧ (s2.ruleset 15 5).next_state = 3
        ∧ s2.ruleset 15 4 = (uniformMachine 3 ASTERISK RIGHT).ruleset 15 4)
      ∧ (uniformMachine 3 ASTERISK RIGHT).checkTransitionTableClick 0 10
          = some (uniformMachine 3 ASTERISK RIGHT) := by
  refine ⟨?_, ?_⟩
  · obtain ⟨s2, e, h, _⟩ :=
      checkTransitionTableClick_in_bounds (uniformMachine 3 ASTERISK RIGHT) 79 20 (by decide)
    obtain ⟨_, _, ho, _, _, h4⟩ := h (by decide)
    obtain ⟨_, hm, hn, _⟩ := h4 (by decide)
    exact ⟨s2, e, hm, hn, ho 15 4 (by decide)⟩
  · obtain ⟨s2, e, _, h⟩ :=
      checkTransitionTableClick_in_bounds (uniformMachine 3 ASTERISK RIGHT) 0 10 (by decide)
    rw [e, h (by decide)]

/-! ## Clicks on the tape row -/

/-- The state `checkTapeCellAreaClick` returns for a click on the tape row that falls on a cell
of the tape. -/
theorem checkTapeCellAreaClick_eq (s : sim_obj) (x y : Int) (hy : y = 3)
    (hi : 0 ≤ x + s.th_obj.loc - 40 ∧ x + s.th_obj.loc - 40 ≤ 1023) :
    s.checkTapeCellAreaClick x y = some
      { s with
        tape_obj := s.tape_obj.store (x + s.th_obj.loc - 40)
          ((s.tape_obj.values (x + s.th_obj.loc - 40) + 1).tmod NUMSYM) } := by
  have hw : WID.tdiv 2 = 40 := by decide
  have h1 : x + s.th_obj.loc - 40 ≥ 0 ∧ x + s.th_obj.loc - 40 ≤ TAPESIZE - 1 := by
    simp only [TAPESIZE]
    omega
  have h2 : 0 ≤ x + s.th_obj.loc - 40 ∧ x + s.th_obj.loc - 40 < TAPESIZE := by
    simp only [TAPESIZE]
    omega
  simp only [sim_obj.checkTapeCellAreaClick, tape_head.getTapeHeadLoc, hw, if_pos hy, if_pos h1,
    tape.getTapeCell, tape.setTapeCell, if_pos h2, Option.bind_eq_bind, Option.some_bind]

/-- A click on the tape row that falls beyond either end of the tape changes nothing. -/
theorem checkTapeCellAreaClick_outside (s : sim_obj) (x y : Int)
    (hi : ¬ (0 ≤ x + s.th_obj.loc - 40 ∧ x + s.th_obj.loc - 40 ≤ 1023)) :
    s.checkTapeCellAreaClick x y = some s := by
  have hw : WID.tdiv 2 = 40 := by decide
  have h1 : ¬ (x + s.th_obj.loc - 40 ≥ 0 ∧ x + s.th_obj.loc - 40 ≤ TAPESIZE - 1) := by
    simp only [TAPESIZE]
    omega
  by_cases hy : y = 3
  · simp only [sim_obj.checkTapeCellAreaClick, tape_head.getTapeHeadLoc, hw, if_pos hy,
      if_neg h1]
  · simp only [sim_obj.checkTapeCellAreaClick, if_neg hy]

/-- One click on the tape row at a cell that holds a symbol: the cell gets the successor of its
ordinal modulo 6 and everything else is kept. -/
theorem checkTapeCellAreaClick_step (s : sim_obj) (x : Int)
    (hi : 0 ≤ x + s.th_obj.loc - 40 ∧ x + s.th_obj.loc - 40 ≤ 1023)
    (hv : 0 ≤ s.tape_obj.values (x + s.th_obj.loc - 40)) :
    ∃ s1 : sim_obj, s.checkTapeCellAreaClick x 3 = some s1
      ∧ s1.tape_obj.values (x + s.th_obj.loc - 40)
          = (s.tape_obj.values (x + s.th_obj.loc - 40) + 1) % 6
      ∧ (∀ q : Int, q ≠ x + s.th_obj.loc - 40 → s1.tape_obj.values q = s.tape_obj.values q)
      ∧ s1.th_obj = s.th_obj ∧ s1.ruleset = s.ruleset ∧ s1.ticks = s.ticks
      ∧ s1.halt = s.halt := by
  refine ⟨_, checkTapeCellAreaClick_eq s x 3 rfl hi, ?_, ?_, rfl, rfl, rfl, rfl⟩
  · simp only [tape.store, if_true]
    exact succ_tmod_eq _ 6 hv (by decide)
  · intro q hq
    simp only [tape.store, if_neg hq]

/-- What `k` clicks at the same place of the tape row do to a cell that holds a symbol: they add
`k` modulo 6 to its ordinal and keep everything else. -/
theorem checkTapeCellAreaClick_repeat (x : Int) (k : Nat) :
    ∀ s : sim_obj, (0 ≤ x + s.th_obj.loc - 40 ∧ x + s.th_obj.loc - 40 ≤ 1023) →
      (0 ≤ s.tape_obj.values (x + s.th_obj.loc - 40)
        ∧ s.tape_obj.values (x + s.th_obj.loc - 40) < 6) →
      ∃ s2 : sim_obj, repeatOpt (fun t => t.checkTapeCellAreaClick x 3) k s = some s2
        ∧ s2.tape_obj.values (x + s.th_obj.loc - 40)
            = (s.tape_obj.values (x + s.th_obj.loc - 40) + (k : Int)) % 6
        ∧ (∀ q : Int, q ≠ x + s.th_obj.loc - 40 → s2.tape_obj.values q = s.tape_obj.values q)
        ∧ s2.th_obj = s.th_obj ∧ s2.ruleset = s.ruleset ∧ s2.ticks = s.ticks
        ∧ s2.halt = s.halt := by
  induction k with
  | zero =>
    intro s _ hv
    refine ⟨s, rfl, ?_, fun _ _ => rfl, rfl, rfl, rfl, rfl⟩
    simp only [Nat.cast_zero, add_zero]
    omega
  | succ k ih =>
    intro s hi hv
    obtain ⟨s1, e1, hf1, ho1, hth1, hr1, ht1, hh1⟩ := checkTapeCellAreaClick_step s x hi hv.1
    have hi1 : 0 ≤ x + s1.th_obj.loc - 40 ∧ x + s1.th_obj.loc - 40 ≤ 1023 := by
      rw [hth1]
      exact hi
    have hv1 : 0 ≤ s1.tape_obj.values (x + s1.th_obj.loc - 40)
        ∧ s1.tape_obj.values (x + s1.th_obj.loc - 40) < 6 := by
      rw [hth1, hf1]
      omega
    obtain ⟨s2, e2, hf2, ho2, hth2, hr2, ht2, hh2⟩ := ih s1 hi1 hv1
    rw [hth1] at hf2 ho2
    refine ⟨s2, ?_, ?_, fun q hq => (ho2 q hq).trans (ho1 q hq), hth2.trans hth1,
      hr2.trans hr1, ht2.trans ht1, hh2.trans hh1⟩
    · rw [repeatOpt, e1, Option.some_bind]
      exact e2
    · rw [hf2, hf1]
      push_cast
      omega

/-- Claim C21 (tape-cell click).  For every click `(x, y)` and every state, with
`idx = x + loc - 40`, `checkTapeCellAreaClick` succeeds and leaves the head, the rules, `ticks`
and `halt` unchanged.  When `y = 3` and `0 <= idx <= 1023` it changes no cell other than `idx`,
and a cell `idx` that holds a symbol (ordinal 0..5) gets the ordinal `(tape[idx] + 1) mod 6`;
six such clicks restore the tape.  In every other case, in particular when `idx` falls outside
`[0, 1023]`, the state is unchanged: the click is rejected, not wrapped around. -/
theorem checkTapeCellAreaClick_spec (s : sim_obj) (x y : Int) :
    ∃ s2 : sim_obj, s.checkTapeCellAreaClick x y = some s2
      ∧ s2.th_obj = s.th_obj ∧ s2.ruleset = s.ruleset ∧ s2.ticks = s.ticks ∧ s2.halt = s.halt
      ∧ (y = 3 ∧ 0 ≤ x + s.th_obj.loc - 40 ∧ x + s.th_obj.loc - 40 ≤ 1023 →
          (∀ q : Int, q ≠ x + s.th_obj.loc - 40 → s2.tape_obj.values q = s.tape_obj.values q)
            ∧ s2.tape_obj.values (x + s.th_obj.loc - 40)
                = (s.tape_obj.values (x + s.th_obj.loc - 40) + 1).tmod 6
            ∧ (0 ≤ s.tape_obj.values (x + s.th_obj.loc - 40)
                ∧ s.tape_obj.values (x + s.th_obj.loc - 40) ≤ 5 →
                s2.tape_obj.values (x + s.th_obj.loc - 40)
                    = (s.tape_obj.values (x + s.th_obj.loc - 40) + 1) % 6
                  ∧ s2.tape_obj.values (x + s.th_obj.loc - 40)
                    ≠ s.tape_obj.values (x + s.th_obj.loc - 40)
                  ∧ ∃ s6 : sim_obj,
                      repeatOpt (fun t => t.checkTapeCellAreaClick x y) 6 s = some s6
                        ∧ (∀ q : Int, s6.tape_obj.values q = s.tape_obj.values q)))
      ∧ (¬ (y = 3 ∧ 0 ≤ x + s.th_obj.loc - 40 ∧ x + s.th_obj.loc - 40 ≤ 1023) → s2 = s) := by
  by_cases hcond : y = 3 ∧ 0 ≤ x + s.th_obj.loc - 40 ∧ x + s.th_obj.loc - 40 ≤ 1023
  · obtain ⟨hy, hi⟩ := hcond
    refine ⟨_, checkTapeCellAreaClick_eq s x y hy hi, rfl, rfl, rfl, rfl, fun _ => ⟨?_, ?_, ?_⟩,
      fun hno => absurd ⟨hy, hi⟩ hno⟩
    · intro q hq
      simp only [tape.store, if_neg hq]
    · simp only [tape.store, if_true]
      rfl
    · intro hv
      have hs := succ_tmod_eq (s.tape_obj.values (x + s.th_obj.loc - 40)) 6 hv.1 (by decide)
      have hnew : (s.tape_obj.store (x + s.th_obj.loc - 40)
          ((s.tape_obj.values (x + s.th_obj.loc - 40) + 1).tmod NUMSYM)).values
            (x + s.th_obj.loc - 40)
          = (s.tape_obj.values (x + s.th_obj.loc - 40) + 1) % 6 := by
        simp only [tape.store, if_true]
        exact hs
      refine ⟨hnew, ?_, ?_⟩
      · show (s.tape_obj.store (x + s.th_obj.loc - 40) _).values (x + s.th_obj.loc - 40) ≠ _
        rw [hnew]
        omega
      · obtain ⟨s6, e6, hf, ho, _⟩ := checkTapeCellAreaClick_repeat x 6 s hi (by omega)
        rw [hy]
        refine ⟨s6, e6, fun q => ?_⟩
        by_cases hq : q = x + s.th_obj.loc - 40
        · rw [hq, hf]
          push_cast
          omega
        · exact ho q hq
  · have hsame : s.checkTapeCellAreaClick x y = some s := by
      by_cases hy : y = 3
      · exact checkTapeCellAreaClick_outside s x y (fun hi => hcond ⟨hy, hi⟩)
      · exact checkTapeCellAreaClick_of_ne s x y hy
    exact ⟨s, hsame, rfl, rfl, rfl, rfl, fun h => absurd h hcond, fun _ => rfl⟩

/-- Witness of C21: on the machine at position 512 with a blank tape, the click at `(41, 3)`
turns cell 513 into Cross and leaves cell 512 and the head alone; on the state with the head at
3, the click at `(0, 3)` falls on index -37 and changes nothing. -/
theorem checkTapeCellAreaClick_spec_witness :
    (∃ s2 : sim_obj, (uniformMachine 3 ASTERISK RIGHT).checkTapeCellAreaClick 41 3 = some s2
        ∧ s2.tape_obj.values 513 = CROSS ∧ s2.tape_obj.values 512 = BLANK
        ∧ s2.th_obj = (uniformMachine 3 ASTERISK RIGHT).th_obj)
      ∧ scrambled.checkTapeCellAreaClick 0 3 = some scrambled := by
  refine ⟨?_, ?_⟩
  · obtain ⟨s2, e, hth, _, _, _, h, _⟩ :=
      checkTapeCellAreaClick_spec (uniformMachine 3 ASTERISK RIGHT) 41 3
    obtain ⟨ho, _, hv⟩ := h (by decide)
    exact ⟨s2, e, (hv (by decide)).1, ho 512 (by decide), hth⟩
  · obtain ⟨s2, e, _, _, _, _, _, h⟩ := checkTapeCellAreaClick_spec scrambled 0 3
    rw [e, h (by decide)]

/-! ## Definedness under the caller's discipline -/

/-- At a non-halted state with the engine invariant the lookups of `applyTransition` are inside
their arrays. -/
theorem engineInv_bounds (s : sim_obj) (hinv : engineInv s) (hh : s.halt = false) :
    (0 ≤ s.th_obj.loc ∧ s.th_obj.loc < TAPESIZE)
      ∧ (0 ≤ s.th_obj.curr_state ∧ s.th_obj.curr_state < NUMSTT)
      ∧ (0 ≤ s.tape_obj.values s.th_obj.loc ∧ s.tape_obj.values s.th_obj.loc < NUMSYM) := by
  obtain ⟨⟨hloc, htape, _⟩, hhalt, hst⟩ := hinv
  have hnh : ¬ isHalting s.th_obj.curr_state := by
    intro hq
    rw [hhalt.mpr hq] at hh
    exact absurd hh (by decide)
  have hc := htape _ hloc.1 hloc.2
  refine ⟨hloc, ?_, ?_⟩
  · simp only [isHalting, STATE_QHALT, STATE_QACCEPT, STATE_QREJECT] at hnh
    simp only [NUMSTT]
    omega
  · simp only [NUMSYM]
    omega

/-- At a non-halted state with the engine invariant `applyTransition` is defined. -/
theorem applyTransition_isSome (s : sim_obj) (hinv : engineInv s) (hh : s.halt = false) :
    ∃ s2 : sim_obj, s.applyTransition = some s2 := by
  obtain ⟨hp, hq, hc⟩ := engineInv_bounds s hinv hh
  by_cases hn :
      isHalting (s.ruleset s.th_obj.curr_state (s.tape_obj.values s.th_obj.loc)).next_state
  · exact ⟨_, applyTransition_of_halting s hp hq hc hn⟩
  · exact ⟨_, applyTransition_of_not_halting s hp hq hc hn⟩

/-- A click on the rule table at a column of the window is defined. -/
theorem checkTransitionTableClick_isSome (s : sim_obj) (x y : Int) (hx : 0 ≤ x ∧ x < 80) :
    ∃ s2 : sim_obj, s.checkTransitionTableClick x y = some s2 := by
  obtain ⟨hc2, hc3, hc4, hcno⟩ := checkTransitionTableClick_cases s x y
  have hxm : x.tmod 5 = x % 5 := Int.tmod_eq_emod hx.1 (by decide)
  by_cases hrow : y.tmod 2 = 0 ∧ y ≥ 10 ∧ y ≤ 20
  · have hB : (y - 10).tdiv 2 = (y - 10) / 2 := Int.tdiv_eq_ediv (by omega) (by decide)
    have hbr : 0 ≤ (y - 10).tdiv 2 ∧ (y - 10).tdiv 2 < NUMSYM := by
      rw [hB]
      simp only [NUMSYM]
      omega
    by_cases h2 : x.tmod 5 = 2
    · have hA : (x - 2).tdiv 5 = (x - 2) / 5 := Int.tdiv_eq_ediv (by omega) (by decide)
      have har : 0 ≤ (x - 2).tdiv 5 ∧ (x - 2).tdiv 5 < NUMSTT := by
        rw [hA]
        simp only [NUMSTT]
        omega
      rw [hc2 hrow h2]
      exact ⟨_, cycleNextState_eq s _ _ ⟨har.1, har.2, hbr.1, hbr.2⟩⟩
    · by_cases h3 : x.tmod 5 = 3
      · have hA : (x - 3).tdiv 5 = (x - 3) / 5 := Int.tdiv_eq_ediv (by omega) (by decide)
        have har : 0 ≤ (x - 3).tdiv 5 ∧ (x - 3).tdiv 5 < NUMSTT := by
          rw [hA]
          simp only [NUMSTT]
          omega
        rw [hc3 hrow h3]
        exact ⟨_, cycleWriteSymbol_eq s _ _ ⟨har.1, har.2, hbr.1, hbr.2⟩⟩
      · by_cases h4 : x.tmod 5 = 4
        · have hA : (x - 4).tdiv 5 = (x - 4) / 5 := Int.tdiv_eq_ediv (by omega) (by decide)
          have har : 0 ≤ (x - 4).tdiv 5 ∧ (x - 4).tdiv 5 < NUMSTT := by
            rw [hA]
            simp only [NUMSTT]
            omega
          rw [hc4 hrow h4]
          exact ⟨_, cycleMoveHead_eq s _ _ ⟨har.1, har.2, hbr.1, hbr.2⟩⟩
        · exact ⟨s, hcno (Or.inr ⟨h2, h3, h4⟩)⟩
  · exact ⟨s, hcno (Or.inl hrow)⟩

/-- A click on the tape row is defined wherever it falls. -/
theorem checkTapeCellAreaClick_isSome (s : sim_obj) (x y : Int) :
    ∃ s2 : sim_obj, s.checkTapeCellAreaClick x y = some s2 := by
  by_cases hy : y = 3
  · by_cases hi : 0 ≤ x + s.th_obj.loc - 40 ∧ x + s.th_obj.loc - 40 ≤ 1023
    · exact ⟨_, checkTapeCellAreaClick_eq s x y hy hi⟩
    · exact ⟨s, checkTapeCellAreaClick_outside s x y hi⟩
  · exact ⟨s, checkTapeCellAreaClick_of_ne s x y hy⟩

/-- The state `checkTapeHeadAreaClick` returns for a click above the tape that falls on a cell
of the tape. -/
theorem checkTapeHeadAreaClick_eq (s : sim_obj) (x y : Int) (hy : y = 0 ∨ y = 1)
    (hi : 0 ≤ x + s.th_obj.loc - 40 ∧ x + s.th_obj.loc - 40 ≤ 1023) :
    s.checkTapeHeadAreaClick x y
      = some { s with th_obj := s.th_obj.setTapeHeadLoc (x + s.th_obj.loc - 40) } := by
  have hw : WID.tdiv 2 = 40 := by decide
  have h1 : x + s.th_obj.loc - 40 ≥ 0 ∧ x + s.th_obj.loc - 40 ≤ TAPESIZE - 1 := by
    simp only [TAPESIZE]
    omega
  simp only [sim_obj.checkTapeHeadAreaClick, tape_head.getTapeHeadLoc, hw, if_pos hy, if_pos h1]

/-- A click above the tape that falls beyond either end of the tape changes nothing. -/
theorem checkTapeHeadAreaClick_outside (s : sim_obj) (x y : Int)
    (hi : ¬ (0 ≤ x + s.th_obj.loc - 40 ∧ x + s.th_obj.loc - 40 ≤ 1023)) :
    s.checkTapeHeadAreaClick x y = some s := by
  have hw : WID.tdiv 2 = 40 := by decide
  have h1 : ¬ (x + s.th_obj.loc - 40 ≥ 0 ∧ x + s.th_obj.loc - 40 ≤ TAPESIZE - 1) := by
    simp only [TAPESIZE]
    omega
  by_cases hy : y = 0 ∨ y = 1
  · simp only [sim_obj.checkTapeHeadAreaClick, tape_head.getTapeHeadLoc, hw, if_pos hy,
      if_neg h1]
  · simp only [sim_obj.checkTapeHeadAreaClick, if_neg hy]

/-- A click above the tape is defined wherever it falls. -/
theorem checkTapeHeadAreaClick_isSome (s : sim_obj) (x y : Int) :
    ∃ s2 : sim_obj, s.checkTapeHeadAreaClick x y = some s2 := by
  by_cases hy : y = 0 ∨ y = 1
  · by_cases hi : 0 ≤ x + s.th_obj.loc - 40 ∧ x + s.th_obj.loc - 40 ≤ 1023
    · exact ⟨_, checkTapeHeadAreaClick_eq s x y hy hi⟩
    · exact ⟨s, checkTapeHeadAreaClick_outside s x y hi⟩
  · have h0 : y ≠ 0 := fun h => hy (Or.inl h)
    have h1 : y ≠ 1 := fun h => hy (Or.inr h)
    exact ⟨s, checkTapeHeadAreaClick_of_ne s x y h0 h1⟩

/-- Under the caller's discipline every operation is defined at a state with the engine
invariant. -/
theorem applyOp_isSome (s : sim_obj) (op : Op) (hinv : engineInv s)
    (hop : op.allowedAt s = true) : ∃ s2 : sim_obj, s.applyOp op = some s2 := by
  cases op with
  | step =>
    have hh : s.halt = false := by
      simpa [Op.allowedAt] using hop
    exact applyTransition_isSome s hinv hh
  | move => exact ⟨_, rfl⟩
  | ruleClick x y =>
    have hx : 0 ≤ x ∧ x < 80 := by
      simpa [Op.allowedAt, WID] using hop
    exact checkTransitionTableClick_isSome s x y hx
  | tapeClick x y => exact checkTapeCellAreaClick_isSome s x y
  | headClick x y => exact checkTapeHeadAreaClick_isSome s x y
  | reset rnd rand => exact ⟨_, rfl⟩

/-- Under the caller's discipline every sequence of operations from a state with the engine
invariant is defined and ends in a state with the engine invariant. -/
theorem applyOps_isSome (ops : List Op) :
    ∀ s : sim_obj, engineInv s → s.allows ops = true →
      ∃ s2 : sim_obj, s.applyOps ops = some s2 ∧ engineInv s2 := by
  induction ops with
  | nil =>
    intro s hinv _
    exact ⟨s, rfl, hinv⟩
  | cons op ops ih =>
    intro s hinv hal
    simp only [sim_obj.allows, Bool.and_eq_true] at hal
    obtain ⟨hop, hrest⟩ := hal
    obtain ⟨s1, e1⟩ := applyOp_isSome s op hinv hop
    rw [e1] at hrest
    obtain ⟨s2, e2, hinv2⟩ := ih s1 (applyOp_inv s s1 op hinv e1) hrest
    refine ⟨s2, ?_, hinv2⟩
    simp only [sim_obj.applyOps, List.foldlM_cons, e1, Option.bind_eq_bind, Option.some_bind]
    exact e2

/-! ## Well-formedness of the reachable states -/

set_option maxRecDepth 100000 in
/-- Counterexample to C10.  The claim is about any sequence of steps.  After the reset, the
seventeen clicks and the halting step of `haltingOps` the machine is halted in state Accept
(17); one more step looks up `ruleset[17][0]`, a row outside the 16 x 6 table, so the lookup,
`applyTransition` and the whole sequence have no defined result, and no well-formed state
follows. -/
theorem step_on_halted_machine_leaves_table :
    Option.map
        (fun s => (s.halt, s.th_obj.curr_state, s.tape_obj.values s.th_obj.loc,
          (s.rule s.th_obj.curr_state (s.tape_obj.values s.th_obj.loc)).isSome,
          s.applyTransition.isSome))
        ((zeroed.reInitializeEverything false sampleRand).applyOps haltingOps)
        = some (true, 17, 0, false, false)
      ∧ ((zeroed.reInitializeEverything false sampleRand).applyOps
          (haltingOps ++ [Op.step])).isSome = false := by
  decide

/-- Claim C10, amended.  For every sequence of steps, head moves, rule-table clicks, tape
clicks, head clicks and resets applied after a reset, deterministic or randomized, in which
every step is applied to a non-halted state and every rule-table click is at a column
`0 <= x < 80`, the code is defined all along and in the state reached the head position is in
`[0, 1024)`, every tape cell holds an ordinal in 0..5, and every rule has `next_state` in
0..18, `write_symbol` in 0..5 and `move_head` Left or Right. -/
theorem reachable_wellFormed (s0 : sim_obj) (rnd : Bool) (rand : Nat → Nat) (ops : List Op)
    (h : (s0.reInitializeEverything rnd rand).allows ops = true) :
    ∃ s : sim_obj, (s0.reInitializeEverything rnd rand).applyOps ops = some s
      ∧ (0 ≤ s.th_obj.loc ∧ s.th_obj.loc < 1024)
      ∧ (∀ p : Int, 0 ≤ p → p < 1024 → 0 ≤ s.tape_obj.values p ∧ s.tape_obj.values p ≤ 5)
      ∧ (∀ a b : Int, 0 ≤ a → a < 16 → 0 ≤ b → b < 6 →
          (0 ≤ (s.ruleset a b).next_state ∧ (s.ruleset a b).next_state ≤ 18)
            ∧ (0 ≤ (s.ruleset a b).write_symbol ∧ (s.ruleset a b).write_symbol ≤ 5)
            ∧ ((s.ruleset a b).move_head = LEFT ∨ (s.ruleset a b).move_head = RIGHT)) := by
  obtain ⟨s, e, hinv⟩ := applyOps_isSome ops _ (reInitializeEverything_inv s0 rnd rand) h
  exact ⟨s, e, hinv.1⟩

set_option maxRecDepth 100000 in
/-- Witness of the amended C10: after a randomized reset, a tape click, a head click, a rule
click, a step and a head move, read at the head, at the cell the step wrote and at the rule that
was clicked. -/
theorem reachable_wellFormed_witness :
    ∃ s : sim_obj,
      (scrambled.reInitializeEverything true sampleRand).applyOps mixedOps = some s
        ∧ (0 ≤ s.th_obj.loc ∧ s.th_obj.loc < 1024)
        ∧ (0 ≤ s.tape_obj.values 513 ∧ s.tape_obj.values 513 ≤ 5)
        ∧ (0 ≤ (s.ruleset 0 1).write_symbol ∧ (s.ruleset 0 1).write_symbol ≤ 5) := by
  have hal : (scrambled.reInitializeEverything true sampleRand).allows mixedOps = true := by
    decide
  obtain ⟨s, hs, hl, ht, hr⟩ := reachable_wellFormed scrambled true sampleRand mixedOps hal
  exact ⟨s, hs, hl, ht 513 (by decide) (by decide),
    (hr 0 1 (by decide) (by decide) (by decide) (by decide)).2.1⟩

/-! ## Clicks on a halted machine -/

/-- A click outside the rows of the rule table does nothing in `checkTransitionTableClick`. -/
theorem checkTransitionTableClick_of_lt (s : sim_obj) (x y : Int) (hy : y < 10) :
    s.checkTransitionTableClick x y = some s := by
  have h : ¬ (y.tmod 2 = 0 ∧ y ≥ 10 ∧ y ≤ 20) := by
    intro h
    omega
  simp only [sim_obj.checkTransitionTableClick, if_neg h]

/-- Which of its three handlers decides `checkClick`, by the row `y` of the click: on the tape
row the tape handler, on the two rows above the tape the head handler, elsewhere the rule-table
handler. -/
theorem checkClick_cases (s : sim_obj) (x y : Int) :
    (y = 3 → s.checkClick x y = s.checkTapeCellAreaClick x y)
      ∧ (y = 0 ∨ y = 1 → s.checkClick x y = s.checkTapeHeadAreaClick x y)
      ∧ (y ≠ 3 → y ≠ 0 → y ≠ 1 → s.checkClick x y = s.checkTransitionTableClick x y) := by
  refine ⟨?_, ?_, ?_⟩
  · intro hy
    have e1 := checkTransitionTableClick_of_lt s x y (by omega)
    simp only [sim_obj.checkClick, e1, Option.bind_eq_bind, Option.some_bind]
    cases h : s.checkTapeCellAreaClick x y with
    | none => rfl
    | some s2 =>
      rw [Option.some_bind]
      exact checkTapeHeadAreaClick_of_ne s2 x y (by omega) (by omega)
  · intro hy
    have e1 := checkTransitionTableClick_of_lt s x y (by omega)
    have e2 := checkTapeCellAreaClick_of_ne s x y (by omega)
    simp only [sim_obj.checkClick, e1, e2, Option.bind_eq_bind, Option.some_bind]
  · intro h3 h0 h1
    simp only [sim_obj.checkClick, Option.bind_eq_bind]
    cases h : s.checkTransitionTableClick x y with
    | none => rfl
    | some s2 =>
      rw [Option.some_bind, checkTapeCellAreaClick_of_ne s2 x y h3, Option.some_bind]
      exact checkTapeHeadAreaClick_of_ne s2 x y h0 h1

/-- A click at a column of the window is defined in `checkClick`. -/
theorem checkClick_isSome (s : sim_obj) (x y : Int) (hx : 0 ≤ x ∧ x < 80) :
    ∃ s2 : sim_obj, s.checkClick x y = some s2 := by
  obtain ⟨c3, c01, cel⟩ := checkClick_cases s x y
  by_cases h3 : y = 3
  · rw [c3 h3]
    exact checkTapeCellAreaClick_isSome s x y
  · by_cases h01 : y = 0 ∨ y = 1
    · rw [c01 h01]
      exact checkTapeHeadAreaClick_isSome s x y
    · rw [cel h3 (fun h => h01 (Or.inl h)) (fun h => h01 (Or.inr h))]
      exact checkTransitionTableClick_isSome s x y hx

/-- What is left of a pass of the loop body of `runApp` after the click handling, on a halted
state and for a key other than the two reset keys: `simulate` is not entered and no reset
runs. -/
theorem runAppBody_halted (KEY_MOUSE : Int) (inp : input) (s : sim_obj)
    (hi : inp.key ≠ 105) (hr : inp.key ≠ 114) :
    (inp.key ≠ KEY_MOUSE → s.halt = true →
        runAppBody KEY_MOUSE inp s = some { sim := s, pc := control.runAppGetch })
      ∧ (inp.key = KEY_MOUSE → ∀ s1 : sim_obj, s.checkClick inp.mx inp.my = some s1 →
          s1.halt = true →
          runAppBody KEY_MOUSE inp s = some { sim := s1, pc := control.runAppGetch }) := by
  have hrest : ∀ s1 : sim_obj, s1.halt = true →
      (if inp.key = 32 ∧ s1.halt = false then
          some ({ sim := s1, pc := control.simulateTop } : app)
        else
          some { sim := (if inp.key = 114 then
                    (if inp.key = 105 then s1.reInitializeEverything false inp.rand
                      else s1).reInitializeEverything true inp.rand
                  else (if inp.key = 105 then s1.reInitializeEverything false inp.rand
                      else s1)),
                 pc := control.runAppGetch })
        = some { sim := s1, pc := control.runAppGetch } := by
    intro s1 h1
    have hno : ¬ (inp.key = 32 ∧ s1.halt = false) := by
      intro hc
      rw [h1] at hc
      exact absurd hc.2 (by decide)
    rw [if_neg hno, if_neg hr, if_neg hi]
  refine ⟨?_, ?_⟩
  · intro hk hh
    simp only [runAppBody, if_neg hk, Option.bind_eq_bind, Option.some_bind]
    exact hrest s hh
  · intro hk s1 e1 h1
    simp only [runAppBody, if_pos hk, e1, Option.bind_eq_bind, Option.some_bind]
    exact hrest s1 h1

/-- Claim C14, amended.  From a state with `halt = true`, a pass of the loop body of `runApp`
for a key other than the two reset keys `i` and `r`:
for a key that is not a mouse event (the run command included) returns to the `getch()` of
`runApp` with the state unchanged;
for a mouse click at a column `0 <= x < 80` it is defined, does exactly what `checkClick` does,
returns to the `getch()` of `runApp`, and keeps `halt = true`, the head state, the pending
direction and `ticks`.  The click edits stay available: on the tape row `y = 3` a click on a
cell `idx = x + loc - 40` of the tape replaces that cell by its successor (a different symbol,
`(tape[idx] + 1) mod 6`, when the cell holds a symbol) and nothing else; on the rows `y = 0` and
`y = 1` it puts the head at `idx` and changes nothing else; on these three rows a click with
`idx` outside `[0, 1023]` changes nothing; on the other rows it is the rule-table click and
changes neither tape nor head. -/
theorem halted_until_reset (KEY_MOUSE : Int) (inp : input) (s : sim_obj)
    (hh : s.halt = true) (hi : inp.key ≠ 105) (hr : inp.key ≠ 114) :
    (inp.key ≠ KEY_MOUSE →
        runAppBody KEY_MOUSE inp s = some { sim := s, pc := control.runAppGetch })
      ∧ (inp.key = KEY_MOUSE → 0 ≤ inp.mx ∧ inp.mx < 80 →
          ∃ c : app, runAppBody KEY_MOUSE inp s = some c
            ∧ s.checkClick inp.mx inp.my = some c.sim
            ∧ c.pc = control.runAppGetch ∧ c.sim.halt = true
            ∧ c.sim.th_obj.curr_state = s.th_obj.curr_state
            ∧ c.sim.th_obj.curr_dir = s.th_obj.curr_dir
            ∧ c.sim.ticks = s.ticks
            ∧ (inp.my = 3 →
                0 ≤ inp.mx + s.th_obj.loc - 40 ∧ inp.mx + s.th_obj.loc - 40 ≤ 1023 →
                c.sim.tape_obj.values (inp.mx + s.th_obj.loc - 40)
                    = (s.tape_obj.values (inp.mx + s.th_obj.loc - 40) + 1).tmod 6
                  ∧ (0 ≤ s.tape_obj.values (inp.mx + s.th_obj.loc - 40)
                      ∧ s.tape_obj.values (inp.mx + s.th_obj.loc - 40) ≤ 5 →
                      c.sim.tape_obj.values (inp.mx + s.th_obj.loc - 40)
                          = (s.tape_obj.values (inp.mx + s.th_obj.loc - 40) + 1) % 6
                        ∧ c.sim.tape_obj.values (inp.mx + s.th_obj.loc - 40)
                          ≠ s.tape_obj.values (inp.mx + s.th_obj.loc - 40))
                  ∧ (∀ q : Int, q ≠ inp.mx + s.th_obj.loc - 40 →
                      c.sim.tape_obj.values q = s.tape_obj.values q)
                  ∧ c.sim.th_obj = s.th_obj ∧ c.sim.ruleset = s.ruleset)
            ∧ (inp.my = 0 ∨ inp.my = 1 →
                0 ≤ inp.mx + s.th_obj.loc - 40 ∧ inp.mx + s.th_obj.loc - 40 ≤ 1023 →
                c.sim.th_obj.loc = inp.mx + s.th_obj.loc - 40
                  ∧ c.sim.tape_obj = s.tape_obj ∧ c.sim.ruleset = s.ruleset)
            ∧ (inp.my ≠ 3 → inp.my ≠ 0 → inp.my ≠ 1 →
                s.checkTransitionTableClick inp.mx inp.my = some c.sim
                  ∧ c.sim.tape_obj = s.tape_obj ∧ c.sim.th_obj = s.th_obj)
            ∧ (inp.my = 3 ∨ inp.my = 0 ∨ inp.my = 1 →
                ¬ (0 ≤ inp.mx + s.th_obj.loc - 40 ∧ inp.mx + s.th_obj.loc - 40 ≤ 1023) →
                c.sim = s)
            ∧ (inp.my ≠ 3 → c.sim.tape_obj = s.tape_obj)
            ∧ (inp.my ≠ 0 → inp.my ≠ 1 → c.sim.th_obj.loc = s.th_obj.loc)) := by
  obtain ⟨hkey, hmouse⟩ := runAppBody_halted KEY_MOUSE inp s hi hr
  refine ⟨fun hk => hkey hk hh, ?_⟩
  intro hk hx
  obtain ⟨s1, e1⟩ := checkClick_isSome s inp.mx inp.my hx
  obtain ⟨fh, ft, fcs, fcd, ftp, floc, _⟩ := checkClick_frame s s1 inp.mx inp.my e1
  have h1h : s1.halt = true := by rw [fh, hh]
  obtain ⟨c3, c01, cel⟩ := checkClick_cases s inp.mx inp.my
  refine ⟨_, hmouse hk s1 e1 h1h, e1, rfl, h1h, fcs, fcd, ft, ?_, ?_, ?_, ?_, ftp, floc⟩
  · intro hy hidx
    have e2 := checkTapeCellAreaClick_eq s inp.mx inp.my hy hidx
    rw [c3 hy, e2] at e1
    injection e1 with e1
    subst e1
    refine ⟨?_, ?_, ?_, rfl, rfl⟩
    · simp only [tape.store, if_true]
      rfl
    · intro hv
      have hs := succ_tmod_eq (s.tape_obj.values (inp.mx + s.th_obj.loc - 40)) 6 hv.1
        (by decide)
      have hnew : (s.tape_obj.store (inp.mx + s.th_obj.loc - 40)
          ((s.tape_obj.values (inp.mx + s.th_obj.loc - 40) + 1).tmod NUMSYM)).values
            (inp.mx + s.th_obj.loc - 40)
          = (s.tape_obj.values (inp.mx + s.th_obj.loc - 40) + 1) % 6 := by
        simp only [tape.store, if_true]
        exact hs
      refine ⟨hnew, ?_⟩
      show (s.tape_obj.store (inp.mx + s.th_obj.loc - 40) _).values
        (inp.mx + s.th_obj.loc - 40) ≠ _
      rw [hnew]
      omega
    · intro q hq
      simp only [tape.store, if_neg hq]
  · intro hy hidx
    have e2 := checkTapeHeadAreaClick_eq s inp.mx inp.my hy hidx
    rw [c01 hy, e2] at e1
    injection e1 with e1
    subst e1
    exact ⟨rfl, rfl, rfl⟩
  · intro h3 h0 h1
    rw [cel h3 h0 h1] at e1
    obtain ⟨ath, atp, _⟩ := checkTransitionTableClick_edit s s1 inp.mx inp.my e1
    exact ⟨e1, atp, ath⟩
  · intro hy hidx
    show s1 = s
    rcases hy with hy | hy | hy
    · rw [c3 hy, checkTapeCellAreaClick_outside s inp.mx inp.my hidx] at e1
      injection e1 with e1
      exact e1.symm
    · rw [c01 (Or.inl hy), checkTapeHeadAreaClick_outside s inp.mx inp.my hidx] at e1
      injection e1 with e1
      exact e1.symm
    · rw [c01 (Or.inr hy), checkTapeHeadAreaClick_outside s inp.mx inp.my hidx] at e1
      injection e1 with e1
      exact e1.symm

/-- Witness of the amended C14, on a halted state with the head at 3 on a tape of Zero symbols:
the space key changes nothing; the click at `(40, 3)` turns cell 3 into One; the click at
`(45, 0)` puts the head at 8; the click at `(2, 10)` on the rule table leaves tape and head
alone. -/
theorem halted_until_reset_witness :
    runAppBody 539 { key := 32, mx := 0, my := 0, rand := sampleRand } scrambled
        = some { sim := scrambled, pc := control.runAppGetch }
      ∧ (∃ c : app,
          runAppBody 539 { key := 539, mx := 40, my := 3, rand := sampleRand } scrambled = some c
            ∧ c.sim.halt = true ∧ c.sim.tape_obj.values 3 = ONE)
      ∧ (∃ c : app,
          runAppBody 539 { key := 539, mx := 45, my := 0, rand := sampleRand } scrambled = some c
            ∧ c.sim.halt = true ∧ c.sim.th_obj.loc = 8)
      ∧ (∃ c : app,
          runAppBody 539 { key := 539, mx := 2, my := 10, rand := sampleRand } scrambled = some c
            ∧ c.sim.halt = true ∧ c.sim.th_obj = scrambled.th_obj
            ∧ c.sim.tape_obj = scrambled.tape_obj) := by
  refine ⟨?_, ?_, ?_, ?_⟩
  · exact (halted_until_reset 539 { key := 32, mx := 0, my := 0, rand := sampleRand }
      scrambled rfl (by decide) (by decide)).1 (by decide)
  · obtain ⟨c, e, _, _, hh, _, _, _, h3, _⟩ :=
      (halted_until_reset 539 { key := 539, mx := 40, my := 3, rand := sampleRand }
        scrambled rfl (by decide) (by decide)).2 rfl (by decide)
    exact ⟨c, e, hh, ((h3 rfl (by decide)).2.1 (by decide)).1⟩
  · obtain ⟨c, e, _, _, hh, _, _, _, _, h01, _⟩ :=
      (halted_until_reset 539 { key := 539, mx := 45, my := 0, rand := sampleRand }
        scrambled rfl (by decide) (by decide)).2 rfl (by decide)
    exact ⟨c, e, hh, (h01 (Or.inl rfl) (by decide)).1⟩
  · obtain ⟨c, e, _, _, hh, _, _, _, _, _, hel, _⟩ :=
      (halted_until_reset 539 { key := 539, mx := 2, my := 10, rand := sampleRand }
        scrambled rfl (by decide) (by decide)).2 rfl (by decide)
    obtain ⟨_, htp, hth⟩ := hel (by decide) (by decide) (by decide)
    exact ⟨c, e, hh, hth, htp⟩

/-! ## Lookup safety of the event loop -/

/-- A pass of the loop body of `runApp` with the mouse at a column of the window is defined. -/
theorem runAppBody_isSome (KEY_MOUSE : Int) (inp : input) (s : sim_obj)
    (hw : inp.inWindow = true) : ∃ c : app, runAppBody KEY_MOUSE inp s = some c := by
  have hx : 0 ≤ inp.mx ∧ inp.mx < 80 := by
    simpa [input.inWindow, WID] using hw
  by_cases hk : inp.key = KEY_MOUSE
  · obtain ⟨s1, e1⟩ := checkClick_isSome s inp.mx inp.my hx
    simp only [runAppBody, if_pos hk, e1, Option.bind_eq_bind, Option.some_bind]
    split
    · exact ⟨_, rfl⟩
    · exact ⟨_, rfl⟩
  · simp only [runAppBody, if_neg hk, Option.bind_eq_bind, Option.some_bind]
    split
    · exact ⟨_, rfl⟩
    · exact ⟨_, rfl⟩

/-- A step of `runApp` with the mouse at a column of the window is defined at a control point
with the invariant of `runApp`. -/
theorem next_isSome (KEY_MOUSE : Int) (c : app) (inp : input) (hinv : appInv c)
    (hw : inp.inWindow = true) : ∃ c2 : app, c.next KEY_MOUSE inp = some c2 := by
  obtain ⟨hinv1, hsim⟩ := hinv
  unfold app.next
  split
  · exact ⟨_, rfl⟩
  · split
    · exact ⟨_, rfl⟩
    · exact runAppBody_isSome KEY_MOUSE inp c.sim hw
  · rename_i hpc
    obtain ⟨s1, e1⟩ := applyTransition_isSome c.sim hinv1 (hsim (Or.inl hpc))
    have e2 : ∃ s2 : sim_obj, c.sim.simulateIter = some s2 := by
      simp only [sim_obj.simulateIter, e1, Option.bind_eq_bind, Option.some_bind]
      split
      · exact ⟨_, rfl⟩
      · exact ⟨_, rfl⟩
    obtain ⟨s2, e2⟩ := e2
    simp only [e2, Option.bind_eq_bind, Option.some_bind]
    exact ⟨_, rfl⟩
  · split
    · exact ⟨_, rfl⟩
    · exact ⟨_, rfl⟩

/-- With the mouse always at a column of the window, `runApp` is defined along every sequence of
inputs and keeps its invariant. -/
theorem foldlM_next_isSome (KEY_MOUSE : Int) (inputs : List input) :
    ∀ c0 : app, appInv c0 → (∀ inp ∈ inputs, inp.inWindow = true) →
      ∃ c : app, inputs.foldlM (fun c inp => c.next KEY_MOUSE inp) c0 = some c ∧ appInv c := by
  induction inputs with
  | nil =>
    intro c0 hinv0 _
    exact ⟨c0, rfl, hinv0⟩
  | cons inp inputs ih =>
    intro c0 hinv0 hall
    obtain ⟨c1, e1⟩ := next_isSome KEY_MOUSE c0 inp hinv0 (hall inp (List.mem_cons_self _ _))
    obtain ⟨c, e, hinv⟩ := ih c1 (next_inv KEY_MOUSE c0 c1 inp hinv0 e1)
      (fun i hi => hall i (List.mem_cons_of_mem _ hi))
    refine ⟨c, ?_, hinv⟩
    simp only [List.foldlM_cons, e1, Option.bind_eq_bind, Option.some_bind]
    exact e

/-- Lookup safety inside the window.  For every session of `runApp` whose mouse positions are
all at columns `0 <= x < 80`, the code is defined all along, and whenever control stands at the
call of `applyTransition` the head state is a non-halting state with ordinal in 0..15, the head
position is in `[0, 1024)` and the symbol under the head has ordinal in 0..5, so the tape read,
the rule lookup and `applyTransition` itself are inside their arrays. -/
theorem runApp_lookup_safety_in_window (KEY_MOUSE : Int) (s0 : sim_obj) (first : input)
    (inputs : List input) (hfirst : first.inWindow = true)
    (hall : ∀ inp ∈ inputs, inp.inWindow = true) :
    ∃ c : app, runApp KEY_MOUSE s0 first inputs = some c
      ∧ (c.pc = control.simulateTop →
          (0 ≤ c.sim.th_obj.curr_state ∧ c.sim.th_obj.curr_state ≤ 15)
            ∧ ¬ isHalting c.sim.th_obj.curr_state
            ∧ (0 ≤ c.sim.th_obj.loc ∧ c.sim.th_obj.loc < 1024)
            ∧ (0 ≤ c.sim.tape_obj.values c.sim.th_obj.loc
                ∧ c.sim.tape_obj.values c.sim.th_obj.loc ≤ 5)
            ∧ c.sim.tape_obj.getTapeCell c.sim.th_obj.loc
                = some (c.sim.tape_obj.values c.sim.th_obj.loc)
            ∧ c.sim.rule c.sim.th_obj.curr_state (c.sim.tape_obj.values c.sim.th_obj.loc)
                = some (c.sim.ruleset c.sim.th_obj.curr_state
                    (c.sim.tape_obj.values c.sim.th_obj.loc))
            ∧ c.sim.applyTransition.isSome = true) := by
  have hfirst2 : input.inWindow { first with key := 97 } = true := hfirst
  obtain ⟨c0, e0⟩ := runAppBody_isSome KEY_MOUSE { first with key := 97 }
    (s0.reInitializeEverything false first.rand) hfirst2
  have hinv0 : appInv c0 :=
    runAppBody_inv KEY_MOUSE _ _ c0 (reInitializeEverything_inv s0 false first.rand) e0
  obtain ⟨c, e, hinv⟩ := foldlM_next_isSome KEY_MOUSE inputs c0 hinv0 hall
  refine ⟨c, ?_, ?_⟩
  · simp only [runApp, e0, Option.bind_eq_bind, Option.some_bind]
    exact e
  · intro hpc
    have hh : c.sim.halt = false := hinv.2 (Or.inl hpc)
    obtain ⟨hp, hq, hc⟩ := engineInv_bounds c.sim hinv.1 hh
    obtain ⟨s2, e2⟩ := applyTransition_isSome c.sim hinv.1 hh
    have hnh : ¬ isHalting c.sim.th_obj.curr_state := not_isHalting_of_lt _ hq.2
    refine ⟨?_, hnh, hp, ?_, ?_, ?_, ?_⟩
    · simp only [NUMSTT] at hq
      omega
    · simp only [NUMSYM] at hc
      omega
    · simp only [tape.getTapeCell, hp, and_self, if_true]
    · simp only [sim_obj.rule, hq, hc, and_self, if_true]
    · rw [e2]
      rfl

set_option maxRecDepth 100000 in
/-- Instance of lookup safety inside the window: the session of a click on rule
(state 0, Blank), the space key, one pass of the loop of `simulate` and an idle `getch()` stands
again at the call of `applyTransition`. -/
theorem runApp_lookup_safety_in_window_witness :
    ∃ c : app, runApp 539 scrambled { key := 0, mx := 0, my := 0, rand := sampleRand }
        sampleSession = some c
      ∧ c.pc = control.simulateTop
      ∧ (0 ≤ c.sim.th_obj.curr_state ∧ c.sim.th_obj.curr_state ≤ 15)
      ∧ (0 ≤ c.sim.th_obj.loc ∧ c.sim.th_obj.loc < 1024)
      ∧ c.sim.applyTransition.isSome = true := by
  obtain ⟨c, hc, hs⟩ := runApp_lookup_safety_in_window 539 scrambled
    { key := 0, mx := 0, my := 0, rand := sampleRand } sampleSession (by decide) (by decide)
  have hpc : Option.map app.pc (some c) = some control.simulateTop := by
    rw [← hc]
    decide
  have hpc2 : c.pc = control.simulateTop := by
    simpa using hpc
  have h := hs hpc2
  exact ⟨c, hc, hpc2, h.1, h.2.2.1, h.2.2.2.2.2.2⟩

set_option maxRecDepth 100000 in
/-- Evaluation for C9 at the failing input.  The session `haltingSession` leaves the machine
halted in state Accept (17).  A click at `(82, 10)` then passes the test `x % 5 == 2` with the
state index `(82 - 2) / 5 = 16`: `ruleset[16][0]` is one row past the 16 x 6 table, so the read
in `getNextRuleState`, the write of `next_state`, the click handler and the whole session have
no defined result. -/
theorem click_beyond_table_leaves_ruleset :
    Option.map
        (fun c => (c.sim.halt, c.sim.th_obj.curr_state, (c.sim.rule 16 0).isSome,
          (c.sim.getNextRuleState 16 0).isSome, (c.sim.cycleNextState 16 0).isSome,
          (c.sim.checkTransitionTableClick 82 10).isSome))
        (runApp 539 scrambled { key := 0, mx := 0, my := 0, rand := sampleRand } haltingSession)
        = some (true, 17, false, false, false, false)
      ∧ (82 : Int).tmod 5 = 2 ∧ ((82 : Int) - 2).tdiv 5 = 16
      ∧ (runApp 539 scrambled { key := 0, mx := 0, my := 0, rand := sampleRand }
          beyondTableSession).isSome = false := by
  decide

end TuringExplorer
